import Mathlib

/-!
The upstart bridges: uevent decoder and avahi event emitter.

A shallow embedding of `extra/upstart-uevent-bridge.c` (the function
`netlink_monitor_watcher`) and of `extra/upstart-avahi-bridge.c` (the function
`emit_event`, the signal filters of the browsers, `avahi_create_browser_proxy`
and the end of `main`), followed by theorems about them.

Conventions of the embedding.

* A byte is a `Nat` below 256; a buffer is a `List Nat`.
* A `char *` that points into `buf` is the offset of the byte it points to;
  `NULL` is `none`.  The string a pointer denotes is read from the buffer at the
  moment the pointer is used, as in C.
* The variables `netlink_monitor_watcher` declares before its `while` loop
  (the ten field pointers and `env_len`) live in `Vars` and are threaded
  through the iterations; `initialized` is declared inside the loop body and is
  therefore fresh for each datagram.
* Library functions (`strchr`, `strncmp`, `strcmp`, `strtol`, `memcmp`,
  `htonl`, `nih_str_array_new`, `nih_str_array_addp`, `nih_sprintf`) are
  modelled by their documented behaviour.
* Nothing in `netlink_monitor_watcher` compares the start of the property scan
  with the size of `buf`.  A search for NUL through a pointer beyond the end of
  `buf` is undefined behaviour; the loop body then ends in `Flow.fault`.  A
  search that starts inside `buf` or at its end and finds no NUL in `buf` reads
  on behind the array and ends the scan loop (see `NulSearch`).
-/

namespace Uevent

/-! ## Bytes and C strings -/

/-- The bytes of a string literal, without the terminating NUL. -/
def lit (s : String) : List Nat := s.toList.map Char.toNat

/-- Size of the receive buffer, `char buf[4096]`. -/
def BUFSIZE : Nat := 4096

/-- The C string that starts at offset `p`: the bytes up to, and without, the
first NUL.  (If no NUL follows inside the buffer the bytes up to the end of the
buffer are returned; C leaves that case undefined.) -/
def cstr (buf : List Nat) (p : Nat) : List Nat :=
  (buf.drop p).takeWhile (fun b => b != 0)

/-- Index of the first occurrence of the byte `c` in a list. -/
def findByte (c : Nat) : List Nat → Option Nat
  | [] => none
  | b :: bs => if b = c then some 0 else (findByte c bs).map (fun i => i + 1)

/-- What a search for NUL from the pointer `s` meets.

* `found n`: the first NUL at or behind `s` lies inside the array, at offset `n`.
* `behind`: `s` points into the array or to its end and the array holds no NUL
  from `s` on; the search reads on in the bytes that follow the array in memory.
  Any NUL it finds there lies at the end of the array or behind it.
* `outside`: `s` lies beyond the end of the array.  The read is outside the
  array from its first byte on and C leaves the behaviour undefined; the
  process is killed when the address is not mapped. -/
inductive NulSearch where
  | found (n : Nat)
  | behind
  | outside
deriving DecidableEq, Repr

/-- The call `strchr (s, 0)` on the array `buf`. -/
def strchr_nul (buf : List Nat) (s : Nat) : NulSearch :=
  if buf.length < s then NulSearch.outside
  else if s + (cstr buf s).length < buf.length then NulSearch.found (s + (cstr buf s).length)
  else NulSearch.behind

/-- The call `strchr (k, c)` for a byte `c` other than NUL: the offset of the
first `c` in the string at `k`, or `none` for `NULL`. -/
def strchr (buf : List Nat) (k : Nat) (c : Nat) : Option Nat :=
  (findByte c (cstr buf k)).map (fun i => k + i)

/-- Whether `strncmp (k, key, sizeof (key) - 1)` is zero, for a literal `key`:
the first `key.length` bytes of the string at `k` are the bytes of `key`. -/
def strncmp_eq (buf : List Nat) (k : Nat) (key : List Nat) : Bool :=
  (cstr buf k).take key.length == key

/-- Whether `strcmp (p, s)` is zero. -/
def strcmp_eq (buf : List Nat) (p : Nat) (s : List Nat) : Bool :=
  cstr buf p == s

/-! ## `strtol` with base 0 -/

/-- The C `isspace` in the "C" locale. -/
def isspace (c : Nat) : Bool := c == 32 || (9 ≤ c && c ≤ 13)

/-- Value of a digit character, for bases up to 36. -/
def digitVal (c : Nat) : Option Nat :=
  if 48 ≤ c ∧ c ≤ 57 then some (c - 48)
  else if 97 ≤ c ∧ c ≤ 122 then some (c - 87)
  else if 65 ≤ c ∧ c ≤ 90 then some (c - 55)
  else none

/-- Whether `c` is a digit of the given base. -/
def isDigitOf (base : Nat) (c : Nat) : Bool :=
  match digitVal c with
  | some d => d < base
  | none => false

/-- Accumulate the longest prefix of digits of the given base. -/
def parseDigits (base : Nat) : List Nat → Nat → Nat
  | [], acc => acc
  | c :: cs, acc =>
    match digitVal c with
    | some d => if d < base then parseDigits base cs (acc * base + d) else acc
    | none => acc

/-- The constant `LONG_MAX` on an LP64 platform. -/
def LONG_MAX : Int := 2 ^ 63 - 1

/-- The constant `LONG_MIN` on an LP64 platform. -/
def LONG_MIN : Int := -(2 ^ 63)

/-- The result of `strtol` for a sign and a magnitude: the value clamped to
the range of `long`. -/
def clampLong (neg : Bool) (mag : Nat) : Int :=
  if neg then max LONG_MIN (-(mag : Int)) else min LONG_MAX (mag : Int)

/-- The digits `strtol` converts with base 0, once white space and sign are
removed: a `0x`/`0X` followed by a hexadecimal digit selects base 16, another
leading `0` base 8, anything else base 10; the longest run of digits of that
base is converted. -/
def strtolMagnitude (s : List Nat) : Nat :=
  match s with
  | 48 :: x :: h :: r =>
    if (x == 120 || x == 88) && isDigitOf 16 h then parseDigits 16 (h :: r) 0
    else parseDigits 8 s 0
  | 48 :: _ => parseDigits 8 s 0
  | _ => parseDigits 10 s 0

/-- The call `strtol (v, NULL, 0)` on the string `v`: leading white space is
skipped, then an optional sign, then the digits are converted and the result is
clamped to the range of `long`. -/
def strtol (v : List Nat) : Int :=
  let s1 := v.dropWhile isspace
  let s2 := if s1.head? == some 45 || s1.head? == some 43 then s1.tail else s1
  clampLong (s1.head? == some 45) (strtolMagnitude s2)

/-- The conversion of a `long` to `unsigned long int` (64 bits). -/
def toUnsignedLong (x : Int) : Nat := (x % 2 ^ 64).toNat

/-! ## Byte order -/

/-- Byte `i` of the buffer (0 beyond its end). -/
def byteAt (buf : List Nat) (i : Nat) : Nat := buf.getD i 0

/-- The value of `*(unsigned int *) &buf[off]` on a host of the given byte
order. -/
def load32 (hostLE : Bool) (buf : List Nat) (off : Nat) : Nat :=
  if hostLE then
    byteAt buf off + 256 * byteAt buf (off + 1) + 65536 * byteAt buf (off + 2)
      + 16777216 * byteAt buf (off + 3)
  else
    16777216 * byteAt buf off + 65536 * byteAt buf (off + 1) + 256 * byteAt buf (off + 2)
      + byteAt buf (off + 3)

/-- Reversal of the four bytes of a 32-bit value. -/
def bswap32 (x : Nat) : Nat :=
  (x % 256) * 16777216 + (x / 256 % 256) * 65536 + (x / 65536 % 256) * 256 + x / 16777216 % 256

/-- The function `htonl`: the identity on a big-endian host, a byte swap on a
little-endian one. -/
def htonl (hostLE : Bool) (x : Nat) : Nat := if hostLE then bswap32 x else x

/-- The four bytes at `off` read as a 32-bit big-endian number. -/
def be32 (buf : List Nat) (off : Nat) : Nat :=
  16777216 * byteAt buf off + 65536 * byteAt buf (off + 1) + 256 * byteAt buf (off + 2)
    + byteAt buf (off + 3)

/-- The constant the magic value is compared with. -/
def UDEV_MAGIC : Nat := 0xfeedcafe

/-- The eight bytes of `"libudev"` with its terminating NUL, which is what
`memcmp (buf, "libudev", sizeof ("libudev"))` compares. -/
def LIBUDEV : List Nat := lit "libudev" ++ [0]

/-! ## State of `netlink_monitor_watcher` -/

/-- The variables declared at the top of `netlink_monitor_watcher` that keep
their value from one iteration of the receive loop to the next. -/
structure Vars where
  subsystem : Option Nat
  subsystem_var : Option Nat
  action : Option Nat
  action_var : Option Nat
  kernel : Option Nat
  kernel_var : Option Nat
  devpath : Option Nat
  devpath_var : Option Nat
  devname : Option Nat
  devname_var : Option Nat
  env_len : Nat
deriving DecidableEq, Repr

/-- The initial values: every pointer `NULL`, `env_len = 0`. -/
def Vars.init : Vars :=
  ⟨none, none, none, none, none, none, none, none, none, none, 0⟩

/-- The if/else-if chain of the scan loop applied to one token with key offset
`k` and value offset `v`. -/
def assign (buf : List Nat) (k v : Nat) (vs : Vars) (initialized : Nat) : Vars × Nat :=
  if strncmp_eq buf k (lit "ACTION") then
    ({ vs with action := some v, action_var := some k }, initialized)
  else if strncmp_eq buf k (lit "KERNEL") then
    ({ vs with kernel := some v, kernel_var := some k }, initialized)
  else if strncmp_eq buf k (lit "DEVPATH") then
    ({ vs with devpath := some v, devpath_var := some k }, initialized)
  else if strncmp_eq buf k (lit "DEVNAME") then
    ({ vs with devname := some v, devname_var := some k }, initialized)
  else if strncmp_eq buf k (lit "SUBSYSTEM") then
    ({ vs with subsystem := some v, subsystem_var := some k }, initialized)
  else if strncmp_eq buf k (lit "USEC_INITIALIZED") then
    (vs, toUnsignedLong (strtol (cstr buf v)))
  else
    (vs, initialized)

/-- The loop `while ((n = strchr (s, 0)) && n < &buf[len])`.  Every iteration
moves `s` past at least one byte below `len`, so `len` iterations always
suffice; the first argument bounds the number of iterations.  The result is
`none` when `strchr` is called on a pointer beyond the end of the array
(undefined behaviour).  A search that leaves the array from inside ends the
loop: `len` is at most the size of the array, so a NUL found at the end of the
array or behind it is not below `&buf[len]`. -/
def scan : Nat → List Nat → Nat → Nat → Vars → Nat → Option (Vars × Nat)
  | 0, buf, _, s, vs, initialized =>
    match strchr_nul buf s with
    | NulSearch.outside => none
    | _ => some (vs, initialized)
  | fuel + 1, buf, len, s, vs, initialized =>
    match strchr_nul buf s with
    | NulSearch.outside => none
    | NulSearch.behind => some (vs, initialized)
    | NulSearch.found n =>
      if n < len then
        match strchr buf s 61 with
        | none => some (vs, initialized)
        | some e =>
          let r := assign buf s (e + 1) vs initialized
          scan fuel buf len (n + 1) r.1 r.2
      else some (vs, initialized)

/-! ## Environment array (libnih) -/

/-- One `char *` cell of a string array: `NULL`, a string, or a cell that
`realloc` added and nothing has written yet. -/
inductive Cell where
  | null
  | str (s : List Nat)
  | junk
deriving DecidableEq, Repr

/-- The function `nih_str_array_new`: an array of one cell holding `NULL`. -/
def nih_str_array_new : List Cell := [Cell.null]

/-- The function `nih_str_array_addp (&env, NULL, &env_len, var)`: the array is
reallocated to `env_len + 2` cells, `var` is stored at index `env_len`, `NULL`
at index `env_len + 1`, and `env_len` is incremented. -/
def nih_str_array_addp (env : List Cell) (env_len : Nat) (var : List Nat) : List Cell × Nat :=
  let grown := (env ++ List.replicate (env_len + 2 - env.length) Cell.junk).take (env_len + 2)
  ((grown.set env_len (Cell.str var)).set (env_len + 1) Cell.null, env_len + 1)

/-- The strings a reader of the `NULL`-terminated array sees. -/
def envStrings : List Cell → List (List Nat)
  | Cell.str s :: rest => s :: envStrings rest
  | _ => []

/-- The array and `env_len` after the strings `strs` were added, in order, to
a new array with `env_len = 0`. -/
def envState (strs : List (List Nat)) : List Cell × Nat :=
  (strs.map Cell.str ++ [Cell.null], strs.length)

/-! ## One datagram -/

/-- A call of `upstart_emit_event (upstart, name, env, wait, ...)`. -/
structure Emission where
  name : List Nat
  env : List (List Nat)
  wait : Bool
deriving DecidableEq, Repr

/-- How an iteration of the receive loop ends: by `return`, by reaching the
end of the body or a `continue`, or in undefined behaviour because it read
through a pointer beyond the end of `buf` (`fault`). -/
inductive Flow where
  | returned
  | next
  | fault
deriving DecidableEq, Repr

/-- Result of one iteration of the receive loop. -/
structure Step where
  vars : Vars
  emitted : Option Emission
  flow : Flow
deriving DecidableEq, Repr

/-- What `%s` prints for a pointer: the string, or `(null)` for `NULL`. -/
def fmtS (buf : List Nat) (p : Option Nat) : List Nat :=
  match p with
  | some q => cstr buf q
  | none => lit "(null)"

/-- The string copied by `nih_strdup` from a pointer. -/
def strdup (buf : List Nat) (p : Option Nat) : List Nat :=
  match p with
  | some q => cstr buf q
  | none => []

/-- Where the property scan starts: `none` when the magic check fails (the
function returns), otherwise the value of `s`. -/
def scanStart (hostLE : Bool) (buf : List Nat) : Option Nat :=
  if buf.take 8 == LIBUDEV then
    if htonl hostLE (load32 hostLE buf 8) != UDEV_MAGIC then none
    else some (load32 hostLE buf 16)
  else some ((cstr buf 0).length + 1)

/-- The event name built from `action` and `subsystem`. -/
def eventName (buf : List Nat) (vs : Vars) : List Nat :=
  match vs.action with
  | none => []
  | some a =>
    if strcmp_eq buf a (lit "add") then fmtS buf vs.subsystem ++ lit "-device-added"
    else if strcmp_eq buf a (lit "change") then fmtS buf vs.subsystem ++ lit "-device-changed"
    else if strcmp_eq buf a (lit "remove") then fmtS buf vs.subsystem ++ lit "-device-removed"
    else fmtS buf vs.subsystem ++ lit "-device-" ++ cstr buf a

/-- The environment array and `env_len` after the `if (kernel)` block. -/
def envKernel (buf : List Nat) (vs : Vars) : List Cell × Nat :=
  if vs.kernel.isSome then
    nih_str_array_addp nih_str_array_new vs.env_len (strdup buf vs.kernel_var)
  else (nih_str_array_new, vs.env_len)

/-- The environment array and `env_len` after the `if (devpath)` block, when
`devpath` is set. -/
def envDevpath (buf : List Nat) (vs : Vars) : List Cell × Nat :=
  nih_str_array_addp (envKernel buf vs).1 (envKernel buf vs).2 (strdup buf vs.devpath_var)

/-- The environment array and `env_len` after the `if (devname)` block. -/
def envDevname (buf : List Nat) (vs : Vars) : List Cell × Nat :=
  if vs.devname.isSome then
    nih_str_array_addp (envDevpath buf vs).1 (envDevpath buf vs).2 (strdup buf vs.devname_var)
  else envDevpath buf vs

/-- The environment array and `env_len` after the `if (subsystem)` block, when
`subsystem` is set. -/
def envSubsystem (buf : List Nat) (vs : Vars) : List Cell × Nat :=
  nih_str_array_addp (envDevname buf vs).1 (envDevname buf vs).2 (strdup buf vs.subsystem_var)

/-- The environment array and `env_len` after the `if (action)` block, when
`action` is set. -/
def envAction (buf : List Nat) (vs : Vars) : List Cell × Nat :=
  nih_str_array_addp (envSubsystem buf vs).1 (envSubsystem buf vs).2 (strdup buf vs.action_var)

/-- The part of the loop body after the scan: the two `return`s, the name, the
environment with its `continue`s, and the call of `upstart_emit_event`. -/
def finish (buf : List Nat) (vs : Vars) (initialized : Nat) : Step :=
  if vs.action.isNone then ⟨vs, none, Flow.returned⟩
  else if initialized = 0 then ⟨vs, none, Flow.returned⟩
  else if vs.devpath.isNone then
    ⟨{ vs with env_len := (envKernel buf vs).2 }, none, Flow.next⟩
  else if vs.subsystem.isNone then
    ⟨{ vs with env_len := (envDevname buf vs).2 }, none, Flow.next⟩
  else
    ⟨{ vs with env_len := (envAction buf vs).2 },
      some ⟨eventName buf vs, envStrings (envAction buf vs).1, false⟩, Flow.next⟩

/-- The body of the receive loop for a buffer that holds a datagram of `len`
bytes.  Nothing checks that the start of the scan lies inside `buf`; when it
does not, the body ends in `Flow.fault` before any field is assigned. -/
def body (hostLE : Bool) (buf : List Nat) (len : Nat) (vs : Vars) : Step :=
  match scanStart hostLE buf with
  | none => ⟨vs, none, Flow.returned⟩
  | some s =>
    match scan len buf len s vs 0 with
    | none => ⟨vs, none, Flow.fault⟩
    | some r => finish buf r.1 r.2

/-- The buffer after `recvmsg` stored a datagram in it: at most `BUFSIZE`
bytes are written at the start, the bytes behind them keep their old value. -/
def recvInto (buf : List Nat) (d : List Nat) : List Nat :=
  d.take BUFSIZE ++ buf.drop (d.take BUFSIZE).length

/-- The receive loop over the queue of pending datagrams.  The result is the
list of emissions, in order, and the datagrams left unread on the socket.  An
empty queue makes `recvmsg` fail with `EAGAIN` (the `break`); a datagram of
length 0 makes the loop condition false.  (Other failures of `recvmsg` end the
loop like the empty queue and are not modelled.)  An iteration that ends in
`Flow.fault` is the last one: nothing is emitted by it or after it, and the
datagrams behind it stay unread. -/
def receiveLoop (hostLE : Bool) : List (List Nat) → List Nat → Vars →
    List Emission × List (List Nat)
  | [], _, _ => ([], [])
  | d :: q, buf, vs =>
    if (d.take BUFSIZE).length = 0 then ([], q)
    else
      let r := body hostLE (recvInto buf d) (d.take BUFSIZE).length vs
      match r.flow with
      | Flow.returned => (r.emitted.toList, q)
      | Flow.fault => (r.emitted.toList, q)
      | Flow.next =>
        let rest := receiveLoop hostLE q (recvInto buf d) r.vars
        (r.emitted.toList ++ rest.1, rest.2)

/-- The function `netlink_monitor_watcher`, called on one readiness wakeup with
`stack` the contents of the uninitialised `buf` and `queue` the datagrams
pending on the socket. -/
def netlink_monitor_watcher (hostLE : Bool) (stack : List Nat) (queue : List (List Nat)) :
    List Emission × List (List Nat) :=
  receiveLoop hostLE queue stack Vars.init

/-- A property block: every token followed by NUL. -/
def properties (toks : List (List Nat)) : List Nat :=
  (toks.map (fun t => t ++ [0])).flatten

/-- A plain datagram: header, NUL, then the property block. -/
def datagram (hdr : List Nat) (toks : List (List Nat)) : List Nat :=
  hdr ++ 0 :: properties toks

/-- An enveloped datagram as libudev sends it on a little-endian host: the
eight bytes `libudev` and NUL, the four bytes of the magic value, the header
size, the properties offset (both 40), 20 further header bytes, then the
property block. -/
def envelope (magic : List Nat) (toks : List (List Nat)) : List Nat :=
  LIBUDEV ++ magic ++ [40, 0, 0, 0] ++ [40, 0, 0, 0] ++ List.replicate 20 0 ++ properties toks

/-- The event name the specification gives for a device record with subsystem
`s` and action `a`. -/
def deviceEventName (s a : List Nat) : List Nat :=
  if a = lit "add" then s ++ lit "-device-added"
  else if a = lit "change" then s ++ lit "-device-changed"
  else if a = lit "remove" then s ++ lit "-device-removed"
  else s ++ lit "-device-" ++ a

/-- The receive buffer as it is on entry in the examples: 4096 zero bytes. -/
def zeroStack : List Nat := List.replicate BUFSIZE 0

/-! ## Token-level view of the scan -/

/-- The strings the ten field pointers denote in a buffer. -/
structure View where
  subsystem : Option (List Nat)
  subsystem_var : Option (List Nat)
  action : Option (List Nat)
  action_var : Option (List Nat)
  kernel : Option (List Nat)
  kernel_var : Option (List Nat)
  devpath : Option (List Nat)
  devpath_var : Option (List Nat)
  devname : Option (List Nat)
  devname_var : Option (List Nat)
deriving DecidableEq, Repr

/-- The strings that the pointers of `vs` denote in `buf`. -/
def view (buf : List Nat) (vs : Vars) : View :=
  { subsystem := vs.subsystem.map (cstr buf)
    subsystem_var := vs.subsystem_var.map (cstr buf)
    action := vs.action.map (cstr buf)
    action_var := vs.action_var.map (cstr buf)
    kernel := vs.kernel.map (cstr buf)
    kernel_var := vs.kernel_var.map (cstr buf)
    devpath := vs.devpath.map (cstr buf)
    devpath_var := vs.devpath_var.map (cstr buf)
    devname := vs.devname.map (cstr buf)
    devname_var := vs.devname_var.map (cstr buf) }

/-- The if/else-if chain of the scan loop on the strings: `t` is the token and
`e` the index of its first `=`. -/
def assignView (t : List Nat) (e : Nat) (w : View) (initialized : Nat) : View × Nat :=
  if t.take (lit "ACTION").length == lit "ACTION" then
    ({ w with action := some (t.drop (e + 1)), action_var := some t }, initialized)
  else if t.take (lit "KERNEL").length == lit "KERNEL" then
    ({ w with kernel := some (t.drop (e + 1)), kernel_var := some t }, initialized)
  else if t.take (lit "DEVPATH").length == lit "DEVPATH" then
    ({ w with devpath := some (t.drop (e + 1)), devpath_var := some t }, initialized)
  else if t.take (lit "DEVNAME").length == lit "DEVNAME" then
    ({ w with devname := some (t.drop (e + 1)), devname_var := some t }, initialized)
  else if t.take (lit "SUBSYSTEM").length == lit "SUBSYSTEM" then
    ({ w with subsystem := some (t.drop (e + 1)), subsystem_var := some t }, initialized)
  else if t.take (lit "USEC_INITIALIZED").length == lit "USEC_INITIALIZED" then
    (w, toUnsignedLong (strtol (t.drop (e + 1))))
  else
    (w, initialized)

/-- The scan loop on a list of tokens: it stops at the first token without
`=`. -/
def decodeToks : List (List Nat) → View → Nat → View × Nat
  | [], w, initialized => (w, initialized)
  | t :: ts, w, initialized =>
    match findByte 61 t with
    | none => (w, initialized)
    | some e => decodeToks ts (assignView t e w initialized).1 (assignView t e w initialized).2

/-! ## Example datagrams -/

/-- An enveloped frame with magic value `0xdeadbeef` around a valid record. -/
def badMagicFrame : List Nat :=
  envelope [0xde, 0xad, 0xbe, 0xef]
    [lit "ACTION=add", lit "SUBSYSTEM=x", lit "DEVPATH=y", lit "USEC_INITIALIZED=1"]

/-- A record with an action other than the three known ones. -/
def moveRecord : List Nat :=
  datagram (lit "move@/y")
    [lit "ACTION=move", lit "DEVPATH=/y", lit "SUBSYSTEM=net", lit "USEC_INITIALIZED=7"]

/-- A valid record with the three mandatory fields. -/
def validRecord : List Nat :=
  datagram (lit "add@/y")
    [lit "ACTION=add", lit "DEVPATH=/y", lit "SUBSYSTEM=x", lit "USEC_INITIALIZED=1"]

/-- A valid record that also has `KERNEL` and `DEVNAME`. -/
def fullRecord : List Nat :=
  datagram (lit "add@/y")
    [lit "ACTION=add", lit "DEVPATH=/y", lit "SUBSYSTEM=x", lit "KERNEL=k0", lit "DEVNAME=n0",
      lit "USEC_INITIALIZED=1"]

/-- A record without an `ACTION` token. -/
def noActionRecord : List Nat :=
  datagram (lit "change@/y") [lit "SUBSYSTEM=x", lit "DEVPATH=y", lit "USEC_INITIALIZED=1"]

/-- A record whose `USEC_INITIALIZED` is zero. -/
def zeroUsecRecord : List Nat :=
  datagram (lit "add@/y")
    [lit "ACTION=add", lit "DEVPATH=/y", lit "SUBSYSTEM=x", lit "USEC_INITIALIZED=0"]

/-- A valid record followed by the token `DEVPATH_OLD=/a`. -/
def devpathOldRecord : List Nat :=
  datagram (lit "add@/y")
    [lit "ACTION=add", lit "DEVPATH=/y", lit "SUBSYSTEM=x", lit "USEC_INITIALIZED=1",
      lit "DEVPATH_OLD=/a"]

/-- A valid record followed by the token `ACTIONS=x`. -/
def actionsRecord : List Nat :=
  datagram (lit "add@/y")
    [lit "ACTION=add", lit "DEVPATH=/y", lit "SUBSYSTEM=x", lit "USEC_INITIALIZED=1",
      lit "ACTIONS=x"]

/-- A record with two `ACTION` tokens. -/
def twoActionsRecord : List Nat :=
  datagram (lit "add@/y")
    [lit "ACTION=add", lit "SUBSYSTEM=x", lit "DEVPATH=y", lit "USEC_INITIALIZED=1",
      lit "ACTION=remove"]

/-! ## Further example datagrams -/

/-- An enveloped datagram with the matching magic value around a valid
record, with the properties offset 40 stored in little-endian order. -/
def goodFrame : List Nat :=
  envelope [0xfe, 0xed, 0xca, 0xfe]
    [lit "ACTION=add", lit "SUBSYSTEM=x", lit "DEVPATH=y", lit "USEC_INITIALIZED=1"]

/-- The same datagram with the properties offset 40 stored in big-endian
order. -/
def bigEndianOffsetFrame : List Nat :=
  LIBUDEV ++ [0xfe, 0xed, 0xca, 0xfe] ++ [0, 0, 0, 40] ++ [0, 0, 0, 40] ++ List.replicate 20 0
    ++ properties [lit "ACTION=add", lit "SUBSYSTEM=x", lit "DEVPATH=y", lit "USEC_INITIALIZED=1"]

/-- A datagram whose first seven bytes are `libudev` and whose eighth byte is
`X`, followed by NUL and a valid record. -/
def libudevXRecord : List Nat :=
  datagram (lit "libudevX")
    [lit "ACTION=add", lit "SUBSYSTEM=x", lit "DEVPATH=y", lit "USEC_INITIALIZED=1"]

/-- A valid record behind the seven-byte header `add@/yy`. -/
def sevenByteHeaderRecord : List Nat :=
  datagram (lit "add@/yy")
    [lit "ACTION=add", lit "SUBSYSTEM=x", lit "DEVPATH=y", lit "USEC_INITIALIZED=1"]

/-- The same record behind the header `libudev`, of the same length. -/
def libudevHeaderRecord : List Nat :=
  datagram (lit "libudev")
    [lit "ACTION=add", lit "SUBSYSTEM=x", lit "DEVPATH=y", lit "USEC_INITIALIZED=1"]

/-- A valid record behind a one-byte header. -/
def shortHeaderRecord : List Nat :=
  datagram (lit "a")
    [lit "ACTION=add", lit "DEVPATH=/y", lit "SUBSYSTEM=x", lit "USEC_INITIALIZED=1"]

/-- A record without `ACTION` behind the header `change@/devices`. -/
def lowerHeaderRecord : List Nat :=
  datagram (lit "change@/devices")
    [lit "SUBSYSTEM=x", lit "DEVPATH=y", lit "USEC_INITIALIZED=1"]

/-- The same record behind the header `change@/DEVICES`, of the same length. -/
def upperHeaderRecord : List Nat :=
  datagram (lit "change@/DEVICES")
    [lit "SUBSYSTEM=x", lit "DEVPATH=y", lit "USEC_INITIALIZED=1"]

/-- A record with a token without `=` in the middle: the tokens behind it
would change the action and the subsystem. -/
def malformedRecord : List Nat :=
  datagram (lit "add@/y")
    [lit "ACTION=add", lit "DEVPATH=/y", lit "SUBSYSTEM=a=b", lit "USEC_INITIALIZED=1",
      lit "garbage", lit "ACTION=remove", lit "SUBSYSTEM=z"]

/-- The property block of a valid record. -/
def validProperties : List Nat :=
  properties [lit "ACTION=add", lit "SUBSYSTEM=x", lit "DEVPATH=y", lit "USEC_INITIALIZED=1"]

/-! ## Pointers behind the header -/

/-- Every pointer of `vs` that is set points at offset `s0` or behind. -/
def Vars.From (s0 : Nat) (vs : Vars) : Prop :=
  (∀ p, vs.subsystem = some p → s0 ≤ p) ∧ (∀ p, vs.subsystem_var = some p → s0 ≤ p) ∧
  (∀ p, vs.action = some p → s0 ≤ p) ∧ (∀ p, vs.action_var = some p → s0 ≤ p) ∧
  (∀ p, vs.kernel = some p → s0 ≤ p) ∧ (∀ p, vs.kernel_var = some p → s0 ≤ p) ∧
  (∀ p, vs.devpath = some p → s0 ≤ p) ∧ (∀ p, vs.devpath_var = some p → s0 ≤ p) ∧
  (∀ p, vs.devname = some p → s0 ≤ p) ∧ (∀ p, vs.devname_var = some p → s0 ≤ p)

/-! ## The messages logged after the call -/

/-- The end of the loop body after the call of `upstart_emit_event`, for an
iteration that got as far as the call: `pending` tells whether the call
returned a pending call, `enomem` whether `errno` was `ENOMEM`, `message` is
the message of the raised error.  The result is the list of warnings logged. -/
def emitWarnings (buf : List Nat) (vs : Vars) (pending enomem : Bool) (message : List Nat) :
    List (List Nat) :=
  if pending then []
  else
    message ::
      (if !enomem && vs.subsystem.isSome then
        [lit "Likely that uevent '" ++ fmtS buf vs.subsystem
          ++ lit "' event contains binary garbage"]
      else [])

/-- The loop body together with the warnings it logs for the outcome of its
call of `upstart_emit_event`. -/
def bodyLogged (hostLE : Bool) (buf : List Nat) (len : Nat) (vs : Vars)
    (pending enomem : Bool) (message : List Nat) : Step × List (List Nat) :=
  (body hostLE buf len vs,
    match (body hostLE buf len vs).emitted with
    | none => []
    | some _ => emitWarnings buf (body hostLE buf len vs).vars pending enomem message)

/-! ## Datagrams that end before their tokens do -/

/-- A valid record whose last token is not followed by NUL inside the
datagram. -/
def unterminatedRecord : List Nat :=
  lit "add@/y" ++ 0 :: properties [lit "ACTION=add", lit "DEVPATH=/y", lit "SUBSYSTEM=x"]
    ++ lit "USEC_INITIALIZED=1"

/-- An enveloped frame of 40 bytes with the matching magic value whose
properties offset is 40, the length of the frame. -/
def headerOnlyFrame : List Nat :=
  LIBUDEV ++ [0xfe, 0xed, 0xca, 0xfe] ++ [40, 0, 0, 0] ++ [40, 0, 0, 0] ++ List.replicate 20 0

/-- Contents of the receive buffer on entry that hold a valid property block
at offset 40. -/
def staleStack : List Nat :=
  List.replicate 40 1 ++ validProperties ++ List.replicate 8 0

/-- A datagram of six bytes without NUL. -/
def headerOnlyRecord : List Nat := lit "add@/y"

/-- An enveloped frame with the matching magic value whose properties offset
is 65536, stored in little-endian order, in front of a valid property
block. -/
def farOffsetFrame : List Nat :=
  LIBUDEV ++ [0xfe, 0xed, 0xca, 0xfe] ++ [40, 0, 0, 0] ++ [0, 0, 1, 0] ++ List.replicate 20 0
    ++ validProperties

/-! ## Decoding by last occurrence -/

/-- Whether a token begins with the bytes of `key`, which is what the
`strncmp` calls of the scan loop test. -/
def hasKey (key t : List Nat) : Bool := t.take key.length == key

/-- The last token of `toks` that begins with the bytes of `key`. -/
def lastWith (key : List Nat) (toks : List (List Nat)) : Option (List Nat) :=
  (toks.filter (hasKey key)).getLast?

/-- The value of a token: the bytes behind its first `=`. -/
def valueOf (t : List Nat) : List Nat :=
  match findByte 61 t with
  | some e => t.drop (e + 1)
  | none => []

/-- A value field after the tokens `toks`: the value of the last token with
the key, or the old value of the field when no token has the key. -/
def lastValue (key : List Nat) (toks : List (List Nat)) (old : Option (List Nat)) :
    Option (List Nat) :=
  match lastWith key toks with
  | some t => some (valueOf t)
  | none => old

/-- A token field after the tokens `toks`: the last token with the key, or the
old value of the field when no token has the key. -/
def lastToken (key : List Nat) (toks : List (List Nat)) (old : Option (List Nat)) :
    Option (List Nat) :=
  match lastWith key toks with
  | some t => some t
  | none => old

/-- The ten fields after the tokens `toks`, each taken from the last token
with its key. -/
def lastView (toks : List (List Nat)) (w : View) : View :=
  { subsystem := lastValue (lit "SUBSYSTEM") toks w.subsystem
    subsystem_var := lastToken (lit "SUBSYSTEM") toks w.subsystem_var
    action := lastValue (lit "ACTION") toks w.action
    action_var := lastToken (lit "ACTION") toks w.action_var
    kernel := lastValue (lit "KERNEL") toks w.kernel
    kernel_var := lastToken (lit "KERNEL") toks w.kernel_var
    devpath := lastValue (lit "DEVPATH") toks w.devpath
    devpath_var := lastToken (lit "DEVPATH") toks w.devpath_var
    devname := lastValue (lit "DEVNAME") toks w.devname
    devname_var := lastToken (lit "DEVNAME") toks w.devname_var }

/-- The value of `initialized` after the tokens `toks`: the `strtol` reading of
the value of the last token with the key `USEC_INITIALIZED`, or the old value
when no token has the key. -/
def lastInitialized (toks : List (List Nat)) (initialized : Nat) : Nat :=
  match lastWith (lit "USEC_INITIALIZED") toks with
  | some t => toUnsignedLong (strtol (valueOf t))
  | none => initialized

/-- The keys of the five fields that go into the environment. -/
def fieldKeys : List (List Nat) :=
  [lit "KERNEL", lit "DEVPATH", lit "DEVNAME", lit "SUBSYSTEM", lit "ACTION"]

/-- Tokens in which every key of the scan loop occurs twice. -/
def duplicateTokens : List (List Nat) :=
  [lit "ACTION=add", lit "SUBSYSTEM=x", lit "DEVPATH=/y", lit "KERNEL=k0", lit "DEVNAME=n0",
    lit "USEC_INITIALIZED=0", lit "DEVNAME=n1", lit "KERNEL=k1", lit "DEVPATH=/z",
    lit "SUBSYSTEM=w", lit "ACTION=remove", lit "USEC_INITIALIZED=1"]

/-- A record with these tokens. -/
def duplicatesRecord : List Nat := datagram (lit "add@/y") duplicateTokens

/-- A record with the three mandatory fields whose `USEC_INITIALIZED` token
has the value `u`. -/
def usecRecord (u : List Nat) : List Nat :=
  datagram (lit "add@/y")
    [lit "ACTION=add", lit "DEVPATH=/y", lit "SUBSYSTEM=x", lit "USEC_INITIALIZED=" ++ u]

/-- A record with the three mandatory fields and no `USEC_INITIALIZED`
token. -/
def noUsecRecord : List Nat :=
  datagram (lit "add@/y") [lit "ACTION=add", lit "DEVPATH=/y", lit "SUBSYSTEM=x"]

end Uevent

namespace Avahi

open Uevent (lit Cell nih_str_array_new nih_str_array_addp envStrings Emission)

/-- What `emit_event` did: its return value, the call of `upstart_emit_event`
it made (if any), and whether it logged a warning for a failed call. -/
structure EmitResult where
  ret : Int
  call : Option Emission
  warned : Bool
deriving DecidableEq, Repr

/-- What `%s` prints for the result of `if_indextoname`. -/
def fmtName (r : Option (List Nat)) : List Nat :=
  match r with
  | some s => s
  | none => lit "(null)"

/-- The function `emit_event`.  `if_indextoname` is the libc function that
resolves an interface index (`none` for `NULL`); `pending` tells whether
`upstart_emit_event` returns a pending call. `name`, `type` and `domain` are
`const char *` arguments, `none` for `NULL`. -/
def emit_event (if_indextoname : Int → Option (List Nat)) (pending : Bool)
    (action : List Nat) (interface protocol : Int)
    (name type domain : Option (List Nat)) (_flags : Nat) : EmitResult :=
  let event_name : Option (List Nat) :=
    if action = lit "ItemNew" then some (lit "net-service-up")
    else if action = lit "ItemRemove" then some (lit "net-service-down")
    else none
  match event_name with
  | none => ⟨-1, none, false⟩
  | some ev =>
    let e0 : List Cell × Nat := (nih_str_array_new, 0)
    let e1 := if interface ≠ -1 then
        nih_str_array_addp e0.1 e0.2 (lit "IFACE=" ++ fmtName (if_indextoname interface))
      else e0
    let e2 := if protocol ≠ -1 then
        nih_str_array_addp e1.1 e1.2
          (lit "PROTO=" ++ (if protocol = 0 then lit "IPv4" else lit "IPv6"))
      else e1
    let e3 := match name with
      | some n => nih_str_array_addp e2.1 e2.2 (lit "NAME=" ++ n)
      | none => e2
    let e4 := match domain with
      | some d => nih_str_array_addp e3.1 e3.2 (lit "DOMAIN=" ++ d)
      | none => e3
    let e5 := match type with
      | some t => nih_str_array_addp e4.1 e4.2 (lit "TYPE=" ++ t)
      | none => e4
    ⟨0, some ⟨ev, envStrings e5.1, false⟩, !pending⟩

/-- The arguments of an `ItemNew` or `ItemRemove` signal of a service browser,
as `dbus_message_get_args` extracts them. -/
structure ItemArgs where
  interface : Int
  protocol : Int
  name : List Nat
  type : List Nat
  domain : List Nat
  flags : Nat
deriving DecidableEq, Repr

/-- A D-Bus message as the signal filters look at it: whether it is a signal
of the proxied interface, its member name, whether path and sender match the
proxy, and its arguments (`none` when they do not have the expected types). -/
structure Signal where
  ifaceOk : Bool
  member : List Nat
  pathOk : Bool
  senderOk : Bool
  args : Option ItemArgs
deriving DecidableEq, Repr

/-- The common body of the two item filters of a service browser, for the
signal name they are registered under. -/
def itemFilter (signalName : List Nat) (if_indextoname : Int → Option (List Nat))
    (pending : Bool) (sig : Signal) : Option EmitResult :=
  if !(sig.ifaceOk && sig.member == signalName) then none
  else if !sig.pathOk then none
  else if !sig.senderOk then none
  else
    match sig.args with
    | none => none
    | some a =>
      some (emit_event if_indextoname pending sig.member a.interface a.protocol
        (some a.name) (some a.type) (some a.domain) a.flags)

/-- The filter `org_freedesktop_Avahi_Server_Browser_ItemNew_signal`. -/
def org_freedesktop_Avahi_Server_Browser_ItemNew_signal :=
  itemFilter (lit "ItemNew")

/-- The filter `org_freedesktop_Avahi_Server_Browser_ItemRemove_signal`. -/
def org_freedesktop_Avahi_Server_Browser_ItemRemove_signal :=
  itemFilter (lit "ItemRemove")

/-- The environment the specification gives for an item notification. -/
def serviceEnv (ifname : List Nat) (interface protocol : Int) (name type domain : List Nat) :
    List (List Nat) :=
  (if interface ≠ -1 then [lit "IFACE=" ++ ifname] else [])
    ++ (if protocol = -1 then [] else if protocol = 0 then [lit "PROTO=IPv4"] else [lit "PROTO=IPv6"])
    ++ [lit "NAME=" ++ name, lit "DOMAIN=" ++ domain, lit "TYPE=" ++ type]

/-! ## The lists `type_entries` and `browser_entries` -/

/-- An entry of `browser_entries`: the proxy of a service browser, with the
object path the directory service gave it, and the type it was created for. -/
structure Watch where
  type : List Nat
  path : List Nat
deriving DecidableEq, Repr

/-- The arguments of a `ServiceBrowserNew` request, as `service_browser_new`
sends them. -/
structure BrowserRequest where
  interface : Int
  protocol : Int
  type : List Nat
  domain : List Nat
  flags : Nat
deriving DecidableEq, Repr

/-- The answers of the outside world to the calls the bridge makes: the reply
to the request number `n` for a service browser (`none` when
`service_browser_new` returns `NULL`), the result of `nih_dbus_proxy_connect`
for request number `n` and a signal name, and whether the `Free` call on the
browser with a given object path succeeds. -/
structure Service where
  browserNew : Nat → BrowserRequest → Option (List Nat)
  connect : Nat → List Nat → Bool
  browserFree : List Nat → Bool

/-- The two global lists, and the `ServiceBrowserNew` requests made so far. -/
structure Manager where
  type_entries : List (List Nat)
  browser_entries : List Watch
  requests : List BrowserRequest
deriving DecidableEq, Repr

/-- The state after `nih_list_init` on both lists. -/
def Manager.init : Manager := ⟨[], [], []⟩

/-- The proxy `avahi_create_browser_proxy` ends with for the request number
`n`: `none` when `service_browser_new` or one of the three calls of
`nih_dbus_proxy_connect` (for `ItemNew`, `ItemRemove`, `AllForNow`, in this
order) fails. -/
def createdWatch (svc : Service) (n : Nat) (req : BrowserRequest) : Option Watch :=
  match svc.browserNew n req with
  | none => none
  | some path =>
    if !svc.connect n (lit "ItemNew") then none
    else if !svc.connect n (lit "ItemRemove") then none
    else if !svc.connect n (lit "AllForNow") then none
    else some ⟨req.type, path⟩

/-- The function `avahi_create_browser_proxy (type, domain)`: it requests a
service browser with interface -1, protocol -1 and flags 0, and on success
appends the proxy to `browser_entries` (`nih_list_add` adds at the tail). -/
def avahi_create_browser_proxy (svc : Service) (m : Manager) (type domain : List Nat) :
    Manager × Option Watch :=
  let req : BrowserRequest := ⟨-1, -1, type, domain, 0⟩
  let m1 : Manager := { m with requests := m.requests ++ [req] }
  match createdWatch svc m.requests.length req with
  | none => (m1, none)
  | some w => ({ m1 with browser_entries := m1.browser_entries ++ [w] }, some w)

/-- The arguments of an `ItemNew` or `ItemRemove` signal of the service type
browser. -/
structure TypeArgs where
  interface : Int
  protocol : Int
  type : List Nat
  domain : List Nat
  flags : Nat
deriving DecidableEq, Repr

/-- A D-Bus message as the filters of the service type browser look at it;
`args` is `none` when the arguments do not have the expected types. -/
structure TypeSignal where
  ifaceOk : Bool
  member : List Nat
  pathOk : Bool
  senderOk : Bool
  args : Option TypeArgs
deriving DecidableEq, Repr

/-- A D-Bus message without arguments as an `AllForNow` filter looks at it. -/
structure BareSignal where
  ifaceOk : Bool
  member : List Nat
  pathOk : Bool
  senderOk : Bool
  argsOk : Bool
deriving DecidableEq, Repr

/-- What a filter of the service type browser leaves behind: the two lists and
the calls of `emit_event` it made. -/
structure Handled where
  manager : Manager
  emitted : List EmitResult
deriving DecidableEq, Repr

/-- The filter `org_freedesktop_Avahi_Server_Type_Browser_ItemNew_signal`: a
matching signal has its type appended to `type_entries`. -/
def org_freedesktop_Avahi_Server_Type_Browser_ItemNew_signal (sig : TypeSignal)
    (m : Manager) : Handled :=
  if !(sig.ifaceOk && sig.member == lit "ItemNew") then ⟨m, []⟩
  else if !sig.pathOk then ⟨m, []⟩
  else if !sig.senderOk then ⟨m, []⟩
  else
    match sig.args with
    | none => ⟨m, []⟩
    | some a => ⟨{ m with type_entries := m.type_entries ++ [a.type] }, []⟩

/-- The filter `org_freedesktop_Avahi_Server_Type_Browser_ItemRemove_signal`:
it reads the arguments and does nothing else. -/
def org_freedesktop_Avahi_Server_Type_Browser_ItemRemove_signal (_sig : TypeSignal)
    (m : Manager) : Handled :=
  ⟨m, []⟩

/-- The loop `NIH_LIST_FOREACH_SAFE (&type_entries, iter)` of the `AllForNow`
filter over the entries still queued: each entry gets a call of
`avahi_create_browser_proxy` with domain `""` and is then removed. -/
def flushTypes (svc : Service) : List (List Nat) → Manager → Manager
  | [], m => m
  | t :: rest, m =>
    flushTypes svc rest { (avahi_create_browser_proxy svc m t []).1 with type_entries := rest }

/-- The filter `org_freedesktop_Avahi_Server_Type_Browser_AllForNow_signal`. -/
def org_freedesktop_Avahi_Server_Type_Browser_AllForNow_signal (svc : Service)
    (sig : BareSignal) (m : Manager) : Handled :=
  if !(sig.ifaceOk && sig.member == lit "AllForNow") then ⟨m, []⟩
  else if !sig.pathOk then ⟨m, []⟩
  else if !sig.senderOk then ⟨m, []⟩
  else if !sig.argsOk then ⟨m, []⟩
  else ⟨flushTypes svc m.type_entries m, []⟩

/-- A notification of the service type browser that its filters accept. -/
inductive Notification where
  | typeDiscovered (type : List Nat)
  | batchComplete
deriving DecidableEq, Repr

/-- The signal of a type-discovered notification for `type`. -/
def typeDiscoveredSignal (type : List Nat) : TypeSignal :=
  ⟨true, lit "ItemNew", true, true, some ⟨0, 0, type, lit "local", 0⟩⟩

/-- The signal of a discovery-batch-complete notification. -/
def batchCompleteSignal : BareSignal :=
  ⟨true, lit "AllForNow", true, true, true⟩

/-- The filters applied to one notification. -/
def notify (svc : Service) (m : Manager) : Notification → Manager
  | Notification.typeDiscovered type =>
    (org_freedesktop_Avahi_Server_Type_Browser_ItemNew_signal (typeDiscoveredSignal type)
      m).manager
  | Notification.batchComplete =>
    (org_freedesktop_Avahi_Server_Type_Browser_AllForNow_signal svc batchCompleteSignal
      m).manager

/-- The filters applied to a sequence of notifications, in order. -/
def notifyAll (svc : Service) : List Notification → Manager → Manager
  | [], m => m
  | n :: ns, m => notifyAll svc ns (notify svc m n)

/-- How often the type `t` occurs in a list of types. -/
def occurrences (t : List Nat) : List (List Nat) → Nat
  | [] => 0
  | x :: xs => (if x = t then 1 else 0) + occurrences t xs

/-- How often the type `t` is announced in a sequence of notifications. -/
def announcements (t : List Nat) : List Notification → Nat
  | [] => 0
  | Notification.typeDiscovered type :: ns =>
    (if type = t then 1 else 0) + announcements t ns
  | Notification.batchComplete :: ns => announcements t ns

/-- The watches the requests for the types `q` produce when the first of them
is request number `n`: the successful ones, in order. -/
def successes (svc : Service) : Nat → List (List Nat) → List Watch
  | _, [] => []
  | n, t :: rest => (createdWatch svc n ⟨-1, -1, t, [], 0⟩).toList ++ successes svc (n + 1) rest

/-! ## Shutdown -/

/-- A call made by the end of `main` after `nih_main_loop` returned. -/
inductive ShutdownCall where
  | browserFree (path : List Nat) (ok : Bool)
  | typeBrowserFree (path : List Nat)
  | releaseAvahi
deriving DecidableEq, Repr

/-- The loop `NIH_LIST_FOREACH_SAFE (&browser_entries, iter)` at the end of
`main` over the entries still in the list: each entry is removed and
`service_browser_free` is called on its proxy; the result of the call is not
looked at. -/
def freeBrowsers (svc : Service) : List Watch → Manager → List ShutdownCall × Manager
  | [], m => ([], m)
  | w :: rest, m =>
    let r := freeBrowsers svc rest { m with browser_entries := rest }
    (ShutdownCall.browserFree w.path (svc.browserFree w.path) :: r.1, r.2)

/-- The end of `main` after `nih_main_loop` returned, up to the release of the
proxy `avahi`: the calls made, in order, and the lists afterwards. -/
def shutdown (svc : Service) (m : Manager) (avahi_type_browser : Option (List Nat))
    (avahi : Bool) : List ShutdownCall × Manager :=
  let r := freeBrowsers svc m.browser_entries m
  (r.1
      ++ (match avahi_type_browser with
          | some p => [ShutdownCall.typeBrowserFree p]
          | none => [])
      ++ (if avahi then [ShutdownCall.releaseAvahi] else []),
    r.2)

/-- The request `avahi_create_browser_proxy` sends for a queued type. -/
def requestFor (t : List Nat) : BrowserRequest := ⟨-1, -1, t, [], 0⟩

/-- A directory service that answers every request with a new object path and
connects every signal. -/
def goodService : Service :=
  ⟨fun n _ => some (lit "/Client0/ServiceBrowser" ++ [48 + n]), fun _ _ => true, fun _ => true⟩

/-- A directory service that refuses the second request (number 1). -/
def secondFails : Service :=
  ⟨fun n _ => if n = 1 then none else some (lit "/Client0/ServiceBrowser" ++ [48 + n]),
    fun _ _ => true, fun _ => false⟩

/-! ## What the notifications are expected to bring about -/

/-- Whether the directory service lets the creation with request number `n`
succeed: it answers the request with an object path and connects each of the
three signals. -/
def accepts (svc : Service) (n : Nat) (req : BrowserRequest) : Bool :=
  (svc.browserNew n req).isSome && svc.connect n (lit "ItemNew")
    && svc.connect n (lit "ItemRemove") && svc.connect n (lit "AllForNow")

/-- The watches a flush of the queue `q` is expected to add when its first
request has the number `n`: for each queued type whose creation the service
lets succeed, in the order of the queue, a watch of that type under the object
path the service answered. -/
def expectedWatches (svc : Service) : Nat → List (List Nat) → List Watch
  | _, [] => []
  | n, t :: rest =>
    (if accepts svc n (requestFor t) then
        (svc.browserNew n (requestFor t)).toList.map (fun p => (⟨t, p⟩ : Watch))
      else [])
      ++ expectedWatches svc (n + 1) rest

/-- The types announced in a sequence of notifications, in order. -/
def announcedTypes : List Notification → List (List Nat)
  | [] => []
  | Notification.typeDiscovered type :: ns => type :: announcedTypes ns
  | Notification.batchComplete :: ns => announcedTypes ns

end Avahi

/-! # Theorems -/

namespace Uevent

theorem lit_ACTION : lit "ACTION" = [65, 67, 84, 73, 79, 78] := by decide
theorem lit_KERNEL : lit "KERNEL" = [75, 69, 82, 78, 69, 76] := by decide
theorem lit_DEVPATH : lit "DEVPATH" = [68, 69, 86, 80, 65, 84, 72] := by decide
theorem lit_DEVNAME : lit "DEVNAME" = [68, 69, 86, 78, 65, 77, 69] := by decide
theorem lit_SUBSYSTEM : lit "SUBSYSTEM" = [83, 85, 66, 83, 89, 83, 84, 69, 77] := by decide
theorem lit_USEC : lit "USEC_INITIALIZED" =
    [85, 83, 69, 67, 95, 73, 78, 73, 84, 73, 65, 76, 73, 90, 69, 68] := by decide

/-- On either byte order `htonl (*magic)` is the big-endian value of the four
bytes. -/
theorem htonl_load32 (hostLE : Bool) (buf : List Nat) (off : Nat)
    (h0 : byteAt buf off < 256) (h1 : byteAt buf (off + 1) < 256)
    (h2 : byteAt buf (off + 2) < 256) (h3 : byteAt buf (off + 3) < 256) :
    htonl hostLE (load32 hostLE buf off) = be32 buf off := by
  cases hostLE
  · simp [htonl, load32, be32]
  · simp only [htonl, load32, be32, bswap32, if_true]
    omega

theorem take_recvInto (buf d : List Nat) (n : Nat) (hn : n ≤ d.length) (hb : n ≤ BUFSIZE) :
    (recvInto buf d).take n = d.take n := by
  unfold recvInto
  rw [List.take_append_of_le_length (by simp; omega), List.take_take]
  congr 1
  omega

theorem byteAt_recvInto (buf d : List Nat) (i : Nat) (hi : i < d.length) (hb : i < BUFSIZE) :
    byteAt (recvInto buf d) i = byteAt d i := by
  unfold byteAt recvInto
  have h1 : i < (d.take BUFSIZE).length := by simp; omega
  simp only [List.getD_eq_getElem?_getD]
  rw [List.getElem?_append_left h1, List.getElem?_take_of_lt hb]

theorem byteAt_lt (d : List Nat) (i : Nat) (h : ∀ b ∈ d, b < 256) : byteAt d i < 256 := by
  unfold byteAt
  rw [List.getD_eq_getElem?_getD]
  cases hi : d[i]? with
  | none => simp
  | some b => simpa using h b (List.getElem?_mem hi)

/-- C3: an enveloped frame (first eight bytes `libudev` and NUL) whose
big-endian magic value at offset 8 is not `0xfeedcafe` is rejected: the loop
body returns with every variable unchanged (no property is parsed) and without
a call of `upstart_emit_event`, and the wakeup ends there with no emission. -/
theorem bad_magic_rejected (hostLE : Bool) (buf d : List Nat) (q : List (List Nat)) (vs : Vars)
    (hlen : 12 ≤ d.length) (hbytes : ∀ b ∈ d, b < 256)
    (hpre : d.take 8 = LIBUDEV) (hmagic : be32 d 8 ≠ UDEV_MAGIC) :
    body hostLE (recvInto buf d) (d.take BUFSIZE).length vs = ⟨vs, none, Flow.returned⟩ ∧
    receiveLoop hostLE (d :: q) buf vs = ([], q) := by
  have hB : BUFSIZE = 4096 := rfl
  have h8 : (recvInto buf d).take 8 = LIBUDEV := by
    rw [take_recvInto buf d 8 (by omega) (by omega)]; exact hpre
  have hbe : be32 (recvInto buf d) 8 = be32 d 8 := by
    unfold be32
    rw [byteAt_recvInto buf d 8 (by omega) (by omega),
      byteAt_recvInto buf d (8 + 1) (by omega) (by omega),
      byteAt_recvInto buf d (8 + 2) (by omega) (by omega),
      byteAt_recvInto buf d (8 + 3) (by omega) (by omega)]
  have hld : htonl hostLE (load32 hostLE (recvInto buf d) 8) = be32 d 8 := by
    rw [htonl_load32, hbe]
    · rw [byteAt_recvInto buf d 8 (by omega) (by omega)]; exact byteAt_lt d _ hbytes
    · rw [byteAt_recvInto buf d (8 + 1) (by omega) (by omega)]; exact byteAt_lt d _ hbytes
    · rw [byteAt_recvInto buf d (8 + 2) (by omega) (by omega)]; exact byteAt_lt d _ hbytes
    · rw [byteAt_recvInto buf d (8 + 3) (by omega) (by omega)]; exact byteAt_lt d _ hbytes
  have hstart : scanStart hostLE (recvInto buf d) = none := by
    unfold scanStart
    simp [h8, hld, hmagic]
  have hbody : body hostLE (recvInto buf d) (d.take BUFSIZE).length vs
      = ⟨vs, none, Flow.returned⟩ := by
    unfold body
    rw [hstart]
  refine ⟨hbody, ?_⟩
  have hne : ¬ (d.take BUFSIZE).length = 0 := by
    rw [List.length_take]; omega
  simp only [receiveLoop, hne, if_false, hbody, Option.toList]

theorem bad_magic_rejected_witness :
    body true (recvInto zeroStack badMagicFrame) (badMagicFrame.take BUFSIZE).length Vars.init
      = ⟨Vars.init, none, Flow.returned⟩ ∧
    receiveLoop true [badMagicFrame] zeroStack Vars.init = ([], []) :=
  bad_magic_rejected true zeroStack badMagicFrame [] Vars.init (by decide) (by decide)
    (by decide) (by decide)

theorem eventName_eq (buf : List Nat) (vs : Vars) (ps pa : Nat)
    (hs : vs.subsystem = some ps) (ha : vs.action = some pa) :
    eventName buf vs = deviceEventName (cstr buf ps) (cstr buf pa) := by
  simp only [eventName, deviceEventName, ha, hs, fmtS, strcmp_eq, beq_iff_eq]

theorem finish_emitted (buf : List Nat) (vs : Vars) (initialized : Nat) (e : Emission)
    (h : (finish buf vs initialized).emitted = some e) :
    ∃ ps pa, (finish buf vs initialized).vars.subsystem = some ps ∧
      (finish buf vs initialized).vars.action = some pa ∧
      e.name = deviceEventName (cstr buf ps) (cstr buf pa) := by
  unfold finish at h ⊢
  split_ifs at h ⊢ with h1 h2 h3 h4
  simp only [Option.some.injEq] at h
  cases ha : vs.action with
  | none => simp [ha] at h1
  | some pa =>
    cases hs : vs.subsystem with
    | none => simp [hs] at h4
    | some ps =>
      refine ⟨ps, pa, rfl, rfl, ?_⟩
      rw [← h]
      exact eventName_eq buf vs ps pa hs ha

/-- C4: whenever the loop body emits an event for a record, the `subsystem`
and `action` pointers are set, and with `s` and `a` the strings they point to
the event name is `s-device-added` for `a = add`, `s-device-changed` for
`a = change`, `s-device-removed` for `a = remove`, and `s-device-a` for every
other action. -/
theorem device_event_name (hostLE : Bool) (buf : List Nat) (len : Nat) (vs : Vars)
    (e : Emission) (h : (body hostLE buf len vs).emitted = some e) :
    ∃ ps pa, (body hostLE buf len vs).vars.subsystem = some ps ∧
      (body hostLE buf len vs).vars.action = some pa ∧
      e.name = (if cstr buf pa = lit "add" then cstr buf ps ++ lit "-device-added"
        else if cstr buf pa = lit "change" then cstr buf ps ++ lit "-device-changed"
        else if cstr buf pa = lit "remove" then cstr buf ps ++ lit "-device-removed"
        else cstr buf ps ++ lit "-device-" ++ cstr buf pa) := by
  unfold body at h ⊢
  cases hst : scanStart hostLE buf with
  | none => simp [hst] at h
  | some s =>
    simp only [hst] at h ⊢
    cases hsc : scan len buf len s vs 0 with
    | none => simp [hsc] at h
    | some r =>
      simp only [hsc] at h ⊢
      obtain ⟨ps, pa, h1, h2, h3⟩ := finish_emitted buf _ _ e h
      exact ⟨ps, pa, h1, h2, by rw [h3]; rfl⟩

theorem device_event_name_witness :
    ∃ ps pa, (body true (recvInto zeroStack moveRecord) moveRecord.length Vars.init).vars.subsystem
        = some ps ∧
      (body true (recvInto zeroStack moveRecord) moveRecord.length Vars.init).vars.action
        = some pa ∧
      lit "net-device-move" =
        (if cstr (recvInto zeroStack moveRecord) pa = lit "add" then
          cstr (recvInto zeroStack moveRecord) ps ++ lit "-device-added"
        else if cstr (recvInto zeroStack moveRecord) pa = lit "change" then
          cstr (recvInto zeroStack moveRecord) ps ++ lit "-device-changed"
        else if cstr (recvInto zeroStack moveRecord) pa = lit "remove" then
          cstr (recvInto zeroStack moveRecord) ps ++ lit "-device-removed"
        else cstr (recvInto zeroStack moveRecord) ps ++ lit "-device-"
          ++ cstr (recvInto zeroStack moveRecord) pa) :=
  device_event_name true (recvInto zeroStack moveRecord) moveRecord.length Vars.init
    ⟨lit "net-device-move", [lit "DEVPATH=/y", lit "SUBSYSTEM=net", lit "ACTION=move"], false⟩
    (by decide!)

/-! ## Concrete wakeups -/

/-- C2 (the code at the failing input): in a wakeup that delivers a valid
record and then a record without `ACTION`, the second record is emitted too,
under a name read through the `action` pointer left by the first. -/
theorem missing_action_emitted_after_valid :
    (netlink_monitor_watcher true zeroStack [validRecord, noActionRecord]).1.map
        (fun e => e.name)
      = [lit "x-device-added", lit "x-device-YSTEM=x"] := by
  decide!

/-- C5 (the code at the failing input): in a wakeup that delivers a record
with `KERNEL` and `DEVNAME` and then a record with neither, the environment
emitted for the second record is not the list of its `DEVPATH`, `SUBSYSTEM`
and `ACTION` tokens. -/
theorem second_environment_differs :
    ∃ e1 e2, (netlink_monitor_watcher true zeroStack [fullRecord, validRecord]).1 = [e1, e2] ∧
      e2.name = lit "x-device-added" ∧
      e2.env ≠ [lit "DEVPATH=/y", lit "SUBSYSTEM=x", lit "ACTION=add"] := by
  refine ⟨⟨lit "x-device-added", [lit "KERNEL=k0", lit "DEVPATH=/y", lit "DEVNAME=n0",
    lit "SUBSYSTEM=x", lit "ACTION=add"], false⟩, ⟨lit "x-device-added", [], false⟩, ?_, ?_, ?_⟩
  · decide!
  · rfl
  · decide

/-- C6 (the code at the failing input): the tokens `DEVPATH_OLD=/a` and
`ACTIONS=x` are not ignored; appended to a valid record the first replaces the
`DEVPATH` entry of the environment and the second changes the event name and
replaces the `ACTION` entry. -/
theorem extended_keys_not_ignored :
    (netlink_monitor_watcher true zeroStack [validRecord]).1
      = [⟨lit "x-device-added", [lit "DEVPATH=/y", lit "SUBSYSTEM=x", lit "ACTION=add"], false⟩] ∧
    (netlink_monitor_watcher true zeroStack [devpathOldRecord]).1
      = [⟨lit "x-device-added", [lit "DEVPATH_OLD=/a", lit "SUBSYSTEM=x", lit "ACTION=add"],
          false⟩] ∧
    (netlink_monitor_watcher true zeroStack [actionsRecord]).1
      = [⟨lit "x-device-x", [lit "DEVPATH=/y", lit "SUBSYSTEM=x", lit "ACTIONS=x"], false⟩] := by
  refine ⟨?_, ?_, ?_⟩ <;> decide!

/-- C7 (the code at the failing input): the emission for a valid record
depends on what was decoded before it in the wakeup; decoded alone it carries
its three tokens, decoded after a record with `KERNEL` and `DEVNAME` it does
not. -/
theorem decode_depends_on_history :
    (netlink_monitor_watcher true zeroStack [validRecord]).1.map (fun e => e.env)
      = [[lit "DEVPATH=/y", lit "SUBSYSTEM=x", lit "ACTION=add"]] ∧
    ((netlink_monitor_watcher true zeroStack [fullRecord, validRecord]).1.drop 1).map
        (fun e => e.env)
      ≠ [[lit "DEVPATH=/y", lit "SUBSYSTEM=x", lit "ACTION=add"]] := by
  refine ⟨?_, ?_⟩ <;> decide!

/-- The same valid record received twice in one wakeup: `env_len` is not reset,
so the second environment array starts with `NULL` and is read as empty. -/
theorem same_record_twice :
    (netlink_monitor_watcher true zeroStack [validRecord, validRecord]).1
      = [⟨lit "x-device-added", [lit "DEVPATH=/y", lit "SUBSYSTEM=x", lit "ACTION=add"], false⟩,
         ⟨lit "x-device-added", [], false⟩] := by
  decide!

/-- C8 (the code at the failing input): a frame with a bad magic value, a
record without `ACTION` and a record with `USEC_INITIALIZED=0` each end the
wakeup; the valid record queued behind is left unread and nothing is emitted. -/
theorem invalid_datagram_ends_wakeup :
    netlink_monitor_watcher true zeroStack [badMagicFrame, validRecord] = ([], [validRecord]) ∧
    netlink_monitor_watcher true zeroStack [noActionRecord, validRecord] = ([], [validRecord]) ∧
    netlink_monitor_watcher true zeroStack [zeroUsecRecord, validRecord] = ([], [validRecord]) := by
  refine ⟨?_, ?_, ?_⟩ <;> decide!

/-- C1 (counterexample): two plain datagrams that contain the tokens
`ACTION=add`, `SUBSYSTEM=x`, `DEVPATH=y` (or `/y`) and `USEC_INITIALIZED=1`
and are not emitted as `x-device-added`: in the first a later `ACTION` token
replaces `ACTION=add`, in the second a later token whose key begins with
`ACTION` does. -/
theorem contains_add_not_added :
    (netlink_monitor_watcher true zeroStack [twoActionsRecord]).1.map (fun e => e.name)
      = [lit "x-device-removed"] ∧
    (netlink_monitor_watcher true zeroStack [actionsRecord]).1.map (fun e => e.name)
      = [lit "x-device-x"] := by
  refine ⟨?_, ?_⟩ <;> decide!

theorem addp_envState (strs : List (List Nat)) (v : List Nat) :
    nih_str_array_addp (envState strs).1 (envState strs).2 v = envState (strs ++ [v]) := by
  unfold nih_str_array_addp envState
  have h1 : strs.length + 2 - (List.map Cell.str strs ++ [Cell.null]).length = 1 := by
    simp
  have hl : (List.map Cell.str strs).length = strs.length := by simp
  simp only [h1, List.replicate_one, List.append_assoc, List.singleton_append]
  rw [List.take_of_length_le (by simp)]
  rw [List.set_append_right _ _ (by simp)]
  simp only [hl, Nat.sub_self, List.set_cons_zero]
  rw [List.set_append_right _ _ (by simp)]
  simp [hl]

theorem envStrings_envState (strs : List (List Nat)) :
    envStrings (envState strs).1 = strs := by
  unfold envState
  induction strs with
  | nil => rfl
  | cons s rest ih => simpa [envStrings] using ih

theorem new_envState : (nih_str_array_new, 0) = envState [] := rfl

theorem addp_new (v : List Nat) : nih_str_array_addp nih_str_array_new 0 v = envState [v] :=
  addp_envState [] v

end Uevent

namespace Avahi

open Uevent (lit Cell nih_str_array_new nih_str_array_addp envStrings Emission envState
  addp_envState envStrings_envState new_envState addp_new)

theorem emit_event_call (if_indextoname : Int → Option (List Nat)) (pending : Bool)
    (action ev : List Nat) (interface protocol : Int) (name type domain : List Nat) (flags : Nat)
    (hev : (if action = lit "ItemNew" then some (lit "net-service-up")
      else if action = lit "ItemRemove" then some (lit "net-service-down") else none) = some ev) :
    emit_event if_indextoname pending action interface protocol (some name) (some type)
        (some domain) flags
      = ⟨0, some ⟨ev, serviceEnv (fmtName (if_indextoname interface)) interface protocol
          name type domain, false⟩, !pending⟩ := by
  have h4 : lit "PROTO=" ++ lit "IPv4" = lit "PROTO=IPv4" := by decide
  have h6 : lit "PROTO=" ++ lit "IPv6" = lit "PROTO=IPv6" := by decide
  unfold emit_event
  simp only [hev, new_envState]
  by_cases hi : interface = -1
  · by_cases hp : protocol = -1
    · simp [hi, hp, addp_new, addp_envState, envStrings_envState, serviceEnv]
    · by_cases hp0 : protocol = 0
      · simp [hi, hp0, addp_new, addp_envState, envStrings_envState, serviceEnv, h4]
      · simp [hi, hp, hp0, addp_new, addp_envState, envStrings_envState, serviceEnv, h6]
  · by_cases hp : protocol = -1
    · simp [hi, hp, addp_new, addp_envState, envStrings_envState, serviceEnv]
    · by_cases hp0 : protocol = 0
      · simp [hi, hp0, addp_new, addp_envState, envStrings_envState, serviceEnv, h4]
      · simp [hi, hp, hp0, addp_new, addp_envState, envStrings_envState, serviceEnv, h6]

/-- C9: when `emit_event` is called with `name`, `domain` and `type` present
and makes its call, the environment is `IFACE=` with the resolved interface
name only if the interface index is not -1, then `PROTO=IPv4` if the family is
0, `PROTO=IPv6` if it is another value except -1 and nothing if it is -1, then
`NAME=`, `DOMAIN=` and `TYPE=`, in this order. -/
theorem service_event_environment (if_indextoname : Int → Option (List Nat)) (pending : Bool)
    (action : List Nat) (interface protocol : Int) (name type domain : List Nat) (flags : Nat)
    (e : Emission)
    (h : (emit_event if_indextoname pending action interface protocol (some name) (some type)
      (some domain) flags).call = some e) :
    e.env = (if interface ≠ -1 then [lit "IFACE=" ++ fmtName (if_indextoname interface)] else [])
      ++ (if protocol = -1 then [] else if protocol = 0 then [lit "PROTO=IPv4"]
          else [lit "PROTO=IPv6"])
      ++ [lit "NAME=" ++ name, lit "DOMAIN=" ++ domain, lit "TYPE=" ++ type] := by
  cases hev : (if action = lit "ItemNew" then some (lit "net-service-up")
      else if action = lit "ItemRemove" then some (lit "net-service-down") else none) with
  | none =>
    have : (emit_event if_indextoname pending action interface protocol (some name) (some type)
        (some domain) flags).call = none := by
      unfold emit_event
      simp only [hev]
    rw [this] at h
    cases h
  | some ev =>
    rw [emit_event_call if_indextoname pending action ev interface protocol name type domain
      flags hev] at h
    simp only [Option.some.injEq] at h
    rw [← h]
    rfl

/-- The example of the specification: interface -1, family 0, name `printer`,
type `_http._tcp`, domain `local`. -/
theorem service_event_environment_witness :
    (emit_event (fun _ => none) true (lit "ItemNew") (-1) 0 (some (lit "printer"))
        (some (lit "_http._tcp")) (some (lit "local")) 0).call
      = some ⟨lit "net-service-up",
          [lit "PROTO=IPv4", lit "NAME=printer", lit "DOMAIN=local", lit "TYPE=_http._tcp"],
          false⟩ ∧
    [lit "PROTO=IPv4", lit "NAME=printer", lit "DOMAIN=local", lit "TYPE=_http._tcp"]
      = (if (-1 : Int) ≠ -1 then [lit "IFACE=" ++ fmtName none] else [])
        ++ (if (0 : Int) = -1 then [] else if (0 : Int) = 0 then [lit "PROTO=IPv4"]
            else [lit "PROTO=IPv6"])
        ++ [lit "NAME=" ++ lit "printer", lit "DOMAIN=" ++ lit "local",
            lit "TYPE=" ++ lit "_http._tcp"] :=
  ⟨by decide,
   service_event_environment (fun _ => none) true (lit "ItemNew") (-1) 0 (lit "printer")
    (lit "_http._tcp") (lit "local") 0
    ⟨lit "net-service-up",
      [lit "PROTO=IPv4", lit "NAME=printer", lit "DOMAIN=local", lit "TYPE=_http._tcp"], false⟩
    (by decide)⟩

theorem emit_event_name (if_indextoname : Int → Option (List Nat)) (pending : Bool)
    (action ev : List Nat) (interface protocol : Int) (name type domain : Option (List Nat))
    (flags : Nat)
    (hev : (if action = lit "ItemNew" then some (lit "net-service-up")
      else if action = lit "ItemRemove" then some (lit "net-service-down") else none) = some ev) :
    (emit_event if_indextoname pending action interface protocol name type domain flags).call.map
      (fun e => e.name) = some ev := by
  unfold emit_event
  simp only [hev, Option.map_some']

theorem itemFilter_member (signalName : List Nat) (if_indextoname : Int → Option (List Nat))
    (pending : Bool) (sig : Signal) (r : EmitResult)
    (h : itemFilter signalName if_indextoname pending sig = some r) :
    ∃ a, sig.member = signalName ∧ sig.args = some a ∧
      r = emit_event if_indextoname pending signalName a.interface a.protocol
        (some a.name) (some a.type) (some a.domain) a.flags := by
  unfold itemFilter at h
  split_ifs at h with h1 h2 h3
  cases ha : sig.args with
  | none => simp [ha] at h
  | some a =>
    simp only [ha, Option.some.injEq] at h
    have hm : sig.member = signalName := by
      simp at h1
      exact h1.2
    exact ⟨a, hm, rfl, by rw [← h, hm]⟩

/-- C10: `emit_event` called for the signal member `ItemNew` emits the name
`net-service-up` and called for `ItemRemove` the name `net-service-down`,
whatever the interface, family, name, type, domain and flags; and every signal
the `ItemNew` (`ItemRemove`) filter of a service browser accepts is emitted as
`net-service-up` (`net-service-down`). -/
theorem service_event_name (if_indextoname : Int → Option (List Nat)) (pending : Bool)
    (interface protocol : Int) (name type domain : Option (List Nat)) (flags : Nat)
    (sig : Signal) :
    (emit_event if_indextoname pending (lit "ItemNew") interface protocol name type domain
        flags).call.map (fun e => e.name) = some (lit "net-service-up") ∧
    (emit_event if_indextoname pending (lit "ItemRemove") interface protocol name type domain
        flags).call.map (fun e => e.name) = some (lit "net-service-down") ∧
    (∀ r, org_freedesktop_Avahi_Server_Browser_ItemNew_signal if_indextoname pending sig = some r →
      r.call.map (fun e => e.name) = some (lit "net-service-up")) ∧
    (∀ r, org_freedesktop_Avahi_Server_Browser_ItemRemove_signal if_indextoname pending sig
        = some r →
      r.call.map (fun e => e.name) = some (lit "net-service-down")) := by
  have hne : ¬ lit "ItemRemove" = lit "ItemNew" := by decide
  have hup : ∀ i p n t d f, (emit_event if_indextoname pending (lit "ItemNew") i p n t d
      f).call.map (fun e => e.name) = some (lit "net-service-up") := fun i p n t d f =>
    emit_event_name _ _ _ _ _ _ _ _ _ _ (by simp)
  have hdown : ∀ i p n t d f, (emit_event if_indextoname pending (lit "ItemRemove") i p n t d
      f).call.map (fun e => e.name) = some (lit "net-service-down") := fun i p n t d f =>
    emit_event_name _ _ _ _ _ _ _ _ _ _ (by simp [hne])
  refine ⟨hup _ _ _ _ _ _, hdown _ _ _ _ _ _, ?_, ?_⟩
  · intro r hr
    obtain ⟨a, -, -, rfl⟩ := itemFilter_member _ _ _ _ _ hr
    exact hup _ _ _ _ _ _
  · intro r hr
    obtain ⟨a, -, -, rfl⟩ := itemFilter_member _ _ _ _ _ hr
    exact hdown _ _ _ _ _ _

end Avahi

namespace Uevent

/-! ## The scan loop on a block of tokens -/

theorem takeWhile_nul (t X : List Nat) (h : 0 ∉ t) :
    (t ++ 0 :: X).takeWhile (fun b => b != 0) = t := by
  induction t with
  | nil => simp
  | cons a t ih =>
    have ha : a ≠ 0 := fun h0 => h (by simp [h0])
    have ht : 0 ∉ t := fun h0 => h (List.mem_cons_of_mem _ h0)
    simp [List.takeWhile_cons, ha, ih ht]

theorem cstr_token (pre t X : List Nat) (h : 0 ∉ t) :
    cstr (pre ++ t ++ 0 :: X) pre.length = t := by
  unfold cstr
  rw [List.append_assoc, List.drop_left]
  exact takeWhile_nul t X h

theorem cstr_token_drop (pre t X : List Nat) (j : Nat) (h : 0 ∉ t) (hj : j ≤ t.length) :
    cstr (pre ++ t ++ 0 :: X) (pre.length + j) = t.drop j := by
  have h1 : pre ++ t = (pre ++ t.take j) ++ t.drop j := by
    rw [List.append_assoc, List.take_append_drop]
  have h2 : (pre ++ t.take j).length = pre.length + j := by
    rw [List.length_append, List.length_take, Nat.min_eq_left hj]
  rw [h1, ← h2]
  exact cstr_token _ _ _ (fun h0 => h (List.mem_of_mem_drop h0))

theorem strchr_nul_token (pre t X : List Nat) (h : 0 ∉ t) :
    strchr_nul (pre ++ t ++ 0 :: X) pre.length = NulSearch.found (pre.length + t.length) := by
  unfold strchr_nul
  rw [cstr_token pre t X h]
  have h1 : ¬ (pre ++ t ++ 0 :: X).length < pre.length := by simp
  have h2 : pre.length + t.length < (pre ++ t ++ 0 :: X).length := by simp
  rw [if_neg h1, if_pos h2]

/-- The search for NUL is outside the array exactly when its start lies beyond
the end of the array. -/
theorem strchr_nul_outside_iff (buf : List Nat) (s : Nat) :
    strchr_nul buf s = NulSearch.outside ↔ buf.length < s := by
  unfold strchr_nul
  constructor
  · intro h
    by_contra hn
    rw [if_neg hn] at h
    split_ifs at h
  · intro h
    rw [if_pos h]

/-- A NUL found inside the array lies at the start of the search or behind
it, and inside the array. -/
theorem strchr_nul_found (buf : List Nat) (s n : Nat) (h : strchr_nul buf s = NulSearch.found n) :
    s ≤ n ∧ n < buf.length := by
  unfold strchr_nul at h
  split_ifs at h with h1 h2
  simp only [NulSearch.found.injEq] at h
  omega

/-- The scan loop is undefined exactly when it starts beyond the end of the
array: every later search starts inside the array or at its end. -/
theorem scan_eq_none_iff (buf : List Nat) (len : Nat) :
    ∀ (fuel s : Nat) (vs : Vars) (initialized : Nat),
      scan fuel buf len s vs initialized = none ↔ buf.length < s := by
  intro fuel
  induction fuel with
  | zero =>
    intro s vs initialized
    rw [← strchr_nul_outside_iff]
    unfold scan
    cases strchr_nul buf s <;> simp
  | succ fuel ih =>
    intro s vs initialized
    rw [← strchr_nul_outside_iff]
    unfold scan
    cases hn : strchr_nul buf s with
    | outside => simp
    | behind => simp
    | found n =>
      have hlt := (strchr_nul_found buf s n hn).2
      simp only [reduceCtorEq, iff_false]
      split_ifs
      · cases strchr buf s 61 with
        | none => simp
        | some e =>
          simp only
          rw [ih]
          omega
      · simp

/-- A scan loop that starts inside the array or at its end has a result. -/
theorem scan_isSome (buf : List Nat) (len fuel s : Nat) (vs : Vars) (initialized : Nat)
    (hs : s ≤ buf.length) : ∃ r, scan fuel buf len s vs initialized = some r := by
  cases h : scan fuel buf len s vs initialized with
  | none =>
    have := (scan_eq_none_iff buf len fuel s vs initialized).mp h
    omega
  | some r => exact ⟨r, rfl⟩

theorem findByte_lt (c : Nat) (t : List Nat) (e : Nat) (h : findByte c t = some e) :
    e < t.length := by
  induction t generalizing e with
  | nil => simp [findByte] at h
  | cons a t ih =>
    simp only [findByte] at h
    split_ifs at h with hc
    · simp at h; subst h; simp
    · cases hf : findByte c t with
      | none => simp [hf] at h
      | some i =>
        simp [hf] at h
        subst h
        simpa using ih i hf

/-- Once `s` has reached the last NUL below `len`, the scan loop ends. -/
theorem scan_done (fuel : Nat) (pre rest tail : List Nat) (vs : Vars) (initialized : Nat)
    (hrest : 0 ∉ rest) :
    scan fuel (pre ++ rest ++ tail) (pre.length + rest.length) pre.length vs initialized
      = some (vs, initialized) := by
  have hin : ¬ (pre ++ rest ++ tail).length < pre.length := by simp
  have hout : strchr_nul (pre ++ rest ++ tail) pre.length ≠ NulSearch.outside :=
    fun h => hin ((strchr_nul_outside_iff _ _).mp h)
  cases fuel with
  | zero =>
    unfold scan
    cases hn : strchr_nul (pre ++ rest ++ tail) pre.length with
    | outside => exact absurd hn hout
    | behind => rfl
    | found n => rfl
  | succ fuel =>
    unfold scan
    cases hn : strchr_nul (pre ++ rest ++ tail) pre.length with
    | outside => exact absurd hn hout
    | behind => rfl
    | found n =>
      have hge : pre.length + rest.length ≤ n := by
        unfold strchr_nul at hn
        split_ifs at hn
        simp only [NulSearch.found.injEq] at hn
        have hc : cstr (pre ++ rest ++ tail) pre.length
            = rest ++ tail.takeWhile (fun b => b != 0) := by
          unfold cstr
          rw [List.append_assoc, List.drop_left]
          rw [List.takeWhile_append_of_pos]
          intro a ha
          have : a ≠ 0 := fun h0 => hrest (h0 ▸ ha)
          simpa using this
        rw [hc, List.length_append] at hn
        omega
      simp only [Nat.not_lt.mpr hge, if_false]

theorem strchr_token (pre t X : List Nat) (c : Nat) (h : 0 ∉ t) :
    strchr (pre ++ t ++ 0 :: X) pre.length c
      = (findByte c t).map (fun i => pre.length + i) := by
  unfold strchr
  rw [cstr_token pre t X h]

/-- One pass through the if/else-if chain changes the pointers the way
`assignView` changes the strings they denote. -/
theorem view_assign (buf t : List Nat) (s e : Nat) (vs : Vars) (initialized : Nat)
    (hk : cstr buf s = t) (hv : cstr buf (s + e + 1) = t.drop (e + 1)) :
    view buf (assign buf s (s + e + 1) vs initialized).1
        = (assignView t e (view buf vs) initialized).1 ∧
      (assign buf s (s + e + 1) vs initialized).2
        = (assignView t e (view buf vs) initialized).2 := by
  unfold assign assignView strncmp_eq
  rw [hk]
  split_ifs <;> simp [view, hk, hv]

theorem properties_cons (t : List Nat) (ts : List (List Nat)) :
    properties (t :: ts) = t ++ 0 :: properties ts := by
  simp [properties]

/-- The scan loop over a block of NUL-terminated tokens, followed by bytes
`rest` without NUL that reach up to `len`, decodes the tokens in order. -/
theorem scan_tokens (buf rest tail : List Nat) (toks : List (List Nat)) :
    ∀ (fuel : Nat) (pre : List Nat) (vs : Vars) (initialized : Nat),
      (∀ t ∈ toks, 0 ∉ t) → 0 ∉ rest → toks.length ≤ fuel →
      buf = pre ++ properties toks ++ rest ++ tail →
      ∃ r, scan fuel buf (pre.length + (properties toks).length + rest.length)
          pre.length vs initialized = some r ∧
        view buf r.1 = (decodeToks toks (view buf vs) initialized).1 ∧
        r.2 = (decodeToks toks (view buf vs) initialized).2 := by
  induction toks with
  | nil =>
    intro fuel pre vs initialized _ hrest _ hbuf
    have hb : buf = pre ++ rest ++ tail := by simpa [properties] using hbuf
    have := scan_done fuel pre rest tail vs initialized hrest
    simp only [properties, List.map_nil, List.flatten_nil, List.length_nil, Nat.add_zero,
      decodeToks]
    rw [hb, this]
    exact ⟨_, rfl, rfl, rfl⟩
  | cons t ts ih =>
    intro fuel pre vs initialized htoks hrest hfuel hbuf
    have ht : 0 ∉ t := htoks t (List.mem_cons_self _ _)
    have hts : ∀ u ∈ ts, 0 ∉ u := fun u hu => htoks u (List.mem_cons_of_mem _ hu)
    obtain ⟨f, rfl⟩ : ∃ f, fuel = f + 1 := by
      cases fuel with
      | zero => simp at hfuel
      | succ f => exact ⟨f, rfl⟩
    have hf : ts.length ≤ f := by simpa using hfuel
    have hbuf1 : buf = pre ++ t ++ 0 :: (properties ts ++ rest ++ tail) := by
      rw [hbuf, properties_cons]; simp
    have hbuf2 : buf = (pre ++ t ++ [0]) ++ properties ts ++ rest ++ tail := by
      rw [hbuf, properties_cons]; simp
    have hlen : pre.length + (properties (t :: ts)).length + rest.length
        = (pre ++ t ++ [0]).length + (properties ts).length + rest.length := by
      rw [properties_cons]; simp; omega
    have hnul : strchr_nul buf pre.length = NulSearch.found (pre.length + t.length) := by
      rw [hbuf1]; exact strchr_nul_token pre t _ ht
    have hlt : pre.length + t.length
        < (pre ++ t ++ [0]).length + (properties ts).length + rest.length := by
      simp; omega
    have heq : strchr buf pre.length 61 = (findByte 61 t).map (fun i => pre.length + i) := by
      rw [hbuf1]; exact strchr_token pre t _ 61 ht
    have hk : cstr buf pre.length = t := by
      rw [hbuf1]; exact cstr_token pre t _ ht
    rw [hlen]
    unfold scan
    simp only [hnul, hlt, if_true, heq, decodeToks]
    cases he : findByte 61 t with
    | none => exact ⟨_, rfl, rfl, rfl⟩
    | some e =>
      have hel : e < t.length := findByte_lt 61 t e he
      have hv : cstr buf (pre.length + e + 1) = t.drop (e + 1) := by
        rw [hbuf1, Nat.add_assoc]; exact cstr_token_drop pre t _ (e + 1) ht hel
      obtain ⟨ha1, ha2⟩ := view_assign buf t pre.length e vs initialized hk hv
      have hs : pre.length + t.length + 1 = (pre ++ t ++ [0]).length := by
        simp only [List.length_append, List.length_singleton]
      simp only [Option.map_some']
      rw [hs]
      have := ih f (pre ++ t ++ [0]) (assign buf pre.length (pre.length + e + 1) vs initialized).1
        (assign buf pre.length (pre.length + e + 1) vs initialized).2 hts hrest hf hbuf2
      rw [ha1] at this
      rw [← ha2]
      exact this

/-! ## Facts about the decoded tokens -/

theorem lit_ACTION_add : lit "ACTION=add" = [65, 67, 84, 73, 79, 78, 61, 97, 100, 100] := by
  decide

theorem lit_SUBSYSTEM_eq : lit "SUBSYSTEM=" = lit "SUBSYSTEM" ++ [61] := by decide

theorem lit_USEC_eq : lit "USEC_INITIALIZED=" = lit "USEC_INITIALIZED" ++ [61] := by decide

theorem lit_DEVPATH_eq : lit "DEVPATH=" = lit "DEVPATH" ++ [61] := by decide

theorem take_beq_iff (key t : List Nat) :
    (t.take key.length == key) = true ↔ key <+: t := by
  rw [beq_iff_eq, List.prefix_iff_eq_take]
  exact eq_comm

theorem findByte_of_mem (c : Nat) (t : List Nat) (h : c ∈ t) : ∃ e, findByte c t = some e := by
  induction t with
  | nil => simp at h
  | cons a t ih =>
    simp only [findByte]
    by_cases hc : a = c
    · exact ⟨0, by simp [hc]⟩
    · have hm : c ∈ t := by
        rcases List.mem_cons.mp h with h1 | h1
        · exact absurd h1.symm hc
        · exact h1
      obtain ⟨e, he⟩ := ih hm
      exact ⟨e + 1, by simp [hc, he]⟩

/-- A quantity `g` of the decoded state that only tokens with the key `key`
change, and that the token `tK` sets to `val`, ends as `val` if `tK` occurs
among the tokens and keeps its value otherwise, provided `tK` is the only token
that begins with `key`. -/
theorem decodeToks_field {α : Type} (g : View × Nat → α) (key tK : List Nat) (val : α)
    (hset : ∀ e w i, findByte 61 tK = some e → g (assignView tK e w i) = val)
    (hkeep : ∀ t e w i, ¬ key <+: t → g (assignView t e w i) = g (w, i))
    (hkey : key <+: tK) :
    ∀ (toks : List (List Nat)) (w : View) (i : Nat),
      (∀ t ∈ toks, 61 ∈ t) → (∀ t ∈ toks, key <+: t → t = tK) →
      g (decodeToks toks w i) = if tK ∈ toks then val else g (w, i) := by
  intro toks
  induction toks with
  | nil => intro w i _ _; simp [decodeToks]
  | cons t ts ih =>
    intro w i hwf honly
    obtain ⟨e, he⟩ := findByte_of_mem 61 t (hwf t (List.mem_cons_self _ _))
    have hwf1 : ∀ u ∈ ts, 61 ∈ u := fun u hu => hwf u (List.mem_cons_of_mem _ hu)
    have honly1 : ∀ u ∈ ts, key <+: u → u = tK :=
      fun u hu => honly u (List.mem_cons_of_mem _ hu)
    simp only [decodeToks, he]
    rw [ih _ _ hwf1 honly1]
    by_cases hts : tK ∈ ts
    · simp [hts]
    · simp only [hts, if_false, List.mem_cons, or_false]
      by_cases htk : t = tK
      · subst htk
        simp only [if_true]
        exact hset e w i he
      · have hnk : ¬ key <+: t := fun hp => htk (honly t (List.mem_cons_self _ _) hp)
        rw [if_neg (fun h => htk h.symm)]
        exact hkeep t e w i hnk

theorem decodeToks_action (toks : List (List Nat)) (w : View) (i : Nat)
    (hwf : ∀ t ∈ toks, 61 ∈ t)
    (honly : ∀ t ∈ toks, lit "ACTION" <+: t → t = lit "ACTION=add")
    (hmem : lit "ACTION=add" ∈ toks) :
    (decodeToks toks w i).1.action = some (lit "add") := by
  have := decodeToks_field (fun p => p.1.action) (lit "ACTION") (lit "ACTION=add")
    (some (lit "add"))
    (by
      intro e w i he
      have he6 : e = 6 := by
        have : findByte 61 (lit "ACTION=add") = some 6 := by decide
        rw [this] at he
        exact (Option.some.inj he).symm
      subst he6
      simp [assignView, lit_ACTION, lit_ACTION_add]
      decide)
    (by
      intro t e w i hn
      have hf : (t.take (lit "ACTION").length == lit "ACTION") = false := by
        rw [Bool.eq_false_iff]; exact fun h => hn ((take_beq_iff _ _).mp h)
      simp only [assignView, hf, Bool.false_eq_true, if_false]
      split_ifs <;> rfl)
    (by decide) toks w i hwf honly
  simpa [hmem] using this

theorem decodeToks_subsystem (x : List Nat) (toks : List (List Nat)) (w : View) (i : Nat)
    (hwf : ∀ t ∈ toks, 61 ∈ t)
    (honly : ∀ t ∈ toks, lit "SUBSYSTEM" <+: t → t = lit "SUBSYSTEM=" ++ x)
    (hmem : lit "SUBSYSTEM=" ++ x ∈ toks) :
    (decodeToks toks w i).1.subsystem = some x := by
  have := decodeToks_field (fun p => p.1.subsystem) (lit "SUBSYSTEM") (lit "SUBSYSTEM=" ++ x)
    (some x)
    (by
      intro e w i he
      have he9 : e = 9 := by
        have : findByte 61 (lit "SUBSYSTEM=" ++ x) = some 9 := by
          simp [lit_SUBSYSTEM_eq, lit_SUBSYSTEM, findByte]
        rw [this] at he
        exact (Option.some.inj he).symm
      subst he9
      simp [assignView, lit_SUBSYSTEM_eq, lit_ACTION, lit_SUBSYSTEM, lit_KERNEL, lit_DEVPATH,
        lit_DEVNAME])
    (by
      intro t e w i hn
      have hf : (t.take (lit "SUBSYSTEM").length == lit "SUBSYSTEM") = false := by
        rw [Bool.eq_false_iff]; exact fun h => hn ((take_beq_iff _ _).mp h)
      simp only [assignView, hf, Bool.false_eq_true, if_false]
      split_ifs <;> rfl)
    (by rw [lit_SUBSYSTEM_eq, List.append_assoc]; exact List.prefix_append _ _)
    toks w i hwf honly
  simpa [hmem] using this

theorem decodeToks_initialized (u : List Nat) (toks : List (List Nat)) (w : View) (i : Nat)
    (hwf : ∀ t ∈ toks, 61 ∈ t)
    (honly : ∀ t ∈ toks, lit "USEC_INITIALIZED" <+: t → t = lit "USEC_INITIALIZED=" ++ u)
    (hmem : lit "USEC_INITIALIZED=" ++ u ∈ toks) :
    (decodeToks toks w i).2 = toUnsignedLong (strtol u) := by
  have := decodeToks_field (fun p => p.2) (lit "USEC_INITIALIZED")
    (lit "USEC_INITIALIZED=" ++ u) (toUnsignedLong (strtol u))
    (by
      intro e w i he
      have he16 : e = 16 := by
        have : findByte 61 (lit "USEC_INITIALIZED=" ++ u) = some 16 := by
          simp [lit_USEC_eq, lit_USEC, findByte]
        rw [this] at he
        exact (Option.some.inj he).symm
      subst he16
      simp [assignView, lit_USEC_eq, lit_ACTION, lit_SUBSYSTEM, lit_KERNEL, lit_DEVPATH,
        lit_DEVNAME, lit_USEC])
    (by
      intro t e w i hn
      have hf : (t.take (lit "USEC_INITIALIZED").length == lit "USEC_INITIALIZED") = false := by
        rw [Bool.eq_false_iff]; exact fun h => hn ((take_beq_iff _ _).mp h)
      simp only [assignView, hf, Bool.false_eq_true, if_false]
      split_ifs <;> rfl)
    (by rw [lit_USEC_eq, List.append_assoc]; exact List.prefix_append _ _)
    toks w i hwf honly
  simpa [hmem] using this

theorem assignView_devpath_isSome (t : List Nat) (e : Nat) (w : View) (i : Nat)
    (h : w.devpath.isSome) : (assignView t e w i).1.devpath.isSome := by
  unfold assignView
  split_ifs <;> simp [h]

theorem decodeToks_devpath_isSome (toks : List (List Nat)) (w : View) (i : Nat)
    (h : w.devpath.isSome) : (decodeToks toks w i).1.devpath.isSome := by
  induction toks generalizing w i with
  | nil => simpa [decodeToks] using h
  | cons t ts ih =>
    simp only [decodeToks]
    cases he : findByte 61 t with
    | none => simpa using h
    | some e => exact ih _ _ (assignView_devpath_isSome t e w i h)

theorem decodeToks_devpath (y : List Nat) (toks : List (List Nat)) (w : View) (i : Nat)
    (hwf : ∀ t ∈ toks, 61 ∈ t) (hmem : lit "DEVPATH=" ++ y ∈ toks) :
    (decodeToks toks w i).1.devpath.isSome := by
  induction toks generalizing w i with
  | nil => simp at hmem
  | cons t ts ih =>
    obtain ⟨e, he⟩ := findByte_of_mem 61 t (hwf t (List.mem_cons_self _ _))
    have hwf1 : ∀ u ∈ ts, 61 ∈ u := fun u hu => hwf u (List.mem_cons_of_mem _ hu)
    simp only [decodeToks, he]
    rcases List.mem_cons.mp hmem with h1 | h1
    · apply decodeToks_devpath_isSome
      rw [← h1]
      simp [assignView, lit_DEVPATH_eq, lit_ACTION, lit_KERNEL, lit_DEVPATH]
    · exact ih _ _ hwf1 h1

/-! ## A whole plain datagram -/

theorem finish_emits (buf : List Nat) (vs : Vars) (initialized ps pa : Nat)
    (ha : vs.action = some pa) (hs : vs.subsystem = some ps) (hd : vs.devpath.isSome)
    (hi : initialized ≠ 0) :
    finish buf vs initialized
      = ⟨{ vs with env_len := (envAction buf vs).2 },
          some ⟨deviceEventName (cstr buf ps) (cstr buf pa), envStrings (envAction buf vs).1,
            false⟩, Flow.next⟩ := by
  have hdn : vs.devpath.isNone = false := by
    cases hdp : vs.devpath with
    | none => simp [hdp] at hd
    | some p => rfl
  unfold finish
  simp only [ha, hs, hdn, hi, Option.isNone_some, Bool.false_eq_true, if_false]
  rw [← eventName_eq buf vs ps pa hs ha]

theorem clampLong_range (neg : Bool) (mag : Nat) :
    LONG_MIN ≤ clampLong neg mag ∧ clampLong neg mag ≤ LONG_MAX := by
  unfold clampLong
  simp only [LONG_MIN, LONG_MAX]
  cases neg
  · simp only [Bool.false_eq_true, if_false]
    constructor
    · apply le_min <;> omega
    · exact min_le_left _ _
  · simp only [if_true]
    constructor
    · exact le_max_left _ _
    · apply max_le <;> omega

theorem toUnsignedLong_ne_zero (v : List Nat) (h : strtol v ≠ 0) :
    toUnsignedLong (strtol v) ≠ 0 := by
  have hr : LONG_MIN ≤ strtol v ∧ strtol v ≤ LONG_MAX := clampLong_range _ _
  obtain ⟨h1, h2⟩ := hr
  simp only [LONG_MIN, LONG_MAX] at h1 h2
  unfold toUnsignedLong
  omega

theorem length_le_properties (toks : List (List Nat)) :
    toks.length ≤ (properties toks).length := by
  induction toks with
  | nil => simp [properties]
  | cons t ts ih => rw [properties_cons]; simp; omega

theorem length_properties_of_mem (t : List Nat) (toks : List (List Nat)) (h : t ∈ toks) :
    t.length < (properties toks).length := by
  induction toks with
  | nil => simp at h
  | cons a ts ih =>
    rw [properties_cons]
    rcases List.mem_cons.mp h with h1 | h1
    · subst h1; simp
    · have := ih h1
      simp; omega

theorem recvInto_fits (buf d : List Nat) (h : d.length ≤ BUFSIZE) :
    recvInto buf d = d ++ buf.drop d.length := by
  unfold recvInto
  rw [List.take_of_length_le h]

/-- The loop body on a well-formed plain datagram: the scan starts behind the
header and decodes the tokens in order. -/
theorem body_plain (hostLE : Bool) (buf hdr : List Nat) (toks : List (List Nat)) (vs : Vars)
    (hhdr : 0 ∉ hdr) (htoks : ∀ t ∈ toks, 0 ∉ t)
    (hsize : (datagram hdr toks).length ≤ BUFSIZE)
    (hplain : (recvInto buf (datagram hdr toks)).take 8 ≠ LIBUDEV) :
    ∃ vs1 i1,
      body hostLE (recvInto buf (datagram hdr toks)) (datagram hdr toks).length vs
        = finish (recvInto buf (datagram hdr toks)) vs1 i1 ∧
      view (recvInto buf (datagram hdr toks)) vs1
        = (decodeToks toks (view (recvInto buf (datagram hdr toks)) vs) 0).1 ∧
      i1 = (decodeToks toks (view (recvInto buf (datagram hdr toks)) vs) 0).2 := by
  have hb : recvInto buf (datagram hdr toks)
      = (hdr ++ [0]) ++ properties toks ++ [] ++ buf.drop (datagram hdr toks).length := by
    rw [recvInto_fits buf _ hsize]; simp [datagram]
  have hb0 : recvInto buf (datagram hdr toks)
      = [] ++ hdr ++ 0 :: (properties toks ++ buf.drop (datagram hdr toks).length) := by
    rw [hb]; simp
  have hc : cstr (recvInto buf (datagram hdr toks)) 0 = hdr := by
    rw [hb0]; exact cstr_token [] hdr _ hhdr
  have hstart : scanStart hostLE (recvInto buf (datagram hdr toks)) = some (hdr.length + 1) := by
    unfold scanStart
    have : ((recvInto buf (datagram hdr toks)).take 8 == LIBUDEV) = false := by
      rw [Bool.eq_false_iff]; simpa using hplain
    simp only [this, Bool.false_eq_true, if_false, hc]
  have hlen : (datagram hdr toks).length
      = (hdr ++ [0]).length + (properties toks).length + ([] : List Nat).length := by
    simp [datagram]; omega
  have hfuel : toks.length ≤ (datagram hdr toks).length := by
    have := length_le_properties toks
    simp [datagram]; omega
  have hpre : hdr.length + 1 = (hdr ++ [0]).length := by simp
  obtain ⟨r, hr, h1, h2⟩ := scan_tokens (recvInto buf (datagram hdr toks)) []
    (buf.drop (datagram hdr toks).length) toks (datagram hdr toks).length (hdr ++ [0]) vs 0
    htoks (by simp) hfuel hb
  rw [← hlen] at hr
  refine ⟨r.1, r.2, ?_, h1, h2⟩
  unfold body
  simp only [hstart, hpre, hr]

/-- C1 (amended): for every well-formed plain datagram (a header without NUL,
then NUL-terminated tokens that each contain `=`, at most 4096 bytes, not
starting with the eight bytes `libudev` NUL) that contains the tokens
`ACTION=add`, `SUBSYSTEM=x`, `DEVPATH=y` and `USEC_INITIALIZED=u` with `u` read
by `strtol` as a non-zero number, and in which no other token begins with
`ACTION`, `SUBSYSTEM` or `USEC_INITIALIZED`, the loop body makes an emission,
whatever the variables and the buffer held before, and the emitted name is
`x-device-added`; as the first datagram of a wakeup it gives the first emission
of `netlink_monitor_watcher`. -/
theorem plain_add_emitted (hostLE : Bool) (buf hdr x y u : List Nat) (toks : List (List Nat))
    (vs : Vars) (q : List (List Nat))
    (hhdr : 0 ∉ hdr) (htoks : ∀ t ∈ toks, 0 ∉ t ∧ 61 ∈ t)
    (hsize : (datagram hdr toks).length ≤ BUFSIZE)
    (hplain : (datagram hdr toks).take 8 ≠ LIBUDEV)
    (hA : lit "ACTION=add" ∈ toks) (hS : lit "SUBSYSTEM=" ++ x ∈ toks)
    (hD : lit "DEVPATH=" ++ y ∈ toks) (hU : lit "USEC_INITIALIZED=" ++ u ∈ toks)
    (hu : strtol u ≠ 0)
    (honlyA : ∀ t ∈ toks, lit "ACTION" <+: t → t = lit "ACTION=add")
    (honlyS : ∀ t ∈ toks, lit "SUBSYSTEM" <+: t → t = lit "SUBSYSTEM=" ++ x)
    (honlyU : ∀ t ∈ toks, lit "USEC_INITIALIZED" <+: t → t = lit "USEC_INITIALIZED=" ++ u) :
    (∃ e, (body hostLE (recvInto buf (datagram hdr toks)) (datagram hdr toks).length vs).emitted
        = some e ∧ e.name = x ++ lit "-device-added" ∧ e.wait = false) ∧
    (∃ e rest, (netlink_monitor_watcher hostLE buf (datagram hdr toks :: q)).1 = e :: rest ∧
      e.name = x ++ lit "-device-added") := by
  have hnul : ∀ t ∈ toks, 0 ∉ t := fun t ht => (htoks t ht).1
  have heq : ∀ t ∈ toks, 61 ∈ t := fun t ht => (htoks t ht).2
  have hlen17 : 17 < (datagram hdr toks).length := by
    have := length_properties_of_mem _ toks hU
    have h17 : (lit "USEC_INITIALIZED=").length = 17 := by decide
    rw [List.length_append, h17] at this
    simp [datagram]; omega
  have hB : BUFSIZE = 4096 := rfl
  have key : ∀ (b : List Nat) (v : Vars),
      ∃ e v1, body hostLE (recvInto b (datagram hdr toks)) (datagram hdr toks).length v
          = ⟨v1, some e, Flow.next⟩ ∧
        e.name = x ++ lit "-device-added" ∧ e.wait = false := by
    intro b v
    have hpl : (recvInto b (datagram hdr toks)).take 8 ≠ LIBUDEV := by
      rw [take_recvInto b _ 8 (by omega) (by omega)]; exact hplain
    obtain ⟨vs1, i1, hbody, hview, hi1⟩ := body_plain hostLE b hdr toks v hhdr hnul hsize hpl
    have hact := decodeToks_action toks (view (recvInto b (datagram hdr toks)) v) 0 heq honlyA hA
    have hsub := decodeToks_subsystem x toks (view (recvInto b (datagram hdr toks)) v) 0 heq
      honlyS hS
    have hini := decodeToks_initialized u toks (view (recvInto b (datagram hdr toks)) v) 0 heq
      honlyU hU
    have hdev := decodeToks_devpath y toks (view (recvInto b (datagram hdr toks)) v) 0 heq hD
    rw [← hview] at hact hsub hdev
    rw [← hi1] at hini
    obtain ⟨pa, hpa, hca⟩ : ∃ pa, vs1.action = some pa ∧
        cstr (recvInto b (datagram hdr toks)) pa = lit "add" := by
      simpa [view] using hact
    obtain ⟨ps, hps, hcs⟩ : ∃ ps, vs1.subsystem = some ps ∧
        cstr (recvInto b (datagram hdr toks)) ps = x := by
      simpa [view] using hsub
    have hd : vs1.devpath.isSome := by simpa [view] using hdev
    have hi : i1 ≠ 0 := by rw [hini]; exact toUnsignedLong_ne_zero u hu
    have hfin := finish_emits (recvInto b (datagram hdr toks)) vs1 i1 ps pa hpa hps hd hi
    have hname : deviceEventName x (lit "add") = x ++ lit "-device-added" := by
      simp [deviceEventName]
    rw [hca, hcs, hname] at hfin
    exact ⟨_, _, by rw [hbody, hfin], rfl, rfl⟩
  constructor
  · obtain ⟨e, v1, he, hn, hw⟩ := key buf vs
    exact ⟨e, by rw [he], hn, hw⟩
  · obtain ⟨e, v1, he, hn, _⟩ := key buf Vars.init
    have hne : ¬ ((datagram hdr toks).take BUFSIZE).length = 0 := by
      rw [List.take_of_length_le hsize]; omega
    refine ⟨e, (receiveLoop hostLE q (recvInto buf (datagram hdr toks)) v1).1, ?_, hn⟩
    unfold netlink_monitor_watcher
    rw [receiveLoop, if_neg hne, List.take_of_length_le hsize]
    simp only [he, Option.toList, List.singleton_append]

theorem plain_add_emitted_witness :
    (∃ e, (body true (recvInto zeroStack validRecord) validRecord.length Vars.init).emitted
        = some e ∧ e.name = lit "x" ++ lit "-device-added" ∧ e.wait = false) ∧
    (∃ e rest, (netlink_monitor_watcher true zeroStack (validRecord :: [])).1 = e :: rest ∧
      e.name = lit "x" ++ lit "-device-added") :=
  plain_add_emitted true zeroStack (lit "add@/y") (lit "x") (lit "/y") (lit "1")
    [lit "ACTION=add", lit "DEVPATH=/y", lit "SUBSYSTEM=x", lit "USEC_INITIALIZED=1"]
    Vars.init [] (by decide) (by decide) (by decide) (by decide) (by decide) (by decide)
    (by decide) (by decide) (by decide) (by decide) (by decide) (by decide)

/-! ## The bound on the scan loop is never reached -/

theorem strchr_nul_ge (buf : List Nat) (s n : Nat) (h : strchr_nul buf s = NulSearch.found n) :
    s ≤ n :=
  (strchr_nul_found buf s n h).1

/-- With `len - s` iterations allowed the scan loop has already ended by
itself: one more allowed iteration changes nothing.  In `body` the loop starts
with `len` iterations allowed. -/
theorem scan_fuel_succ (buf : List Nat) (len : Nat) :
    ∀ (fuel s : Nat) (vs : Vars) (initialized : Nat), len ≤ s + fuel →
      scan (fuel + 1) buf len s vs initialized = scan fuel buf len s vs initialized := by
  intro fuel
  induction fuel with
  | zero =>
    intro s vs initialized h
    rw [scan, scan]
    cases hn : strchr_nul buf s with
    | outside => rfl
    | behind => rfl
    | found n =>
      have := strchr_nul_ge buf s n hn
      have hlt : ¬ n < len := by omega
      simp only [hlt, if_false]
  | succ fuel ih =>
    intro s vs initialized h
    rw [scan, scan]
    cases hn : strchr_nul buf s with
    | outside => rfl
    | behind => rfl
    | found n =>
      have hge := strchr_nul_ge buf s n hn
      by_cases hlt : n < len
      · simp only [hlt, if_true]
        cases he : strchr buf s 61 with
        | none => rfl
        | some e => exact ih (n + 1) _ _ (by omega)
      · simp only [hlt, if_false]

theorem scan_fuel_add (buf : List Nat) (len s : Nat) (vs : Vars) (initialized : Nat) (k : Nat) :
    scan (len + k) buf len s vs initialized = scan len buf len s vs initialized := by
  induction k with
  | zero => rfl
  | succ k ih =>
    rw [← ih]
    exact scan_fuel_succ buf len (len + k) s vs initialized (by omega)

/-! ## The environment of the first emission of a wakeup -/

/-- With `env_len = 0`, as for the first datagram that gets as far as the
environment, the emitted environment is the list of the strings at `kernel_var`
(if `kernel` is set), `devpath_var`, `devname_var` (if `devname` is set),
`subsystem_var` and `action_var`. -/
theorem envAction_first (buf : List Nat) (vs : Vars) (h0 : vs.env_len = 0) :
    envStrings (envAction buf vs).1
      = (if vs.kernel.isSome then [strdup buf vs.kernel_var] else [])
        ++ [strdup buf vs.devpath_var]
        ++ (if vs.devname.isSome then [strdup buf vs.devname_var] else [])
        ++ [strdup buf vs.subsystem_var, strdup buf vs.action_var] := by
  have hk : envKernel buf vs
      = envState (if vs.kernel.isSome then [strdup buf vs.kernel_var] else []) := by
    unfold envKernel
    rw [h0]
    split_ifs
    · exact addp_new _
    · exact new_envState
  have hd : envDevpath buf vs
      = envState ((if vs.kernel.isSome then [strdup buf vs.kernel_var] else [])
          ++ [strdup buf vs.devpath_var]) := by
    unfold envDevpath
    rw [hk, addp_envState]
  have hn : envDevname buf vs
      = envState ((if vs.kernel.isSome then [strdup buf vs.kernel_var] else [])
          ++ [strdup buf vs.devpath_var]
          ++ (if vs.devname.isSome then [strdup buf vs.devname_var] else [])) := by
    unfold envDevname
    rw [hd]
    by_cases hdn : vs.devname.isSome = true
    · rw [if_pos hdn, if_pos hdn, addp_envState]
    · rw [if_neg hdn, if_neg hdn, List.append_nil]
  unfold envAction envSubsystem
  rw [hn, addp_envState, addp_envState, envStrings_envState]
  simp

/-! ## Datagrams without a usable `USEC_INITIALIZED` -/

theorem decodeToks_initialized_zero (toks : List (List Nat)) (w : View)
    (h : ∀ t ∈ toks, ∀ e, findByte 61 t = some e → lit "USEC_INITIALIZED" <+: t →
      strtol (t.drop (e + 1)) = 0) :
    (decodeToks toks w 0).2 = 0 := by
  induction toks generalizing w with
  | nil => rfl
  | cons t ts ih =>
    simp only [decodeToks]
    cases he : findByte 61 t with
    | none => rfl
    | some e =>
      have h2 : (assignView t e w 0).2 = 0 := by
        unfold assignView
        split_ifs with h1 h2 h3 h4 h5 h6
        · rfl
        · rfl
        · rfl
        · rfl
        · rfl
        · have := h t (List.mem_cons_self _ _) e he ((take_beq_iff _ _).mp h6)
          simp only [this]
          rfl
        · rfl
      simp only [h2]
      exact ih _ (fun u hu => h u (List.mem_cons_of_mem _ hu))

/-- A well-formed plain datagram in which every token that begins with
`USEC_INITIALIZED` has a value that `strtol` reads as 0 (in particular one with
no such token) is never emitted, whatever was decoded before it. -/
theorem plain_uninitialized_not_emitted (hostLE : Bool) (buf hdr : List Nat)
    (toks : List (List Nat)) (vs : Vars)
    (hhdr : 0 ∉ hdr) (htoks : ∀ t ∈ toks, 0 ∉ t)
    (hsize : (datagram hdr toks).length ≤ BUFSIZE)
    (hplain : (recvInto buf (datagram hdr toks)).take 8 ≠ LIBUDEV)
    (h : ∀ t ∈ toks, ∀ e, findByte 61 t = some e → lit "USEC_INITIALIZED" <+: t →
      strtol (t.drop (e + 1)) = 0) :
    (body hostLE (recvInto buf (datagram hdr toks)) (datagram hdr toks).length vs).emitted
      = none := by
  obtain ⟨vs1, i1, hbody, -, hi1⟩ := body_plain hostLE buf hdr toks vs hhdr htoks hsize hplain
  rw [decodeToks_initialized_zero toks _ h] at hi1
  rw [hbody, hi1]
  unfold finish
  by_cases ha : vs1.action.isNone = true
  · rw [if_pos ha]
  · rw [if_neg ha, if_pos rfl]

/-! ## The first datagram of a wakeup without a mandatory field -/

theorem decodeToks_keep {α : Type} (g : View × Nat → α) (key : List Nat)
    (hkeep : ∀ t e w i, ¬ key <+: t → g (assignView t e w i) = g (w, i)) :
    ∀ (toks : List (List Nat)) (w : View) (i : Nat),
      (∀ t ∈ toks, ¬ key <+: t) → g (decodeToks toks w i) = g (w, i) := by
  intro toks
  induction toks with
  | nil => intro w i _; rfl
  | cons t ts ih =>
    intro w i h
    simp only [decodeToks]
    cases he : findByte 61 t with
    | none => rfl
    | some e =>
      simp only []
      rw [ih _ _ (fun u hu => h u (List.mem_cons_of_mem _ hu))]
      exact hkeep t e w i (h t (List.mem_cons_self _ _))

theorem assignView_keep_action (t : List Nat) (e : Nat) (w : View) (i : Nat)
    (hn : ¬ lit "ACTION" <+: t) : (assignView t e w i).1.action = w.action := by
  have hf : (t.take (lit "ACTION").length == lit "ACTION") = false := by
    rw [Bool.eq_false_iff]; exact fun h => hn ((take_beq_iff _ _).mp h)
  simp only [assignView, hf, Bool.false_eq_true, if_false]
  split_ifs <;> rfl

theorem assignView_keep_devpath (t : List Nat) (e : Nat) (w : View) (i : Nat)
    (hn : ¬ lit "DEVPATH" <+: t) : (assignView t e w i).1.devpath = w.devpath := by
  have hf : (t.take (lit "DEVPATH").length == lit "DEVPATH") = false := by
    rw [Bool.eq_false_iff]; exact fun h => hn ((take_beq_iff _ _).mp h)
  simp only [assignView, hf, Bool.false_eq_true, if_false]
  split_ifs <;> rfl

theorem assignView_keep_subsystem (t : List Nat) (e : Nat) (w : View) (i : Nat)
    (hn : ¬ lit "SUBSYSTEM" <+: t) : (assignView t e w i).1.subsystem = w.subsystem := by
  have hf : (t.take (lit "SUBSYSTEM").length == lit "SUBSYSTEM") = false := by
    rw [Bool.eq_false_iff]; exact fun h => hn ((take_beq_iff _ _).mp h)
  simp only [assignView, hf, Bool.false_eq_true, if_false]
  split_ifs <;> rfl

/-- As the first datagram of a wakeup (all pointers still `NULL`), a
well-formed plain datagram in which no token begins with `ACTION`, or none with
`DEVPATH`, or none with `SUBSYSTEM`, is not emitted. -/
theorem plain_incomplete_first_not_emitted (hostLE : Bool) (stack hdr : List Nat)
    (toks : List (List Nat))
    (hhdr : 0 ∉ hdr) (htoks : ∀ t ∈ toks, 0 ∉ t)
    (hsize : (datagram hdr toks).length ≤ BUFSIZE)
    (hplain : (recvInto stack (datagram hdr toks)).take 8 ≠ LIBUDEV)
    (h : (∀ t ∈ toks, ¬ lit "ACTION" <+: t) ∨ (∀ t ∈ toks, ¬ lit "DEVPATH" <+: t) ∨
      (∀ t ∈ toks, ¬ lit "SUBSYSTEM" <+: t)) :
    (body hostLE (recvInto stack (datagram hdr toks)) (datagram hdr toks).length
      Vars.init).emitted = none := by
  obtain ⟨vs1, i1, hbody, hview, -⟩ :=
    body_plain hostLE stack hdr toks Vars.init hhdr htoks hsize hplain
  rw [hbody]
  unfold finish
  rcases h with h | h | h
  · have := decodeToks_keep (fun p => p.1.action) (lit "ACTION")
      (fun t e w i hn => assignView_keep_action t e w i hn) toks
      (view (recvInto stack (datagram hdr toks)) Vars.init) 0 h
    simp only [← hview] at this
    have ha : vs1.action = none := by simpa [view, Vars.init] using this
    simp [ha]
  · have := decodeToks_keep (fun p => p.1.devpath) (lit "DEVPATH")
      (fun t e w i hn => assignView_keep_devpath t e w i hn) toks
      (view (recvInto stack (datagram hdr toks)) Vars.init) 0 h
    simp only [← hview] at this
    have ha : vs1.devpath = none := by simpa [view, Vars.init] using this
    split_ifs <;> simp_all
  · have := decodeToks_keep (fun p => p.1.subsystem) (lit "SUBSYSTEM")
      (fun t e w i hn => assignView_keep_subsystem t e w i hn) toks
      (view (recvInto stack (datagram hdr toks)) Vars.init) 0 h
    simp only [← hview] at this
    have ha : vs1.subsystem = none := by simpa [view, Vars.init] using this
    split_ifs <;> simp_all

end Uevent

namespace Avahi

open Uevent (lit Emission)

/-! ## Creating and destroying watches -/

theorem create_spec (svc : Service) (m : Manager) (type domain : List Nat) :
    avahi_create_browser_proxy svc m type domain
      = ({ type_entries := m.type_entries
           browser_entries := m.browser_entries
             ++ (createdWatch svc m.requests.length ⟨-1, -1, type, domain, 0⟩).toList
           requests := m.requests ++ [⟨-1, -1, type, domain, 0⟩] },
         createdWatch svc m.requests.length ⟨-1, -1, type, domain, 0⟩) := by
  unfold avahi_create_browser_proxy
  cases h : createdWatch svc m.requests.length ⟨-1, -1, type, domain, 0⟩ <;> simp [h]

theorem createdWatch_type (svc : Service) (n : Nat) (req : BrowserRequest) (w : Watch)
    (h : createdWatch svc n req = some w) : w.type = req.type := by
  unfold createdWatch at h
  cases hb : svc.browserNew n req with
  | none => simp [hb] at h
  | some p =>
    simp only [hb] at h
    split_ifs at h
    simp only [Option.some.injEq] at h
    rw [← h]

theorem createdWatch_eq_none_iff (svc : Service) (n : Nat) (req : BrowserRequest) :
    createdWatch svc n req = none ↔
      (svc.browserNew n req = none ∨ svc.connect n (lit "ItemNew") = false ∨
        svc.connect n (lit "ItemRemove") = false ∨ svc.connect n (lit "AllForNow") = false) := by
  unfold createdWatch
  cases hb : svc.browserNew n req with
  | none => simp
  | some p =>
    cases h1 : svc.connect n (lit "ItemNew") <;> cases h2 : svc.connect n (lit "ItemRemove") <;>
      cases h3 : svc.connect n (lit "AllForNow") <;> simp

/-- The loop of the `AllForNow` filter over a queue `q`: every queued type is
requested, in order; the successful watches are appended, in order; the queue
is left empty. -/
theorem flushTypes_spec (svc : Service) :
    ∀ (q : List (List Nat)) (m : Manager),
      flushTypes svc q m
        = { type_entries := if q = [] then m.type_entries else []
            browser_entries := m.browser_entries ++ successes svc m.requests.length q
            requests := m.requests ++ q.map requestFor } := by
  intro q
  induction q with
  | nil => intro m; simp [flushTypes, successes]
  | cons t rest ih =>
    intro m
    rw [flushTypes, create_spec, ih]
    simp only [successes, requestFor, List.length_append, List.length_singleton, List.map_cons,
      List.append_assoc, List.singleton_append, reduceCtorEq, if_false]
    by_cases hr : rest = []
    · simp [hr]
    · simp [hr]

theorem allForNow_accepted (svc : Service) (sig : BareSignal) (m : Manager)
    (hacc : sig.ifaceOk = true ∧ sig.member = lit "AllForNow" ∧ sig.pathOk = true ∧
      sig.senderOk = true ∧ sig.argsOk = true) :
    org_freedesktop_Avahi_Server_Type_Browser_AllForNow_signal svc sig m
      = ⟨{ type_entries := []
           browser_entries := m.browser_entries ++ successes svc m.requests.length m.type_entries
           requests := m.requests ++ m.type_entries.map requestFor }, []⟩ := by
  obtain ⟨h1, h2, h3, h4, h5⟩ := hacc
  unfold org_freedesktop_Avahi_Server_Type_Browser_AllForNow_signal
  simp only [h1, h2, h3, h4, h5, beq_self_eq_true, Bool.and_self, Bool.not_true,
    Bool.false_eq_true, if_false]
  rw [flushTypes_spec]
  by_cases hq : m.type_entries = []
  · simp [hq]
  · simp [hq]

theorem successes_append (svc : Service) :
    ∀ (q1 q2 : List (List Nat)) (n : Nat),
      successes svc n (q1 ++ q2) = successes svc n q1 ++ successes svc (n + q1.length) q2 := by
  intro q1
  induction q1 with
  | nil => intro q2 n; simp [successes]
  | cons t rest ih =>
    intro q2 n
    have hn : n + 1 + rest.length = n + (rest.length + 1) := by omega
    rw [List.cons_append, successes, successes, ih, hn, List.length_cons, List.append_assoc]

theorem successes_types_sublist (svc : Service) :
    ∀ (q : List (List Nat)) (n : Nat), ((successes svc n q).map Watch.type).Sublist q := by
  intro q
  induction q with
  | nil => intro n; simp [successes]
  | cons t rest ih =>
    intro n
    simp only [successes, List.map_append]
    cases h : createdWatch svc n ⟨-1, -1, t, [], 0⟩ with
    | none => simpa using (ih (n + 1)).cons t
    | some w =>
      have ht : w.type = t := createdWatch_type svc n _ w h
      simpa [ht] using (ih (n + 1)).cons₂ t

theorem occurrences_append (t : List Nat) (l1 l2 : List (List Nat)) :
    occurrences t (l1 ++ l2) = occurrences t l1 + occurrences t l2 := by
  induction l1 with
  | nil => simp [occurrences]
  | cons x xs ih => rw [List.cons_append, occurrences, occurrences, ih]; omega

theorem occurrences_sublist (t : List Nat) (l1 l2 : List (List Nat)) (h : l1.Sublist l2) :
    occurrences t l1 ≤ occurrences t l2 := by
  induction h with
  | slnil => exact le_refl _
  | cons a _ ih => simp only [occurrences]; omega
  | cons₂ a _ ih => simp only [occurrences]; omega

theorem occurrences_of_not_mem (t : List Nat) (l : List (List Nat)) (h : t ∉ l) :
    occurrences t l = 0 := by
  induction l with
  | nil => rfl
  | cons x xs ih =>
    have hx : x ≠ t := fun e => h (by simp [e])
    have hxs : t ∉ xs := fun e => h (List.mem_cons_of_mem _ e)
    simp [occurrences, hx, ih hxs]

theorem occurrences_of_nodup (t : List Nat) (l : List (List Nat)) (hn : l.Nodup) (h : t ∈ l) :
    occurrences t l = 1 := by
  induction l with
  | nil => simp at h
  | cons x xs ih =>
    rw [List.nodup_cons] at hn
    simp only [occurrences]
    by_cases hx : x = t
    · subst hx
      simp [occurrences_of_not_mem x xs hn.1]
    · have hm : t ∈ xs := by
        rcases List.mem_cons.mp h with h1 | h1
        · exact absurd h1.symm hx
        · exact h1
      simp [hx, ih hn.2 hm]

theorem successes_length_le (svc : Service) (q : List (List Nat)) (n : Nat) :
    (successes svc n q).length ≤ q.length := by
  have := (successes_types_sublist svc q n).length_le
  simpa using this

/-! ## The claims about the two lists -/

theorem typeItemNew_spec (sig : TypeSignal) (m : Manager) :
    (org_freedesktop_Avahi_Server_Type_Browser_ItemNew_signal sig m).emitted = [] ∧
    (org_freedesktop_Avahi_Server_Type_Browser_ItemNew_signal sig m).manager.browser_entries
      = m.browser_entries ∧
    (org_freedesktop_Avahi_Server_Type_Browser_ItemNew_signal sig m).manager.requests
      = m.requests := by
  unfold org_freedesktop_Avahi_Server_Type_Browser_ItemNew_signal
  split_ifs
  · exact ⟨rfl, rfl, rfl⟩
  · exact ⟨rfl, rfl, rfl⟩
  · exact ⟨rfl, rfl, rfl⟩
  · cases sig.args <;> exact ⟨rfl, rfl, rfl⟩

theorem typeItemNew_accepted (sig : TypeSignal) (m : Manager) (a : TypeArgs)
    (hacc : sig.ifaceOk = true ∧ sig.member = lit "ItemNew" ∧ sig.pathOk = true ∧
      sig.senderOk = true ∧ sig.args = some a) :
    org_freedesktop_Avahi_Server_Type_Browser_ItemNew_signal sig m
      = ⟨{ m with type_entries := m.type_entries ++ [a.type] }, []⟩ := by
  obtain ⟨h1, h2, h3, h4, h5⟩ := hacc
  unfold org_freedesktop_Avahi_Server_Type_Browser_ItemNew_signal
  simp [h1, h2, h3, h4, h5]

theorem notify_typeDiscovered (svc : Service) (m : Manager) (t : List Nat) :
    notify svc m (Notification.typeDiscovered t)
      = { m with type_entries := m.type_entries ++ [t] } := by
  show (org_freedesktop_Avahi_Server_Type_Browser_ItemNew_signal (typeDiscoveredSignal t)
    m).manager = _
  rw [typeItemNew_accepted (typeDiscoveredSignal t) m ⟨0, 0, t, lit "local", 0⟩
    ⟨rfl, rfl, rfl, rfl, rfl⟩]

theorem notify_batchComplete (svc : Service) (m : Manager) :
    notify svc m Notification.batchComplete
      = { type_entries := []
          browser_entries := m.browser_entries ++ successes svc m.requests.length m.type_entries
          requests := m.requests ++ m.type_entries.map requestFor } := by
  show (org_freedesktop_Avahi_Server_Type_Browser_AllForNow_signal svc batchCompleteSignal
    m).manager = _
  rw [allForNow_accepted svc batchCompleteSignal m ⟨rfl, rfl, rfl, rfl, rfl⟩]

/-- The watches of a type and its queued announcements together never exceed
what was there before plus the announcements made since. -/
theorem watch_count_invariant (svc : Service) (t : List Nat) :
    ∀ (ns : List Notification) (m : Manager),
      occurrences t ((notifyAll svc ns m).browser_entries.map Watch.type)
          + occurrences t (notifyAll svc ns m).type_entries
        ≤ occurrences t (m.browser_entries.map Watch.type) + occurrences t m.type_entries
          + announcements t ns := by
  intro ns
  induction ns with
  | nil => intro m; simp [notifyAll, announcements]
  | cons n ns ih =>
    intro m
    rw [notifyAll]
    refine le_trans (ih _) ?_
    cases n with
    | typeDiscovered type =>
      rw [notify_typeDiscovered, announcements]
      simp only [occurrences_append, occurrences]
      omega
    | batchComplete =>
      rw [notify_batchComplete, announcements]
      have hs := occurrences_sublist t _ _
        (successes_types_sublist svc m.type_entries m.requests.length)
      simp only [List.map_append, occurrences_append, occurrences]
      omega

/-! ## Expected and created watches -/

theorem accepts_eq_true_iff (svc : Service) (n : Nat) (req : BrowserRequest) :
    accepts svc n req = true ↔
      ((∃ p, svc.browserNew n req = some p) ∧ svc.connect n (lit "ItemNew") = true ∧
        svc.connect n (lit "ItemRemove") = true ∧ svc.connect n (lit "AllForNow") = true) := by
  unfold accepts
  simp only [Bool.and_eq_true, Option.isSome_iff_exists]
  tauto

theorem accepts_eq_false_iff (svc : Service) (n : Nat) (req : BrowserRequest) :
    accepts svc n req = false ↔
      (svc.browserNew n req = none ∨ svc.connect n (lit "ItemNew") = false ∨
        svc.connect n (lit "ItemRemove") = false ∨ svc.connect n (lit "AllForNow") = false) := by
  unfold accepts
  cases svc.browserNew n req <;> cases svc.connect n (lit "ItemNew") <;>
    cases svc.connect n (lit "ItemRemove") <;> cases svc.connect n (lit "AllForNow") <;> simp

/-- The proxy `avahi_create_browser_proxy` ends with is the expected watch. -/
theorem createdWatch_expected (svc : Service) (n : Nat) (t : List Nat) :
    (createdWatch svc n (requestFor t)).toList
      = (if accepts svc n (requestFor t) then
          (svc.browserNew n (requestFor t)).toList.map (fun p => (⟨t, p⟩ : Watch))
        else []) := by
  unfold createdWatch accepts
  cases svc.browserNew n (requestFor t) <;> cases svc.connect n (lit "ItemNew") <;>
    cases svc.connect n (lit "ItemRemove") <;> cases svc.connect n (lit "AllForNow") <;>
    simp [requestFor]

/-- The watches a flush creates are the expected ones. -/
theorem successes_eq_expected (svc : Service) :
    ∀ (q : List (List Nat)) (n : Nat), successes svc n q = expectedWatches svc n q := by
  intro q
  induction q with
  | nil => intro n; rfl
  | cons t rest ih =>
    intro n
    rw [successes, expectedWatches, ih, ← createdWatch_expected]
    rfl

theorem expectedWatches_append (svc : Service) (q1 q2 : List (List Nat)) (n : Nat) :
    expectedWatches svc n (q1 ++ q2)
      = expectedWatches svc n q1 ++ expectedWatches svc (n + q1.length) q2 := by
  rw [← successes_eq_expected, ← successes_eq_expected, ← successes_eq_expected,
    successes_append]

/-- A creation the service lets succeed is among the expected watches. -/
theorem expectedWatches_mem (svc : Service) :
    ∀ (q : List (List Nat)) (n i : Nat) (p : List Nat), i < q.length →
      svc.browserNew (n + i) (requestFor (q.getD i [])) = some p →
      accepts svc (n + i) (requestFor (q.getD i [])) = true →
      (⟨q.getD i [], p⟩ : Watch) ∈ expectedWatches svc n q := by
  intro q
  induction q with
  | nil => intro n i p hi; simp at hi
  | cons t rest ih =>
    intro n i p hi hb ha
    rw [expectedWatches]
    cases i with
    | zero =>
      simp only [List.getD_cons_zero, Nat.add_zero] at hb ha ⊢
      simp [ha, hb]
    | succ j =>
      simp only [List.getD_cons_succ] at hb ha ⊢
      have hj : j < rest.length := by simpa using hi
      have e : n + (j + 1) = n + 1 + j := by omega
      rw [e] at hb ha
      exact List.mem_append_right _ (ih (n + 1) j p hj hb ha)

/-- Every expected watch comes from a creation the service let succeed. -/
theorem expectedWatches_of_mem (svc : Service) :
    ∀ (q : List (List Nat)) (n : Nat) (w : Watch), w ∈ expectedWatches svc n q →
      ∃ i, i < q.length ∧ w.type = q.getD i [] ∧
        svc.browserNew (n + i) (requestFor (q.getD i [])) = some w.path ∧
        accepts svc (n + i) (requestFor (q.getD i [])) = true := by
  intro q
  induction q with
  | nil => intro n w hw; simp [expectedWatches] at hw
  | cons t rest ih =>
    intro n w hw
    rw [expectedWatches, List.mem_append] at hw
    rcases hw with hw | hw
    · by_cases ha : accepts svc n (requestFor t) = true
      · rw [if_pos ha] at hw
        cases hb : svc.browserNew n (requestFor t) with
        | none => simp [hb] at hw
        | some p =>
          simp only [hb, Option.toList, List.map_cons, List.map_nil, List.mem_singleton] at hw
          refine ⟨0, by simp, ?_, ?_, ?_⟩
          · rw [hw]; rfl
          · rw [hw]; simpa using hb
          · simpa using ha
      · rw [if_neg ha] at hw
        simp at hw
    · obtain ⟨i, hi, h1, h2, h3⟩ := ih (n + 1) w hw
      have e : n + (i + 1) = n + 1 + i := by omega
      refine ⟨i + 1, by simpa using hi, ?_, ?_, ?_⟩
      · simpa using h1
      · rw [e]; simpa using h2
      · rw [e]; simpa using h3

/-- When the service lets every creation for the queue succeed, one watch per
queued type is expected, in the order of the queue. -/
theorem expectedWatches_types (svc : Service) :
    ∀ (q : List (List Nat)) (n : Nat),
      (∀ i, i < q.length → accepts svc (n + i) (requestFor (q.getD i [])) = true) →
      (expectedWatches svc n q).map Watch.type = q := by
  intro q
  induction q with
  | nil => intro n _; rfl
  | cons t rest ih =>
    intro n h
    have h0 : accepts svc n (requestFor t) = true := by simpa using h 0 (by simp)
    obtain ⟨⟨p, hp⟩, _⟩ := (accepts_eq_true_iff svc n (requestFor t)).mp h0
    have hrest : ∀ i, i < rest.length →
        accepts svc (n + 1 + i) (requestFor (rest.getD i [])) = true := by
      intro i hi
      have e : n + 1 + i = n + (i + 1) := by omega
      rw [e]
      simpa using h (i + 1) (by simpa using hi)
    rw [expectedWatches, if_pos h0, hp, List.map_append, ih (n + 1) hrest]
    rfl

/-- The number of expected watches is the number of creations the service
lets succeed. -/
theorem expectedWatches_length (svc : Service) :
    ∀ (q : List (List Nat)) (n : Nat),
      (expectedWatches svc n q).length
        = ((List.range q.length).filter
            (fun i => accepts svc (n + i) (requestFor (q.getD i [])))).length := by
  intro q
  induction q with
  | nil => intro n; rfl
  | cons t rest ih =>
    intro n
    have hrest : ((List.map Nat.succ (List.range rest.length)).filter
          (fun i => accepts svc (n + i) (requestFor ((t :: rest).getD i []))))
        = List.map Nat.succ ((List.range rest.length).filter
          (fun i => accepts svc (n + 1 + i) (requestFor (rest.getD i [])))) := by
      rw [List.filter_map]
      congr 1
      apply List.filter_congr
      intro i _
      have e : n + (i + 1) = n + 1 + i := by omega
      simp only [Function.comp, Nat.succ_eq_add_one, List.getD_cons_succ, e]
    rw [expectedWatches, List.length_append, ih (n + 1), List.length_cons,
      List.range_succ_eq_map, List.filter_cons, hrest]
    by_cases h0 : accepts svc n (requestFor t) = true
    · obtain ⟨⟨p, hp⟩, _⟩ := (accepts_eq_true_iff svc n (requestFor t)).mp h0
      have h0' : accepts svc (n + 0) (requestFor ((t :: rest).getD 0 [])) = true := by
        simpa using h0
      rw [if_pos h0, hp, if_pos h0']
      simp only [Option.toList, List.map_cons, List.map_nil, List.length_cons, List.length_nil,
        List.length_map]
      omega
    · have h0' : ¬ accepts svc (n + 0) (requestFor ((t :: rest).getD 0 [])) = true := by
        simpa using h0
      rw [if_neg h0, if_neg h0']
      simp

/-- A sequence of notifications handled in two parts. -/
theorem notifyAll_append (svc : Service) :
    ∀ (ns1 ns2 : List Notification) (m : Manager),
      notifyAll svc (ns1 ++ ns2) m = notifyAll svc ns2 (notifyAll svc ns1 m) := by
  intro ns1
  induction ns1 with
  | nil => intro ns2 m; rfl
  | cons n rest ih => intro ns2 m; rw [List.cons_append, notifyAll, notifyAll, ih]

theorem announcements_eq (t : List Nat) :
    ∀ ns : List Notification, announcements t ns = occurrences t (announcedTypes ns) := by
  intro ns
  induction ns with
  | nil => rfl
  | cons n ns ih =>
    cases n with
    | typeDiscovered type => rw [announcements, announcedTypes, occurrences, ih]
    | batchComplete => rw [announcements, announcedTypes, ih]

theorem announcedTypes_append :
    ∀ ns1 ns2 : List Notification,
      announcedTypes (ns1 ++ ns2) = announcedTypes ns1 ++ announcedTypes ns2 := by
  intro ns1
  induction ns1 with
  | nil => intro ns2; rfl
  | cons n ns ih =>
    intro ns2
    cases n with
    | typeDiscovered type => rw [List.cons_append, announcedTypes, announcedTypes, ih]; rfl
    | batchComplete => rw [List.cons_append, announcedTypes, announcedTypes, ih]

theorem requestFor_type (q : List (List Nat)) :
    (q.map requestFor).map BrowserRequest.type = q := by
  rw [List.map_map]
  exact List.map_id _

/-- Every announced type has been requested or is still queued, in the order
of the announcements. -/
theorem notifyAll_announced (svc : Service) :
    ∀ (ns : List Notification) (m : Manager),
      (notifyAll svc ns m).requests.map BrowserRequest.type ++ (notifyAll svc ns m).type_entries
        = m.requests.map BrowserRequest.type ++ m.type_entries ++ announcedTypes ns := by
  intro ns
  induction ns with
  | nil => intro m; simp [notifyAll, announcedTypes]
  | cons n ns ih =>
    intro m
    rw [notifyAll, ih]
    cases n with
    | typeDiscovered type =>
      rw [notify_typeDiscovered, announcedTypes]
      simp
    | batchComplete =>
      rw [notify_batchComplete, announcedTypes]
      simp only [List.map_append, requestFor_type, List.append_nil]

/-- The watches are at all times the expected ones for the requests made. -/
theorem notifyAll_watches (svc : Service) :
    ∀ (ns : List Notification) (m : Manager),
      m.browser_entries = expectedWatches svc 0 (m.requests.map BrowserRequest.type) →
      (notifyAll svc ns m).browser_entries
        = expectedWatches svc 0 ((notifyAll svc ns m).requests.map BrowserRequest.type) := by
  intro ns
  induction ns with
  | nil => intro m h; exact h
  | cons n ns ih =>
    intro m h
    rw [notifyAll]
    apply ih
    cases n with
    | typeDiscovered type =>
      rw [notify_typeDiscovered]
      exact h
    | batchComplete =>
      rw [notify_batchComplete]
      simp only [List.map_append, requestFor_type]
      rw [expectedWatches_append, ← h, successes_eq_expected, List.length_map, Nat.zero_add]

/-- After a batch-complete notification the queue is empty. -/
theorem notifyAll_flushed (svc : Service) (ns : List Notification) (m : Manager) :
    (notifyAll svc (ns ++ [Notification.batchComplete]) m).type_entries = [] := by
  rw [notifyAll_append, notifyAll, notifyAll, notify_batchComplete]

/-- C11 (amended): after any sequence of type-discovered and batch-complete
notifications, starting from the empty lists, every announced type has been
requested once or is still queued, in the order of the announcements, and the
watches in `browser_entries` are those that the directory service let succeed
among the requests made.  So the number of watches for a type is at most the
number of times the type was announced, and at most one as long as no type is
announced twice; after a batch-complete notification the number of requests
for a type is exactly the number of times it was announced; and when the
service lets every creation succeed the types of the watches are then the
announced types, one watch for each announcement, so that a type announced
again has a further watch. -/
theorem watches_per_type_bounded (svc : Service) (ns : List Notification) (t : List Nat) :
    (notifyAll svc ns Manager.init).requests.map BrowserRequest.type
        ++ (notifyAll svc ns Manager.init).type_entries
      = announcedTypes ns ∧
    (notifyAll svc ns Manager.init).browser_entries
      = expectedWatches svc 0 ((notifyAll svc ns Manager.init).requests.map BrowserRequest.type) ∧
    occurrences t ((notifyAll svc ns Manager.init).browser_entries.map Watch.type)
        ≤ announcements t ns ∧
    (announcements t ns ≤ 1 →
      occurrences t ((notifyAll svc ns Manager.init).browser_entries.map Watch.type) ≤ 1) ∧
    occurrences t
        ((notifyAll svc (ns ++ [Notification.batchComplete])
          Manager.init).requests.map BrowserRequest.type)
      = announcements t ns ∧
    ((∀ n req, ∃ p, svc.browserNew n req = some p) → (∀ n signal, svc.connect n signal = true) →
      (notifyAll svc (ns ++ [Notification.batchComplete]) Manager.init).browser_entries.map
          Watch.type
        = announcedTypes ns ∧
      occurrences t
          ((notifyAll svc (ns ++ [Notification.batchComplete])
            Manager.init).browser_entries.map Watch.type)
        = announcements t ns) := by
  have h := watch_count_invariant svc t ns Manager.init
  have h0 : occurrences t (Manager.init.browser_entries.map Watch.type) = 0 := rfl
  have h1 : occurrences t Manager.init.type_entries = 0 := rfl
  rw [h0, h1] at h
  have hann := notifyAll_announced svc ns Manager.init
  have hreq : (notifyAll svc (ns ++ [Notification.batchComplete])
      Manager.init).requests.map BrowserRequest.type = announcedTypes ns := by
    have h2 := notifyAll_announced svc (ns ++ [Notification.batchComplete]) Manager.init
    rw [notifyAll_flushed, announcedTypes_append] at h2
    simpa [Manager.init, announcedTypes] using h2
  refine ⟨by simpa [Manager.init] using hann, notifyAll_watches svc ns Manager.init rfl,
    by omega, fun h2 => by omega, ?_, ?_⟩
  · rw [hreq, announcements_eq]
  · intro hnew hconn
    have hacc : ∀ n req, accepts svc n req = true := fun n req =>
      (accepts_eq_true_iff svc n req).mpr ⟨hnew n req, hconn n _, hconn n _, hconn n _⟩
    have hty : (notifyAll svc (ns ++ [Notification.batchComplete])
        Manager.init).browser_entries.map Watch.type = announcedTypes ns := by
      rw [notifyAll_watches svc _ Manager.init rfl, hreq]
      exact expectedWatches_types svc _ 0 (fun i _ => hacc _ _)
    exact ⟨hty, by rw [hty, announcements_eq]⟩

/-- C11 (counterexample): the type `http` announced twice, within one batch
or again in a later batch, ends with two watches for `http` in
`browser_entries`. -/
theorem repeated_type_watched_twice :
    (notifyAll goodService
        [Notification.typeDiscovered (lit "http"), Notification.typeDiscovered (lit "http"),
          Notification.batchComplete] Manager.init).browser_entries.map Watch.type
      = [lit "http", lit "http"] ∧
    (notifyAll goodService
        [Notification.typeDiscovered (lit "http"), Notification.batchComplete,
          Notification.typeDiscovered (lit "http"), Notification.batchComplete]
        Manager.init).browser_entries.map Watch.type
      = [lit "http", lit "http"] := by
  constructor <;> decide

/-- C12: an accepted batch-complete signal makes one request per queued type,
in queue order, and leaves the queue empty, so that a second batch-complete
without new discoveries makes no request; with `n` pairwise distinct queued
types these are `n` requests, exactly one for each queued type. -/
theorem discovery_batch_flush (svc : Service) (sig : BareSignal) (m : Manager)
    (hacc : sig.ifaceOk = true ∧ sig.member = lit "AllForNow" ∧ sig.pathOk = true ∧
      sig.senderOk = true ∧ sig.argsOk = true)
    (hq : m.type_entries.Nodup) :
    (org_freedesktop_Avahi_Server_Type_Browser_AllForNow_signal svc sig m).manager.requests
      = m.requests ++ m.type_entries.map requestFor ∧
    (∀ t ∈ m.type_entries, occurrences t ((m.type_entries.map requestFor).map BrowserRequest.type) = 1) ∧
    (m.type_entries.map requestFor).length = m.type_entries.length ∧
    (org_freedesktop_Avahi_Server_Type_Browser_AllForNow_signal svc sig m).manager.type_entries
      = [] ∧
    (org_freedesktop_Avahi_Server_Type_Browser_AllForNow_signal svc sig
        (org_freedesktop_Avahi_Server_Type_Browser_AllForNow_signal svc sig m).manager).manager.requests
      = (org_freedesktop_Avahi_Server_Type_Browser_AllForNow_signal svc sig m).manager.requests := by
  rw [allForNow_accepted svc sig m hacc, allForNow_accepted svc sig _ hacc]
  have hmap : (m.type_entries.map requestFor).map BrowserRequest.type = m.type_entries := by
    rw [List.map_map]
    exact List.map_id _
  refine ⟨rfl, ?_, by simp, rfl, by simp⟩
  intro t ht
  rw [hmap]
  exact occurrences_of_nodup t _ hq ht

theorem discovery_batch_flush_witness :
    (org_freedesktop_Avahi_Server_Type_Browser_AllForNow_signal goodService batchCompleteSignal
        ⟨[lit "http", lit "ssh"], [], []⟩).manager.requests
      = [] ++ [lit "http", lit "ssh"].map requestFor ∧
    (∀ t ∈ [lit "http", lit "ssh"],
      occurrences t (([lit "http", lit "ssh"].map requestFor).map BrowserRequest.type) = 1) ∧
    ([lit "http", lit "ssh"].map requestFor).length = [lit "http", lit "ssh"].length ∧
    (org_freedesktop_Avahi_Server_Type_Browser_AllForNow_signal goodService batchCompleteSignal
        ⟨[lit "http", lit "ssh"], [], []⟩).manager.type_entries = [] ∧
    (org_freedesktop_Avahi_Server_Type_Browser_AllForNow_signal goodService batchCompleteSignal
        (org_freedesktop_Avahi_Server_Type_Browser_AllForNow_signal goodService
          batchCompleteSignal ⟨[lit "http", lit "ssh"], [], []⟩).manager).manager.requests
      = (org_freedesktop_Avahi_Server_Type_Browser_AllForNow_signal goodService
          batchCompleteSignal ⟨[lit "http", lit "ssh"], [], []⟩).manager.requests :=
  discovery_batch_flush goodService batchCompleteSignal ⟨[lit "http", lit "ssh"], [], []⟩
    (by decide) (by decide)

/-- C13: when during the flush of an accepted batch-complete signal the
creation of the watch for one queued type `t` fails (the request for the
browser or one of the three signal connections), `t` alone is skipped.  A
request is still made for every queued type and the queue ends empty.  Every
creation the directory service lets succeed (it answers the request with a
path and connects the three signals) adds a watch of its type under that path
to `browser_entries`, in the order of the queue, and nothing else is added: the
new entries come from positions of the queue other than that of `t`.  So when
the service lets the creations for all other queued types succeed, the types
added are exactly those queued before and behind `t`; and in every case
`browser_entries` grows by the number of creations the service lets
succeed. -/
theorem watch_creation_failure_isolated (svc : Service) (sig : BareSignal) (m : Manager)
    (q1 q2 : List (List Nat)) (t : List Nat)
    (hacc : sig.ifaceOk = true ∧ sig.member = lit "AllForNow" ∧ sig.pathOk = true ∧
      sig.senderOk = true ∧ sig.argsOk = true)
    (hq : m.type_entries = q1 ++ t :: q2)
    (hfail : svc.browserNew (m.requests.length + q1.length) (requestFor t) = none ∨
      svc.connect (m.requests.length + q1.length) (lit "ItemNew") = false ∨
      svc.connect (m.requests.length + q1.length) (lit "ItemRemove") = false ∨
      svc.connect (m.requests.length + q1.length) (lit "AllForNow") = false) :
    (org_freedesktop_Avahi_Server_Type_Browser_AllForNow_signal svc sig m).manager.browser_entries
      = m.browser_entries ++ expectedWatches svc m.requests.length q1
          ++ expectedWatches svc (m.requests.length + q1.length + 1) q2 ∧
    (org_freedesktop_Avahi_Server_Type_Browser_AllForNow_signal svc sig m).manager.requests
      = m.requests ++ (q1 ++ t :: q2).map requestFor ∧
    (org_freedesktop_Avahi_Server_Type_Browser_AllForNow_signal svc sig m).manager.type_entries
      = [] ∧
    (∀ i p, i < (q1 ++ t :: q2).length →
      svc.browserNew (m.requests.length + i) (requestFor ((q1 ++ t :: q2).getD i [])) = some p →
      svc.connect (m.requests.length + i) (lit "ItemNew") = true →
      svc.connect (m.requests.length + i) (lit "ItemRemove") = true →
      svc.connect (m.requests.length + i) (lit "AllForNow") = true →
      (⟨(q1 ++ t :: q2).getD i [], p⟩ : Watch)
        ∈ (org_freedesktop_Avahi_Server_Type_Browser_AllForNow_signal svc sig
            m).manager.browser_entries) ∧
    (∀ w ∈ (org_freedesktop_Avahi_Server_Type_Browser_AllForNow_signal svc sig
          m).manager.browser_entries,
      w ∈ m.browser_entries ∨
      ∃ i, i < (q1 ++ t :: q2).length ∧ i ≠ q1.length ∧ w.type = (q1 ++ t :: q2).getD i [] ∧
        svc.browserNew (m.requests.length + i) (requestFor ((q1 ++ t :: q2).getD i []))
          = some w.path) ∧
    ((∀ i, i < (q1 ++ t :: q2).length → i ≠ q1.length →
        accepts svc (m.requests.length + i) (requestFor ((q1 ++ t :: q2).getD i [])) = true) →
      (org_freedesktop_Avahi_Server_Type_Browser_AllForNow_signal svc sig
          m).manager.browser_entries.map Watch.type
        = m.browser_entries.map Watch.type ++ q1 ++ q2) ∧
    (org_freedesktop_Avahi_Server_Type_Browser_AllForNow_signal svc sig
        m).manager.browser_entries.length
      = m.browser_entries.length
        + ((List.range (q1 ++ t :: q2).length).filter
            (fun i => accepts svc (m.requests.length + i)
              (requestFor ((q1 ++ t :: q2).getD i [])))).length := by
  have hno : accepts svc (m.requests.length + q1.length) (requestFor t) = false :=
    (accepts_eq_false_iff svc _ _).mpr hfail
  have hat : (q1 ++ t :: q2).getD q1.length [] = t := by
    rw [List.getD_append_right _ _ _ _ (le_refl _)]
    simp
  have hsplit : expectedWatches svc m.requests.length (q1 ++ t :: q2)
      = expectedWatches svc m.requests.length q1
        ++ expectedWatches svc (m.requests.length + q1.length + 1) q2 := by
    rw [expectedWatches_append, expectedWatches, hno]
    simp
  have hfull : (org_freedesktop_Avahi_Server_Type_Browser_AllForNow_signal svc sig
        m).manager.browser_entries
      = m.browser_entries ++ expectedWatches svc m.requests.length (q1 ++ t :: q2) := by
    rw [allForNow_accepted svc sig m hacc, hq, successes_eq_expected]
  have hreq : (org_freedesktop_Avahi_Server_Type_Browser_AllForNow_signal svc sig
        m).manager.requests = m.requests ++ (q1 ++ t :: q2).map requestFor := by
    rw [allForNow_accepted svc sig m hacc, hq]
  have hty : (org_freedesktop_Avahi_Server_Type_Browser_AllForNow_signal svc sig
        m).manager.type_entries = [] := by
    rw [allForNow_accepted svc sig m hacc]
  refine ⟨?_, hreq, hty, ?_, ?_, ?_, ?_⟩
  · rw [hfull, hsplit, List.append_assoc]
  · intro i p hi hb h1 h2 h3
    rw [hfull]
    exact List.mem_append_right _ (expectedWatches_mem svc _ _ i p hi hb
      ((accepts_eq_true_iff svc _ _).mpr ⟨⟨p, hb⟩, h1, h2, h3⟩))
  · intro w hw
    rw [hfull, List.mem_append] at hw
    rcases hw with hw | hw
    · exact Or.inl hw
    · obtain ⟨i, hi, h1, h2, h3⟩ := expectedWatches_of_mem svc _ _ w hw
      refine Or.inr ⟨i, hi, ?_, h1, h2⟩
      intro hiq
      rw [hiq, hat, hno] at h3
      exact Bool.false_ne_true h3
  · intro hall
    have h1 : (expectedWatches svc m.requests.length q1).map Watch.type = q1 := by
      apply expectedWatches_types
      intro i hi
      have := hall i (by simp; omega) (by omega)
      rwa [List.getD_append _ _ _ _ hi] at this
    have h2 : (expectedWatches svc (m.requests.length + q1.length + 1) q2).map Watch.type
        = q2 := by
      apply expectedWatches_types
      intro j hj
      have := hall (q1.length + 1 + j) (by simp; omega) (by omega)
      rw [List.getD_append_right _ _ _ _ (by omega)] at this
      have e1 : q1.length + 1 + j - q1.length = j + 1 := by omega
      have e2 : m.requests.length + (q1.length + 1 + j) = m.requests.length + q1.length + 1 + j := by
        omega
      rw [e1, List.getD_cons_succ, e2] at this
      exact this
    rw [hfull, hsplit, List.map_append, List.map_append, h1, h2, List.append_assoc]
  · rw [hfull, List.length_append, expectedWatches_length]

theorem watch_creation_failure_isolated_witness :
    (org_freedesktop_Avahi_Server_Type_Browser_AllForNow_signal secondFails batchCompleteSignal
        ⟨[lit "http"] ++ lit "ssh" :: [lit "ipp"], [], []⟩).manager.browser_entries
      = [] ++ expectedWatches secondFails 0 [lit "http"]
          ++ expectedWatches secondFails (0 + 1 + 1) [lit "ipp"] ∧
    (org_freedesktop_Avahi_Server_Type_Browser_AllForNow_signal secondFails batchCompleteSignal
        ⟨[lit "http"] ++ lit "ssh" :: [lit "ipp"], [], []⟩).manager.requests
      = [] ++ ([lit "http"] ++ lit "ssh" :: [lit "ipp"]).map requestFor ∧
    (org_freedesktop_Avahi_Server_Type_Browser_AllForNow_signal secondFails batchCompleteSignal
        ⟨[lit "http"] ++ lit "ssh" :: [lit "ipp"], [], []⟩).manager.type_entries = [] ∧
    (∀ i p, i < ([lit "http"] ++ lit "ssh" :: [lit "ipp"]).length →
      secondFails.browserNew (0 + i)
          (requestFor (([lit "http"] ++ lit "ssh" :: [lit "ipp"]).getD i [])) = some p →
      secondFails.connect (0 + i) (lit "ItemNew") = true →
      secondFails.connect (0 + i) (lit "ItemRemove") = true →
      secondFails.connect (0 + i) (lit "AllForNow") = true →
      (⟨([lit "http"] ++ lit "ssh" :: [lit "ipp"]).getD i [], p⟩ : Watch)
        ∈ (org_freedesktop_Avahi_Server_Type_Browser_AllForNow_signal secondFails
            batchCompleteSignal
            ⟨[lit "http"] ++ lit "ssh" :: [lit "ipp"], [], []⟩).manager.browser_entries) ∧
    (∀ w ∈ (org_freedesktop_Avahi_Server_Type_Browser_AllForNow_signal secondFails
          batchCompleteSignal
          ⟨[lit "http"] ++ lit "ssh" :: [lit "ipp"], [], []⟩).manager.browser_entries,
      w ∈ ([] : List Watch) ∨
      ∃ i, i < ([lit "http"] ++ lit "ssh" :: [lit "ipp"]).length ∧ i ≠ 1 ∧
        w.type = ([lit "http"] ++ lit "ssh" :: [lit "ipp"]).getD i [] ∧
        secondFails.browserNew (0 + i)
            (requestFor (([lit "http"] ++ lit "ssh" :: [lit "ipp"]).getD i []))
          = some w.path) ∧
    ((∀ i, i < ([lit "http"] ++ lit "ssh" :: [lit "ipp"]).length → i ≠ 1 →
        accepts secondFails (0 + i)
          (requestFor (([lit "http"] ++ lit "ssh" :: [lit "ipp"]).getD i [])) = true) →
      (org_freedesktop_Avahi_Server_Type_Browser_AllForNow_signal secondFails
          batchCompleteSignal
          ⟨[lit "http"] ++ lit "ssh" :: [lit "ipp"], [], []⟩).manager.browser_entries.map
          Watch.type
        = ([] : List Watch).map Watch.type ++ [lit "http"] ++ [lit "ipp"]) ∧
    (org_freedesktop_Avahi_Server_Type_Browser_AllForNow_signal secondFails batchCompleteSignal
        ⟨[lit "http"] ++ lit "ssh" :: [lit "ipp"], [], []⟩).manager.browser_entries.length
      = 0 + ((List.range ([lit "http"] ++ lit "ssh" :: [lit "ipp"]).length).filter
          (fun i => accepts secondFails (0 + i)
            (requestFor (([lit "http"] ++ lit "ssh" :: [lit "ipp"]).getD i [])))).length :=
  watch_creation_failure_isolated secondFails batchCompleteSignal
    ⟨[lit "http"] ++ lit "ssh" :: [lit "ipp"], [], []⟩ [lit "http"] [lit "ipp"] (lit "ssh")
    (by decide) rfl (by decide)

/-- The watches left by the flush in that example: `http` and `ipp` under the
paths the service answered for the requests number 0 and 2, not `ssh`. -/
theorem failed_type_skipped_example :
    (org_freedesktop_Avahi_Server_Type_Browser_AllForNow_signal secondFails batchCompleteSignal
        ⟨[lit "http", lit "ssh", lit "ipp"], [], []⟩).manager.browser_entries
      = [⟨lit "http", lit "/Client0/ServiceBrowser0"⟩, ⟨lit "ipp", lit "/Client0/ServiceBrowser2"⟩] ∧
    (List.range 3).filter
        (fun i => accepts secondFails (0 + i)
          (requestFor ([lit "http", lit "ssh", lit "ipp"].getD i []))) = [0, 2] := by
  constructor <;> decide

theorem freeBrowsers_calls (svc : Service) :
    ∀ (ws : List Watch) (m : Manager),
      (freeBrowsers svc ws m).1
          = ws.map (fun w => ShutdownCall.browserFree w.path (svc.browserFree w.path)) := by
  intro ws
  induction ws with
  | nil => intro m; rfl
  | cons w rest ih =>
    intro m
    rw [freeBrowsers, List.map_cons, ih]

theorem freeBrowsers_entries (svc : Service) :
    ∀ (ws : List Watch) (m : Manager), m.browser_entries = ws →
      (freeBrowsers svc ws m).2.browser_entries = [] := by
  intro ws
  induction ws with
  | nil => intro m h; rw [freeBrowsers]; exact h
  | cons w rest ih =>
    intro m _
    rw [freeBrowsers]
    exact ih { m with browser_entries := rest } rfl

/-- C14: when the main loop ends with `N` watches in `browser_entries`, the end
of `main` makes exactly `N` calls of `service_browser_free`, one for each watch
in list order, whatever the calls return; `browser_entries` ends empty; then the
service type browser is freed, and last the proxy `avahi` is released. -/
theorem shutdown_sequence (svc : Service) (m : Manager) (typeBrowser : List Nat) :
    (shutdown svc m (some typeBrowser) true).1
      = m.browser_entries.map (fun w => ShutdownCall.browserFree w.path (svc.browserFree w.path))
        ++ [ShutdownCall.typeBrowserFree typeBrowser, ShutdownCall.releaseAvahi] ∧
    (m.browser_entries.map
        (fun w => ShutdownCall.browserFree w.path (svc.browserFree w.path))).length
      = m.browser_entries.length ∧
    (shutdown svc m (some typeBrowser) true).2.browser_entries = [] := by
  refine ⟨?_, by simp, ?_⟩
  · unfold shutdown
    simp only [freeBrowsers_calls, if_true, List.append_assoc, List.singleton_append]
  · unfold shutdown
    exact freeBrowsers_entries svc m.browser_entries m rfl

/-- C19: the `ItemNew` filter of the service type browser makes no call of
`emit_event`, leaves `browser_entries` and the requests for browsers as they
are, and for an accepted signal only appends its type to `type_entries`, whose
length grows by one; any number of type-discovered notifications only appends
their types, in order. -/
theorem type_discovery_only_queues (svc : Service) (sig : TypeSignal) (m : Manager)
    (types : List (List Nat)) :
    (org_freedesktop_Avahi_Server_Type_Browser_ItemNew_signal sig m).emitted = [] ∧
    (org_freedesktop_Avahi_Server_Type_Browser_ItemNew_signal sig m).manager.browser_entries
      = m.browser_entries ∧
    (org_freedesktop_Avahi_Server_Type_Browser_ItemNew_signal sig m).manager.requests
      = m.requests ∧
    (∀ a, sig.ifaceOk = true ∧ sig.member = lit "ItemNew" ∧ sig.pathOk = true ∧
        sig.senderOk = true ∧ sig.args = some a →
      (org_freedesktop_Avahi_Server_Type_Browser_ItemNew_signal sig m).manager.type_entries
          = m.type_entries ++ [a.type] ∧
      (org_freedesktop_Avahi_Server_Type_Browser_ItemNew_signal sig m).manager.type_entries.length
          = m.type_entries.length + 1) ∧
    notifyAll svc (types.map Notification.typeDiscovered) m
      = { m with type_entries := m.type_entries ++ types } := by
  have hall : ∀ (ts : List (List Nat)) (m0 : Manager),
      notifyAll svc (ts.map Notification.typeDiscovered) m0
        = { m0 with type_entries := m0.type_entries ++ ts } := by
    intro ts
    induction ts with
    | nil => intro m0; simp [notifyAll]
    | cons t rest ih =>
      intro m0
      rw [List.map_cons, notifyAll, notify_typeDiscovered, ih]
      simp
  obtain ⟨h1, h2, h3⟩ := typeItemNew_spec sig m
  refine ⟨h1, h2, h3, ?_, hall types m⟩
  intro a hacc
  rw [typeItemNew_accepted sig m a hacc]
  simp

end Avahi

namespace Uevent

/-! ## Enveloped and plain frames -/

/-- C15 (amended): for every enveloped frame with a matching magic value the
scan of the property block starts at the offset read from the four bytes at
offset 16 in the byte order of the host, without a byte swap; this is the
big-endian value only on a big-endian host.  The loop body is the scan from
that offset followed by the rest of the body; the scan is undefined exactly
when the offset lies beyond the end of the buffer. -/
theorem enveloped_scan_start (hostLE : Bool) (buf : List Nat) (len : Nat) (vs : Vars)
    (hbytes : ∀ b ∈ buf, b < 256)
    (hpre : buf.take 8 = LIBUDEV) (hmagic : be32 buf 8 = UDEV_MAGIC) :
    scanStart hostLE buf = some (load32 hostLE buf 16) ∧
    body hostLE buf len vs
      = (match scan len buf len (load32 hostLE buf 16) vs 0 with
        | none => ⟨vs, none, Flow.fault⟩
        | some r => finish buf r.1 r.2) ∧
    (scan len buf len (load32 hostLE buf 16) vs 0 = none ↔ buf.length < load32 hostLE buf 16) ∧
    load32 false buf 16 = be32 buf 16 ∧
    load32 true buf 16
      = byteAt buf 16 + 256 * byteAt buf 17 + 65536 * byteAt buf 18 + 16777216 * byteAt buf 19 := by
  have hld : htonl hostLE (load32 hostLE buf 8) = UDEV_MAGIC := by
    rw [htonl_load32 hostLE buf 8 (byteAt_lt buf _ hbytes) (byteAt_lt buf _ hbytes)
      (byteAt_lt buf _ hbytes) (byteAt_lt buf _ hbytes)]
    exact hmagic
  have hstart : scanStart hostLE buf = some (load32 hostLE buf 16) := by
    unfold scanStart
    simp [hpre, hld]
  refine ⟨hstart, ?_, scan_eq_none_iff buf len len _ vs 0, rfl, rfl⟩
  unfold body
  rw [hstart]

theorem enveloped_scan_start_witness :
    scanStart true (recvInto zeroStack goodFrame)
        = some (load32 true (recvInto zeroStack goodFrame) 16) ∧
    body true (recvInto zeroStack goodFrame) goodFrame.length Vars.init
      = (match scan goodFrame.length (recvInto zeroStack goodFrame) goodFrame.length
            (load32 true (recvInto zeroStack goodFrame) 16) Vars.init 0 with
        | none => ⟨Vars.init, none, Flow.fault⟩
        | some r => finish (recvInto zeroStack goodFrame) r.1 r.2) ∧
    (scan goodFrame.length (recvInto zeroStack goodFrame) goodFrame.length
        (load32 true (recvInto zeroStack goodFrame) 16) Vars.init 0 = none ↔
      (recvInto zeroStack goodFrame).length < load32 true (recvInto zeroStack goodFrame) 16) ∧
    load32 false (recvInto zeroStack goodFrame) 16 = be32 (recvInto zeroStack goodFrame) 16 ∧
    load32 true (recvInto zeroStack goodFrame) 16
      = byteAt (recvInto zeroStack goodFrame) 16 + 256 * byteAt (recvInto zeroStack goodFrame) 17
        + 65536 * byteAt (recvInto zeroStack goodFrame) 18
        + 16777216 * byteAt (recvInto zeroStack goodFrame) 19 :=
  enveloped_scan_start true (recvInto zeroStack goodFrame) goodFrame.length Vars.init
    (by decide!) (by decide!) (by decide!)

/-- C15 (counterexample): on a little-endian host a frame whose bytes at offset
16 are `40 0 0 0` is scanned from offset 40, not from the big-endian value
671088640 of these bytes, and its record is emitted; a frame that stores 40 in
big-endian order is scanned from offset 671088640 and nothing is emitted. -/
theorem offset_read_in_host_order :
    scanStart true (recvInto zeroStack goodFrame) = some 40 ∧
    be32 (recvInto zeroStack goodFrame) 16 = 671088640 ∧
    (netlink_monitor_watcher true zeroStack [goodFrame]).1.map (fun e => e.name)
      = [lit "x-device-added"] ∧
    be32 (recvInto zeroStack bigEndianOffsetFrame) 16 = 40 ∧
    scanStart true (recvInto zeroStack bigEndianOffsetFrame) = some 671088640 ∧
    (netlink_monitor_watcher true zeroStack [bigEndianOffsetFrame]).1 = [] := by
  refine ⟨?_, ?_, ?_, ?_, ?_, ?_⟩ <;> decide!

/-- C16 (amended): a datagram is treated as an enveloped frame if and only if
its first eight bytes are `libudev` followed by NUL: then the loop body makes
the magic check and starts the scan at the properties offset; every other
buffer, also one that starts with the seven bytes `libudev` and another eighth
byte, is decoded as a plain frame from behind its first NUL.  In both cases
the scan from that start is followed by the rest of the body, and it is
undefined exactly when the start lies beyond the end of the buffer. -/
theorem frame_classification (hostLE : Bool) (buf : List Nat) (len : Nat) (vs : Vars) :
    (buf.take 8 = LIBUDEV →
      body hostLE buf len vs
        = if htonl hostLE (load32 hostLE buf 8) ≠ UDEV_MAGIC then ⟨vs, none, Flow.returned⟩
          else (match scan len buf len (load32 hostLE buf 16) vs 0 with
            | none => ⟨vs, none, Flow.fault⟩
            | some r => finish buf r.1 r.2)) ∧
    (buf.take 8 ≠ LIBUDEV →
      body hostLE buf len vs
        = (match scan len buf len ((cstr buf 0).length + 1) vs 0 with
          | none => ⟨vs, none, Flow.fault⟩
          | some r => finish buf r.1 r.2)) ∧
    (∀ s, scan len buf len s vs 0 = none ↔ buf.length < s) ∧
    (∀ c rest, c ≠ 0 → buf = lit "libudev" ++ c :: rest → buf.take 8 ≠ LIBUDEV) := by
  refine ⟨?_, ?_, fun s => scan_eq_none_iff buf len len s vs 0, ?_⟩
  · intro hpre
    unfold body scanStart
    by_cases hm : htonl hostLE (load32 hostLE buf 8) = UDEV_MAGIC
    · simp [hpre, hm]
    · simp [hpre, hm]
  · intro hpre
    unfold body scanStart
    have : (buf.take 8 == LIBUDEV) = false := by
      rw [Bool.eq_false_iff]; simpa using hpre
    simp only [this, Bool.false_eq_true, if_false]
  · intro c rest hc hbuf h8
    have h7 : lit "libudev" = [108, 105, 98, 117, 100, 101, 118] := by decide
    rw [hbuf, LIBUDEV, h7] at h8
    simp at h8
    exact hc h8

/-- C16 (counterexample): a payload that starts with the seven bytes `libudev`
followed by `X` does not go through the magic check; it is decoded as a plain
frame and its record is emitted, although the four bytes at offset 8 are not
the magic value. -/
theorem seven_bytes_not_enveloped :
    libudevXRecord.take 7 = lit "libudev" ∧
    be32 libudevXRecord 8 ≠ UDEV_MAGIC ∧
    (netlink_monitor_watcher true zeroStack [libudevXRecord]).1.map (fun e => e.name)
      = [lit "x-device-added"] := by
  refine ⟨?_, ?_, ?_⟩ <;> decide!

/-! ## Tokens without `=` -/

theorem findByte_eq_none (c : Nat) (t : List Nat) (h : c ∉ t) : findByte c t = none := by
  induction t with
  | nil => rfl
  | cons a t ih =>
    have ha : a ≠ c := fun e => h (by simp [e])
    have ht : c ∉ t := fun e => h (List.mem_cons_of_mem _ e)
    simp [findByte, ha, ih ht]

theorem findByte_first (c : Nat) (key value : List Nat) (h : c ∉ key) :
    findByte c (key ++ c :: value) = some key.length := by
  induction key with
  | nil => simp [findByte]
  | cons a key ih =>
    have ha : a ≠ c := fun e => h (by simp [e])
    have hk : c ∉ key := fun e => h (List.mem_cons_of_mem _ e)
    simp [findByte, ha, ih hk]

/-- The token-level scan stops at a token without `=`: the tokens behind it
play no role. -/
theorem decodeToks_stop (good after : List (List Nat)) (bad : List Nat) (w : View) (i : Nat)
    (hbad : 61 ∉ bad) :
    decodeToks (good ++ bad :: after) w i = decodeToks good w i := by
  induction good generalizing w i with
  | nil => simp [decodeToks, findByte_eq_none 61 bad hbad]
  | cons t ts ih =>
    simp only [List.cons_append, decodeToks]
    cases he : findByte 61 t with
    | none => rfl
    | some e => exact ih _ _

/-- C18: each token is split at its first `=`, the value being everything
behind it; in a plain datagram whose tokens `good` are followed by a token
`bad` without `=` and further tokens `after`, the scan ends at `bad`: the loop
body finishes with the fields that decoding `good` alone gives, whatever
`after` holds, and if these fields are an action `a`, a subsystem `s`, a
devpath and a non-zero initialized value, the event is emitted under the name
built from `s` and `a`. -/
theorem malformed_token_ends_scan (hostLE : Bool) (buf hdr bad : List Nat)
    (good after : List (List Nat)) (vs : Vars)
    (hhdr : 0 ∉ hdr) (hgood : ∀ t ∈ good, 0 ∉ t ∧ 61 ∈ t) (hbad : 0 ∉ bad ∧ 61 ∉ bad)
    (hafter : ∀ t ∈ after, 0 ∉ t)
    (hsize : (datagram hdr (good ++ bad :: after)).length ≤ BUFSIZE)
    (hplain : (recvInto buf (datagram hdr (good ++ bad :: after))).take 8 ≠ LIBUDEV) :
    (∀ key value : List Nat, 61 ∉ key →
      findByte 61 (key ++ 61 :: value) = some key.length ∧
      (key ++ 61 :: value).drop (key.length + 1) = value) ∧
    (∃ vs1 i1,
      body hostLE (recvInto buf (datagram hdr (good ++ bad :: after)))
          (datagram hdr (good ++ bad :: after)).length vs
        = finish (recvInto buf (datagram hdr (good ++ bad :: after))) vs1 i1 ∧
      view (recvInto buf (datagram hdr (good ++ bad :: after))) vs1
        = (decodeToks good (view (recvInto buf (datagram hdr (good ++ bad :: after))) vs) 0).1 ∧
      i1 = (decodeToks good (view (recvInto buf (datagram hdr (good ++ bad :: after))) vs) 0).2) ∧
    (∀ a s,
      (decodeToks good (view (recvInto buf (datagram hdr (good ++ bad :: after))) vs) 0).1.action
          = some a →
      (decodeToks good (view (recvInto buf (datagram hdr (good ++ bad :: after))) vs) 0).1.subsystem
          = some s →
      (decodeToks good (view (recvInto buf (datagram hdr (good ++ bad :: after))) vs)
          0).1.devpath.isSome →
      (decodeToks good (view (recvInto buf (datagram hdr (good ++ bad :: after))) vs) 0).2 ≠ 0 →
      (body hostLE (recvInto buf (datagram hdr (good ++ bad :: after)))
          (datagram hdr (good ++ bad :: after)).length vs).emitted.map (fun e => e.name)
        = some (deviceEventName s a)) := by
  have htoks : ∀ t ∈ good ++ bad :: after, 0 ∉ t := by
    intro t ht
    rcases List.mem_append.mp ht with h | h
    · exact (hgood t h).1
    · rcases List.mem_cons.mp h with h | h
      · rw [h]; exact hbad.1
      · exact hafter t h
  obtain ⟨vs1, i1, hbody, hview, hi1⟩ :=
    body_plain hostLE buf hdr (good ++ bad :: after) vs hhdr htoks hsize hplain
  rw [decodeToks_stop good after bad _ 0 hbad.2] at hview hi1
  refine ⟨?_, ⟨vs1, i1, hbody, hview, hi1⟩, ?_⟩
  · intro key value hkey
    refine ⟨findByte_first 61 key value hkey, ?_⟩
    rw [List.drop_append_eq_append_drop]
    simp
  · intro a s ha hs hd hi
    rw [← hview] at ha hs hd
    rw [← hi1] at hi
    obtain ⟨pa, hpa, hca⟩ : ∃ pa, vs1.action = some pa ∧
        cstr (recvInto buf (datagram hdr (good ++ bad :: after))) pa = a := by
      simpa [view] using ha
    obtain ⟨ps, hps, hcs⟩ : ∃ ps, vs1.subsystem = some ps ∧
        cstr (recvInto buf (datagram hdr (good ++ bad :: after))) ps = s := by
      simpa [view] using hs
    have hd1 : vs1.devpath.isSome := by simpa [view] using hd
    rw [hbody, finish_emits _ vs1 i1 ps pa hpa hps hd1 hi, hca, hcs]
    rfl

theorem malformed_token_ends_scan_witness :
    (∀ key value : List Nat, 61 ∉ key →
      findByte 61 (key ++ 61 :: value) = some key.length ∧
      (key ++ 61 :: value).drop (key.length + 1) = value) ∧
    (∃ vs1 i1,
      body true (recvInto zeroStack malformedRecord) malformedRecord.length Vars.init
        = finish (recvInto zeroStack malformedRecord) vs1 i1 ∧
      view (recvInto zeroStack malformedRecord) vs1
        = (decodeToks [lit "ACTION=add", lit "DEVPATH=/y", lit "SUBSYSTEM=a=b",
            lit "USEC_INITIALIZED=1"] (view (recvInto zeroStack malformedRecord) Vars.init) 0).1 ∧
      i1 = (decodeToks [lit "ACTION=add", lit "DEVPATH=/y", lit "SUBSYSTEM=a=b",
            lit "USEC_INITIALIZED=1"] (view (recvInto zeroStack malformedRecord) Vars.init) 0).2) ∧
    (∀ a s,
      (decodeToks [lit "ACTION=add", lit "DEVPATH=/y", lit "SUBSYSTEM=a=b",
          lit "USEC_INITIALIZED=1"] (view (recvInto zeroStack malformedRecord) Vars.init)
        0).1.action = some a →
      (decodeToks [lit "ACTION=add", lit "DEVPATH=/y", lit "SUBSYSTEM=a=b",
          lit "USEC_INITIALIZED=1"] (view (recvInto zeroStack malformedRecord) Vars.init)
        0).1.subsystem = some s →
      (decodeToks [lit "ACTION=add", lit "DEVPATH=/y", lit "SUBSYSTEM=a=b",
          lit "USEC_INITIALIZED=1"] (view (recvInto zeroStack malformedRecord) Vars.init)
        0).1.devpath.isSome →
      (decodeToks [lit "ACTION=add", lit "DEVPATH=/y", lit "SUBSYSTEM=a=b",
          lit "USEC_INITIALIZED=1"] (view (recvInto zeroStack malformedRecord) Vars.init)
        0).2 ≠ 0 →
      (body true (recvInto zeroStack malformedRecord) malformedRecord.length
        Vars.init).emitted.map (fun e => e.name) = some (deviceEventName s a)) :=
  malformed_token_ends_scan true zeroStack (lit "add@/y") (lit "garbage")
    [lit "ACTION=add", lit "DEVPATH=/y", lit "SUBSYSTEM=a=b", lit "USEC_INITIALIZED=1"]
    [lit "ACTION=remove", lit "SUBSYSTEM=z"] Vars.init
    (by decide) (by decide) (by decide) (by decide) (by decide) (by decide!)

/-- The record of that example is emitted from the fields in front of the
token without `=`: the subsystem value keeps its second `=`, and the tokens
`ACTION=remove` and `SUBSYSTEM=z` behind the malformed token are not
examined. -/
theorem malformed_record_emitted :
    (netlink_monitor_watcher true zeroStack [malformedRecord]).1
      = [⟨lit "a=b-device-added", [lit "DEVPATH=/y", lit "SUBSYSTEM=a=b", lit "ACTION=add"],
          false⟩] := by
  decide!

/-! ## The header of a plain frame -/

theorem cstr_congr (buf1 buf2 : List Nat) (s0 p : Nat) (h : buf1.drop s0 = buf2.drop s0)
    (hp : s0 ≤ p) : cstr buf1 p = cstr buf2 p := by
  have hd : ∀ b : List Nat, b.drop p = (b.drop s0).drop (p - s0) := by
    intro b
    rw [List.drop_drop]
    congr 1
    omega
  unfold cstr
  rw [hd buf1, hd buf2, h]

theorem strchr_ge (buf : List Nat) (k c e : Nat) (h : strchr buf k c = some e) : k ≤ e := by
  unfold strchr at h
  cases hf : findByte c (cstr buf k) with
  | none => simp [hf] at h
  | some i =>
    simp [hf] at h
    omega

theorem assign_congr (buf1 buf2 : List Nat) (s0 k v : Nat) (vs : Vars) (i : Nat)
    (h : buf1.drop s0 = buf2.drop s0) (hk : s0 ≤ k) (hv : s0 ≤ v) :
    assign buf1 k v vs i = assign buf2 k v vs i := by
  unfold assign strncmp_eq
  rw [cstr_congr buf1 buf2 s0 k h hk, cstr_congr buf1 buf2 s0 v h hv]

/-- The scan loop reads the buffer only from `s` on. -/
theorem scan_congr (buf1 buf2 : List Nat) (len s0 : Nat) (h : buf1.drop s0 = buf2.drop s0)
    (hl : buf1.length = buf2.length) :
    ∀ (fuel s : Nat) (vs : Vars) (i : Nat), s0 ≤ s →
      scan fuel buf1 len s vs i = scan fuel buf2 len s vs i := by
  intro fuel
  induction fuel with
  | zero =>
    intro s vs i hs
    have hc : cstr buf1 s = cstr buf2 s := cstr_congr buf1 buf2 s0 s h hs
    have hn : strchr_nul buf1 s = strchr_nul buf2 s := by
      unfold strchr_nul
      rw [hc, hl]
    rw [scan, scan, hn]
  | succ fuel ih =>
    intro s vs i hs
    have hc : cstr buf1 s = cstr buf2 s := cstr_congr buf1 buf2 s0 s h hs
    have hn : strchr_nul buf1 s = strchr_nul buf2 s := by
      unfold strchr_nul
      rw [hc, hl]
    have he : strchr buf1 s 61 = strchr buf2 s 61 := by
      unfold strchr
      rw [hc]
    rw [scan, scan, hn, he]
    cases hn2 : strchr_nul buf2 s with
    | outside => rfl
    | behind => rfl
    | found n =>
      have hge := strchr_nul_ge buf2 s n hn2
      by_cases hlt : n < len
      · simp only [hlt, if_true]
        cases he2 : strchr buf2 s 61 with
        | none => rfl
        | some e =>
          have hee := strchr_ge buf2 s 61 e he2
          simp only []
          rw [assign_congr buf1 buf2 s0 s (e + 1) vs i h hs (by omega)]
          exact ih (n + 1) _ _ (by omega)
      · simp only [hlt, if_false]

theorem assign_From (buf : List Nat) (s0 k v : Nat) (vs : Vars) (i : Nat)
    (hvs : vs.From s0) (hk : s0 ≤ k) (hv : s0 ≤ v) : (assign buf k v vs i).1.From s0 := by
  obtain ⟨h1, h2, h3, h4, h5, h6, h7, h8, h9, h10⟩ := hvs
  unfold assign
  split_ifs
  · refine ⟨h1, h2, ?_, ?_, h5, h6, h7, h8, h9, h10⟩ <;> intro p hp <;> simp at hp <;> omega
  · refine ⟨h1, h2, h3, h4, ?_, ?_, h7, h8, h9, h10⟩ <;> intro p hp <;> simp at hp <;> omega
  · refine ⟨h1, h2, h3, h4, h5, h6, ?_, ?_, h9, h10⟩ <;> intro p hp <;> simp at hp <;> omega
  · refine ⟨h1, h2, h3, h4, h5, h6, h7, h8, ?_, ?_⟩ <;> intro p hp <;> simp at hp <;> omega
  · refine ⟨?_, ?_, h3, h4, h5, h6, h7, h8, h9, h10⟩ <;> intro p hp <;> simp at hp <;> omega
  · exact ⟨h1, h2, h3, h4, h5, h6, h7, h8, h9, h10⟩
  · exact ⟨h1, h2, h3, h4, h5, h6, h7, h8, h9, h10⟩

/-- The pointers the scan loop sets point at `s` or behind. -/
theorem scan_From (buf : List Nat) (len s0 : Nat) :
    ∀ (fuel s : Nat) (vs : Vars) (i : Nat) (r : Vars × Nat), vs.From s0 → s0 ≤ s →
      scan fuel buf len s vs i = some r → r.1.From s0 := by
  intro fuel
  induction fuel with
  | zero =>
    intro s vs i r hvs _ hr
    rw [scan] at hr
    cases hn : strchr_nul buf s with
    | outside => simp [hn] at hr
    | behind =>
      simp only [hn, Option.some.injEq] at hr
      rw [← hr]; exact hvs
    | found n =>
      simp only [hn, Option.some.injEq] at hr
      rw [← hr]; exact hvs
  | succ fuel ih =>
    intro s vs i r hvs hs hr
    rw [scan] at hr
    cases hn : strchr_nul buf s with
    | outside => simp [hn] at hr
    | behind =>
      simp only [hn, Option.some.injEq] at hr
      rw [← hr]; exact hvs
    | found n =>
      have hge := strchr_nul_ge buf s n hn
      simp only [hn] at hr
      by_cases hlt : n < len
      · simp only [hlt, if_true] at hr
        cases he : strchr buf s 61 with
        | none =>
          simp only [he, Option.some.injEq] at hr
          rw [← hr]; exact hvs
        | some e =>
          have hee := strchr_ge buf s 61 e he
          simp only [he] at hr
          exact ih (n + 1) _ _ r (assign_From buf s0 s (e + 1) vs i hvs hs (by omega))
            (by omega) hr
      · simp only [hlt, if_false, Option.some.injEq] at hr
        rw [← hr]; exact hvs

theorem Vars.init_From (s0 : Nat) : Vars.init.From s0 := by
  refine ⟨?_, ?_, ?_, ?_, ?_, ?_, ?_, ?_, ?_, ?_⟩ <;> intro p hp <;> cases hp

theorem strdup_congr (buf1 buf2 : List Nat) (s0 : Nat) (o : Option Nat)
    (h : buf1.drop s0 = buf2.drop s0) (ho : ∀ p, o = some p → s0 ≤ p) :
    strdup buf1 o = strdup buf2 o := by
  cases o with
  | none => rfl
  | some p => exact cstr_congr buf1 buf2 s0 p h (ho p rfl)

theorem fmtS_congr (buf1 buf2 : List Nat) (s0 : Nat) (o : Option Nat)
    (h : buf1.drop s0 = buf2.drop s0) (ho : ∀ p, o = some p → s0 ≤ p) :
    fmtS buf1 o = fmtS buf2 o := by
  cases o with
  | none => rfl
  | some p => exact cstr_congr buf1 buf2 s0 p h (ho p rfl)

/-- The end of the loop body reads the buffer only through the pointers. -/
theorem finish_congr (buf1 buf2 : List Nat) (s0 : Nat) (vs : Vars) (i : Nat)
    (h : buf1.drop s0 = buf2.drop s0) (hvs : vs.From s0) :
    finish buf1 vs i = finish buf2 vs i := by
  obtain ⟨h1, h2, h3, h4, h5, h6, h7, h8, h9, h10⟩ := hvs
  have hname : eventName buf1 vs = eventName buf2 vs := by
    unfold eventName
    cases ha : vs.action with
    | none => rfl
    | some a =>
      have hca : cstr buf1 a = cstr buf2 a := cstr_congr buf1 buf2 s0 a h (h3 a ha)
      simp only [strcmp_eq, hca, fmtS_congr buf1 buf2 s0 vs.subsystem h h1]
  have hk : envKernel buf1 vs = envKernel buf2 vs := by
    unfold envKernel
    rw [strdup_congr buf1 buf2 s0 vs.kernel_var h h6]
  have hd : envDevpath buf1 vs = envDevpath buf2 vs := by
    unfold envDevpath
    rw [hk, strdup_congr buf1 buf2 s0 vs.devpath_var h h8]
  have hn : envDevname buf1 vs = envDevname buf2 vs := by
    unfold envDevname
    rw [hd, strdup_congr buf1 buf2 s0 vs.devname_var h h10]
  have hs : envSubsystem buf1 vs = envSubsystem buf2 vs := by
    unfold envSubsystem
    rw [hn, strdup_congr buf1 buf2 s0 vs.subsystem_var h h2]
  have ha : envAction buf1 vs = envAction buf2 vs := by
    unfold envAction
    rw [hs, strdup_congr buf1 buf2 s0 vs.action_var h h4]
  unfold finish
  rw [hname, hk, hn, ha]

theorem addp_snd (env : List Cell) (n : Nat) (v : List Nat) :
    (nih_str_array_addp env n v).2 = n + 1 := rfl

/-- Whatever the buffer holds, the end of the loop body leaves the same
variables, ends the same way and makes a call or not. -/
theorem finish_shape (buf1 buf2 : List Nat) (vs : Vars) (i : Nat) :
    (finish buf1 vs i).vars = (finish buf2 vs i).vars ∧
    (finish buf1 vs i).flow = (finish buf2 vs i).flow ∧
    (finish buf1 vs i).emitted.isSome = (finish buf2 vs i).emitted.isSome := by
  have hk : (envKernel buf1 vs).2 = (envKernel buf2 vs).2 := by
    unfold envKernel
    split_ifs <;> rfl
  have hn : (envDevname buf1 vs).2 = (envDevname buf2 vs).2 := by
    unfold envDevname envDevpath
    split_ifs
    · simp only [addp_snd, hk]
    · simp only [addp_snd, hk]
  have ha : (envAction buf1 vs).2 = (envAction buf2 vs).2 := by
    unfold envAction envSubsystem
    simp only [addp_snd, hn]
  unfold finish
  split_ifs
  · exact ⟨rfl, rfl, rfl⟩
  · exact ⟨rfl, rfl, rfl⟩
  · exact ⟨by rw [hk], rfl, rfl⟩
  · exact ⟨by rw [hn], rfl, rfl⟩
  · exact ⟨by rw [ha], rfl, rfl⟩

/-- C17 (amended): in a plain datagram the scan starts at the byte behind the
first NUL; replacing the header by another text without NUL of the same length
that keeps the datagram plain leaves the variables after the loop body, the way
the body ends and whether it emits unchanged, whatever was decoded before; and
it leaves the whole result, emission included, unchanged when no pointer kept
from an earlier datagram points into the header, in particular for the first
datagram of a wakeup. -/
theorem plain_header_not_a_property (hostLE : Bool) (buf hdr1 hdr2 X : List Nat) (vs : Vars)
    (h1 : 0 ∉ hdr1) (h2 : 0 ∉ hdr2) (hlen : hdr1.length = hdr2.length)
    (hsize : (hdr1 ++ 0 :: X).length ≤ BUFSIZE)
    (hp1 : (recvInto buf (hdr1 ++ 0 :: X)).take 8 ≠ LIBUDEV)
    (hp2 : (recvInto buf (hdr2 ++ 0 :: X)).take 8 ≠ LIBUDEV) :
    scanStart hostLE (recvInto buf (hdr1 ++ 0 :: X)) = some (hdr1.length + 1) ∧
    (body hostLE (recvInto buf (hdr1 ++ 0 :: X)) (hdr1 ++ 0 :: X).length vs).vars
      = (body hostLE (recvInto buf (hdr2 ++ 0 :: X)) (hdr2 ++ 0 :: X).length vs).vars ∧
    (body hostLE (recvInto buf (hdr1 ++ 0 :: X)) (hdr1 ++ 0 :: X).length vs).flow
      = (body hostLE (recvInto buf (hdr2 ++ 0 :: X)) (hdr2 ++ 0 :: X).length vs).flow ∧
    (body hostLE (recvInto buf (hdr1 ++ 0 :: X)) (hdr1 ++ 0 :: X).length vs).emitted.isSome
      = (body hostLE (recvInto buf (hdr2 ++ 0 :: X)) (hdr2 ++ 0 :: X).length vs).emitted.isSome ∧
    (vs.From (hdr1.length + 1) →
      body hostLE (recvInto buf (hdr1 ++ 0 :: X)) (hdr1 ++ 0 :: X).length vs
        = body hostLE (recvInto buf (hdr2 ++ 0 :: X)) (hdr2 ++ 0 :: X).length vs) ∧
    body hostLE (recvInto buf (hdr1 ++ 0 :: X)) (hdr1 ++ 0 :: X).length Vars.init
      = body hostLE (recvInto buf (hdr2 ++ 0 :: X)) (hdr2 ++ 0 :: X).length Vars.init := by
  have hl : (hdr1 ++ 0 :: X).length = (hdr2 ++ 0 :: X).length := by simp [hlen]
  have hsize2 : (hdr2 ++ 0 :: X).length ≤ BUFSIZE := by rw [← hl]; exact hsize
  have hb1 : recvInto buf (hdr1 ++ 0 :: X)
      = [] ++ hdr1 ++ 0 :: (X ++ buf.drop (hdr1 ++ 0 :: X).length) := by
    rw [recvInto_fits buf _ hsize]; simp
  have hb2 : recvInto buf (hdr2 ++ 0 :: X)
      = [] ++ hdr2 ++ 0 :: (X ++ buf.drop (hdr1 ++ 0 :: X).length) := by
    rw [recvInto_fits buf _ hsize2, ← hl]; simp
  have hc1 : cstr (recvInto buf (hdr1 ++ 0 :: X)) 0 = hdr1 := by
    rw [hb1]; exact cstr_token [] hdr1 _ h1
  have hc2 : cstr (recvInto buf (hdr2 ++ 0 :: X)) 0 = hdr2 := by
    rw [hb2]; exact cstr_token [] hdr2 _ h2
  have hs1 : scanStart hostLE (recvInto buf (hdr1 ++ 0 :: X)) = some (hdr1.length + 1) := by
    unfold scanStart
    have : ((recvInto buf (hdr1 ++ 0 :: X)).take 8 == LIBUDEV) = false := by
      rw [Bool.eq_false_iff]; simpa using hp1
    simp only [this, Bool.false_eq_true, if_false, hc1]
  have hs2 : scanStart hostLE (recvInto buf (hdr2 ++ 0 :: X)) = some (hdr1.length + 1) := by
    unfold scanStart
    have : ((recvInto buf (hdr2 ++ 0 :: X)).take 8 == LIBUDEV) = false := by
      rw [Bool.eq_false_iff]; simpa using hp2
    simp only [this, Bool.false_eq_true, if_false, hc2, hlen]
  have hdrop : (recvInto buf (hdr1 ++ 0 :: X)).drop (hdr1.length + 1)
      = (recvInto buf (hdr2 ++ 0 :: X)).drop (hdr1.length + 1) := by
    have e1 : recvInto buf (hdr1 ++ 0 :: X)
        = (hdr1 ++ [0]) ++ (X ++ buf.drop (hdr1 ++ 0 :: X).length) := by rw [hb1]; simp
    have e2 : recvInto buf (hdr2 ++ 0 :: X)
        = (hdr2 ++ [0]) ++ (X ++ buf.drop (hdr1 ++ 0 :: X).length) := by rw [hb2]; simp
    have l1 : hdr1.length + 1 = (hdr1 ++ [0]).length := by simp
    have l2 : hdr1.length + 1 = (hdr2 ++ [0]).length := by simp [hlen]
    rw [e1, e2]
    conv_lhs => rw [l1, List.drop_left]
    conv_rhs => rw [l2, List.drop_left]
  have hlb : (recvInto buf (hdr1 ++ 0 :: X)).length = (recvInto buf (hdr2 ++ 0 :: X)).length := by
    rw [hb1, hb2]; simp [hlen]
  have hscan : ∀ v : Vars,
      scan (hdr1 ++ 0 :: X).length (recvInto buf (hdr1 ++ 0 :: X)) (hdr1 ++ 0 :: X).length
          (hdr1.length + 1) v 0
        = scan (hdr1 ++ 0 :: X).length (recvInto buf (hdr2 ++ 0 :: X)) (hdr1 ++ 0 :: X).length
          (hdr1.length + 1) v 0 := fun v =>
    scan_congr _ _ _ (hdr1.length + 1) hdrop hlb _ _ v 0 (le_refl _)
  have hin : hdr1.length + 1 ≤ (recvInto buf (hdr2 ++ 0 :: X)).length := by
    rw [hb2]; simp [hlen]
  have hbody : ∀ v : Vars, ∃ r : Vars × Nat,
      body hostLE (recvInto buf (hdr1 ++ 0 :: X)) (hdr1 ++ 0 :: X).length v
        = finish (recvInto buf (hdr1 ++ 0 :: X)) r.1 r.2 ∧
      body hostLE (recvInto buf (hdr2 ++ 0 :: X)) (hdr2 ++ 0 :: X).length v
        = finish (recvInto buf (hdr2 ++ 0 :: X)) r.1 r.2 ∧
      (v.From (hdr1.length + 1) → r.1.From (hdr1.length + 1)) := by
    intro v
    obtain ⟨r, hr⟩ := scan_isSome (recvInto buf (hdr2 ++ 0 :: X)) (hdr1 ++ 0 :: X).length
      (hdr1 ++ 0 :: X).length (hdr1.length + 1) v 0 hin
    refine ⟨r, ?_, ?_, ?_⟩
    · unfold body
      simp only [hs1]
      rw [hscan v, hr]
    · unfold body
      simp only [hs2, ← hl]
      rw [hr]
    · intro hv
      exact scan_From _ _ (hdr1.length + 1) _ _ v 0 r hv (le_refl _) hr
  have hfrom : ∀ v : Vars, v.From (hdr1.length + 1) →
      body hostLE (recvInto buf (hdr1 ++ 0 :: X)) (hdr1 ++ 0 :: X).length v
        = body hostLE (recvInto buf (hdr2 ++ 0 :: X)) (hdr2 ++ 0 :: X).length v := by
    intro v hv
    obtain ⟨r, hr1, hr2, hr3⟩ := hbody v
    rw [hr1, hr2]
    exact finish_congr _ _ (hdr1.length + 1) _ _ hdrop (hr3 hv)
  obtain ⟨r, hr1, hr2, _⟩ := hbody vs
  obtain ⟨hv, hf, he⟩ := finish_shape (recvInto buf (hdr1 ++ 0 :: X))
    (recvInto buf (hdr2 ++ 0 :: X)) r.1 r.2
  refine ⟨hs1, ?_, ?_, ?_, hfrom vs, hfrom Vars.init (Vars.init_From _)⟩
  · rw [hr1, hr2]; exact hv
  · rw [hr1, hr2]; exact hf
  · rw [hr1, hr2]; exact he

theorem plain_header_not_a_property_witness :
    scanStart true (recvInto zeroStack (lit "add@/devices1" ++ 0 :: validProperties))
      = some ((lit "add@/devices1").length + 1) ∧
    (body true (recvInto zeroStack (lit "add@/devices1" ++ 0 :: validProperties))
        (lit "add@/devices1" ++ 0 :: validProperties).length Vars.init).vars
      = (body true (recvInto zeroStack (lit "ACTION=remove" ++ 0 :: validProperties))
        (lit "ACTION=remove" ++ 0 :: validProperties).length Vars.init).vars ∧
    (body true (recvInto zeroStack (lit "add@/devices1" ++ 0 :: validProperties))
        (lit "add@/devices1" ++ 0 :: validProperties).length Vars.init).flow
      = (body true (recvInto zeroStack (lit "ACTION=remove" ++ 0 :: validProperties))
        (lit "ACTION=remove" ++ 0 :: validProperties).length Vars.init).flow ∧
    (body true (recvInto zeroStack (lit "add@/devices1" ++ 0 :: validProperties))
        (lit "add@/devices1" ++ 0 :: validProperties).length Vars.init).emitted.isSome
      = (body true (recvInto zeroStack (lit "ACTION=remove" ++ 0 :: validProperties))
        (lit "ACTION=remove" ++ 0 :: validProperties).length Vars.init).emitted.isSome ∧
    (Vars.init.From ((lit "add@/devices1").length + 1) →
      body true (recvInto zeroStack (lit "add@/devices1" ++ 0 :: validProperties))
          (lit "add@/devices1" ++ 0 :: validProperties).length Vars.init
        = body true (recvInto zeroStack (lit "ACTION=remove" ++ 0 :: validProperties))
          (lit "ACTION=remove" ++ 0 :: validProperties).length Vars.init) ∧
    body true (recvInto zeroStack (lit "add@/devices1" ++ 0 :: validProperties))
        (lit "add@/devices1" ++ 0 :: validProperties).length Vars.init
      = body true (recvInto zeroStack (lit "ACTION=remove" ++ 0 :: validProperties))
        (lit "ACTION=remove" ++ 0 :: validProperties).length Vars.init :=
  plain_header_not_a_property true zeroStack (lit "add@/devices1") (lit "ACTION=remove")
    validProperties Vars.init (by decide) (by decide) (by decide) (by decide) (by decide!)
    (by decide!)

/-- The record behind the header `ACTION=remove` is emitted as an `add`. -/
theorem header_like_a_token_example :
    (netlink_monitor_watcher true zeroStack
        [lit "ACTION=remove" ++ 0 :: validProperties]).1
      = [⟨lit "x-device-added", [lit "DEVPATH=y", lit "SUBSYSTEM=x", lit "ACTION=add"], false⟩] := by
  decide!

/-- C17 (counterexample): two pairs of plain datagrams that differ only in the
content of a header whose length is the same.  With the header `libudev`
instead of `add@/yy` the datagram is taken as an enveloped frame and its valid
record is not emitted; and behind a datagram that left an `action` pointer at
offset 9, a record without `ACTION` is emitted as `x-device-evices` or as
`x-device-EVICES` according to its header. -/
theorem header_content_matters :
    (netlink_monitor_watcher true zeroStack [sevenByteHeaderRecord]).1.map (fun e => e.name)
      = [lit "x-device-added"] ∧
    (netlink_monitor_watcher true zeroStack [libudevHeaderRecord]).1 = [] ∧
    (netlink_monitor_watcher true zeroStack [shortHeaderRecord, lowerHeaderRecord]).1.map
        (fun e => e.name)
      = [lit "x-device-added", lit "x-device-evices"] ∧
    (netlink_monitor_watcher true zeroStack [shortHeaderRecord, upperHeaderRecord]).1.map
        (fun e => e.name)
      = [lit "x-device-added", lit "x-device-EVICES"] := by
  refine ⟨?_, ?_, ?_, ?_⟩ <;> decide!

/-! ## One call for each notification -/

/-- Every call the loop body makes has the wait flag false. -/
theorem body_wait (hostLE : Bool) (buf : List Nat) (len : Nat) (vs : Vars) (e : Emission)
    (h : (body hostLE buf len vs).emitted = some e) : e.wait = false := by
  unfold body at h
  cases hs : scanStart hostLE buf with
  | none => simp [hs] at h
  | some s =>
    simp only [hs] at h
    cases hsc : scan len buf len s vs 0 with
    | none => simp [hsc] at h
    | some r =>
      simp only [hsc] at h
      unfold finish at h
      split_ifs at h
      simp only [Option.some.injEq] at h
      rw [← h]

/-- An iteration that makes the call has `subsystem` set and goes on to the
next datagram. -/
theorem body_emitted_next (hostLE : Bool) (buf : List Nat) (len : Nat) (vs : Vars)
    (e : Emission) (h : (body hostLE buf len vs).emitted = some e) :
    (body hostLE buf len vs).vars.subsystem.isSome = true ∧
    (body hostLE buf len vs).flow = Flow.next := by
  unfold body at h ⊢
  cases hs : scanStart hostLE buf with
  | none => simp [hs] at h
  | some s =>
    simp only [hs] at h ⊢
    cases hsc : scan len buf len s vs 0 with
    | none => simp [hsc] at h
    | some r =>
      simp only [hsc] at h ⊢
      unfold finish at h ⊢
      split_ifs at h ⊢ with h1 h2 h3 h4
      refine ⟨?_, rfl⟩
      cases hsub : r.1.subsystem with
      | none => simp [hsub] at h4
      | some p => rfl

/-- What the loop body logs when its call of `upstart_emit_event` fails: the
message of the error, and the hint at binary garbage unless `errno` is
`ENOMEM`. -/
theorem bodyLogged_failed (hostLE : Bool) (buf : List Nat) (len : Nat) (vs : Vars)
    (enomem : Bool) (message : List Nat) (e : Emission)
    (h : (body hostLE buf len vs).emitted = some e) :
    (bodyLogged hostLE buf len vs false enomem message).2
      = message ::
        (if enomem then []
          else [lit "Likely that uevent '" ++ fmtS buf (body hostLE buf len vs).vars.subsystem
            ++ lit "' event contains binary garbage"]) := by
  have hsub := (body_emitted_next hostLE buf len vs e h).1
  unfold bodyLogged emitWarnings
  simp only [h, hsub, Bool.false_eq_true, if_false, Bool.and_true]
  cases enomem <;> simp

theorem receiveLoop_length (hostLE : Bool) :
    ∀ (q : List (List Nat)) (buf : List Nat) (vs : Vars),
      (receiveLoop hostLE q buf vs).1.length + (receiveLoop hostLE q buf vs).2.length
        ≤ q.length := by
  intro q
  induction q with
  | nil => intro buf vs; simp [receiveLoop]
  | cons d q ih =>
    intro buf vs
    rw [receiveLoop]
    have hle : ∀ o : Option Emission, o.toList.length ≤ 1 := by
      intro o; cases o <;> simp
    split_ifs
    · simp
    · cases hf : (body hostLE (recvInto buf d) (d.take BUFSIZE).length vs).flow with
      | returned =>
        have := hle (body hostLE (recvInto buf d) (d.take BUFSIZE).length vs).emitted
        simp only [hf, List.length_cons]
        omega
      | fault =>
        have := hle (body hostLE (recvInto buf d) (d.take BUFSIZE).length vs).emitted
        simp only [hf, List.length_cons]
        omega
      | next =>
        have := hle (body hostLE (recvInto buf d) (d.take BUFSIZE).length vs).emitted
        have := ih (recvInto buf d) (body hostLE (recvInto buf d) (d.take BUFSIZE).length vs).vars
        simp only [hf, List.length_append, List.length_cons]
        omega

theorem receiveLoop_wait (hostLE : Bool) :
    ∀ (q : List (List Nat)) (buf : List Nat) (vs : Vars),
      ∀ e ∈ (receiveLoop hostLE q buf vs).1, e.wait = false := by
  have hbody : ∀ (buf : List Nat) (len : Nat) (vs : Vars) (e : Emission),
      (body hostLE buf len vs).emitted = some e → e.wait = false :=
    fun buf len vs e h => body_wait hostLE buf len vs e h
  have hmem : ∀ (o : Option Emission) (e : Emission), e ∈ o.toList → o = some e := by
    intro o e h
    cases o with
    | none => simp at h
    | some a => simp at h; rw [h]
  intro q
  induction q with
  | nil => intro buf vs e he; simp [receiveLoop] at he
  | cons d q ih =>
    intro buf vs e he
    rw [receiveLoop] at he
    split_ifs at he
    · simp at he
    · cases hf : (body hostLE (recvInto buf d) (d.take BUFSIZE).length vs).flow with
      | returned =>
        simp only [hf] at he
        exact hbody _ _ _ _ (hmem _ _ he)
      | fault =>
        simp only [hf] at he
        exact hbody _ _ _ _ (hmem _ _ he)
      | next =>
        simp only [hf, List.mem_append] at he
        rcases he with he | he
        · exact hbody _ _ _ _ (hmem _ _ he)
        · exact ih _ _ e he

end Uevent

namespace Avahi

open Uevent (lit Emission)

theorem emit_event_known (if_indextoname : Int → Option (List Nat)) (pending : Bool)
    (action ev : List Nat) (interface protocol : Int) (name type domain : Option (List Nat))
    (flags : Nat)
    (hev : (if action = lit "ItemNew" then some (lit "net-service-up")
      else if action = lit "ItemRemove" then some (lit "net-service-down") else none) = some ev) :
    (emit_event if_indextoname pending action interface protocol name type domain flags).ret = 0 ∧
    (emit_event if_indextoname pending action interface protocol name type domain flags).warned
      = !pending ∧
    ∃ e, (emit_event if_indextoname pending action interface protocol name type domain flags).call
        = some e ∧ e.wait = false := by
  unfold emit_event
  simp only [hev]
  exact ⟨trivial, trivial, _, rfl, rfl⟩

theorem itemFilter_accepted (signalName : List Nat) (if_indextoname : Int → Option (List Nat))
    (pending : Bool) (sig : Signal) (a : ItemArgs)
    (hacc : sig.ifaceOk = true ∧ sig.member = signalName ∧ sig.pathOk = true ∧
      sig.senderOk = true ∧ sig.args = some a) :
    itemFilter signalName if_indextoname pending sig
      = some (emit_event if_indextoname pending signalName a.interface a.protocol
          (some a.name) (some a.type) (some a.domain) a.flags) := by
  obtain ⟨h1, h2, h3, h4, h5⟩ := hacc
  unfold itemFilter
  simp [h1, h2, h3, h4, h5]

/-- C20: in the uevent bridge a record that is valid after the scan (`action`,
`subsystem` and `devpath` set, `initialized` not 0) leads to one call of
`upstart_emit_event`, every call the loop body or a whole wakeup makes has the
wait flag false, a wakeup makes at most one call for each datagram it reads,
and the outcome of the call changes only the warnings logged, not the call or
the variables: a call that succeeds logs nothing, and a call that fails logs
the message of the error, and the hint at binary garbage unless `errno` is
`ENOMEM`, after which the loop goes on to the next datagram with the same
single call made; in the avahi bridge an accepted `ItemNew` or `ItemRemove` signal
leads to one call of `emit_event`, which makes one call of
`upstart_emit_event` with the wait flag false, logs a warning exactly when the
call fails, and returns 0 either way. -/
theorem fire_and_forget (hostLE : Bool) (buf stack : List Nat) (len : Nat) (vs : Uevent.Vars)
    (initialized : Nat) (queue : List (List Nat)) (pending enomem : Bool) (message : List Nat)
    (if_indextoname : Int → Option (List Nat)) (interface protocol : Int)
    (name type domain : Option (List Nat)) (flags : Nat) (sig : Signal) (a : ItemArgs) :
    (vs.action.isSome → vs.subsystem.isSome → vs.devpath.isSome → initialized ≠ 0 →
      ∃ e, (Uevent.finish buf vs initialized).emitted = some e ∧ e.wait = false ∧
        (Uevent.finish buf vs initialized).flow = Uevent.Flow.next) ∧
    (∀ e, (Uevent.body hostLE buf len vs).emitted = some e → e.wait = false) ∧
    (∀ e ∈ (Uevent.netlink_monitor_watcher hostLE stack queue).1, e.wait = false) ∧
    (Uevent.netlink_monitor_watcher hostLE stack queue).1.length
        + (Uevent.netlink_monitor_watcher hostLE stack queue).2.length ≤ queue.length ∧
    (Uevent.bodyLogged hostLE buf len vs pending enomem message).1
      = (Uevent.bodyLogged hostLE buf len vs true enomem message).1 ∧
    (Uevent.bodyLogged hostLE buf len vs true enomem message).2 = [] ∧
    (∀ e, (Uevent.body hostLE buf len vs).emitted = some e →
      (Uevent.bodyLogged hostLE buf len vs false enomem message).2
        = message ::
          (if enomem then []
            else [lit "Likely that uevent '"
              ++ Uevent.fmtS buf (Uevent.body hostLE buf len vs).vars.subsystem
              ++ lit "' event contains binary garbage"]) ∧
      (Uevent.bodyLogged hostLE buf len vs false enomem message).1.emitted = some e ∧
      (Uevent.bodyLogged hostLE buf len vs false enomem message).1.flow = Uevent.Flow.next) ∧
    ((emit_event if_indextoname pending (lit "ItemNew") interface protocol name type domain
        flags).ret = 0 ∧
      (emit_event if_indextoname pending (lit "ItemNew") interface protocol name type domain
        flags).warned = !pending ∧
      ∃ e, (emit_event if_indextoname pending (lit "ItemNew") interface protocol name type domain
        flags).call = some e ∧ e.wait = false) ∧
    ((emit_event if_indextoname pending (lit "ItemRemove") interface protocol name type domain
        flags).ret = 0 ∧
      (emit_event if_indextoname pending (lit "ItemRemove") interface protocol name type domain
        flags).warned = !pending ∧
      ∃ e, (emit_event if_indextoname pending (lit "ItemRemove") interface protocol name type
        domain flags).call = some e ∧ e.wait = false) ∧
    (sig.ifaceOk = true ∧ sig.member = lit "ItemNew" ∧ sig.pathOk = true ∧
        sig.senderOk = true ∧ sig.args = some a →
      org_freedesktop_Avahi_Server_Browser_ItemNew_signal if_indextoname pending sig
        = some (emit_event if_indextoname pending (lit "ItemNew") a.interface a.protocol
            (some a.name) (some a.type) (some a.domain) a.flags)) ∧
    (sig.ifaceOk = true ∧ sig.member = lit "ItemRemove" ∧ sig.pathOk = true ∧
        sig.senderOk = true ∧ sig.args = some a →
      org_freedesktop_Avahi_Server_Browser_ItemRemove_signal if_indextoname pending sig
        = some (emit_event if_indextoname pending (lit "ItemRemove") a.interface a.protocol
            (some a.name) (some a.type) (some a.domain) a.flags)) := by
  have hne : ¬ lit "ItemRemove" = lit "ItemNew" := by decide
  refine ⟨?_, ?_, ?_, ?_, rfl, ?_, ?_, ?_, ?_, ?_, ?_⟩
  · intro ha hs hd hi
    obtain ⟨pa, hpa⟩ := Option.isSome_iff_exists.mp ha
    obtain ⟨ps, hps⟩ := Option.isSome_iff_exists.mp hs
    rw [Uevent.finish_emits buf vs initialized ps pa hpa hps hd hi]
    exact ⟨_, rfl, rfl, rfl⟩
  · intro e he
    exact Uevent.body_wait hostLE buf len vs e he
  · exact Uevent.receiveLoop_wait hostLE queue stack Uevent.Vars.init
  · exact Uevent.receiveLoop_length hostLE queue stack Uevent.Vars.init
  · unfold Uevent.bodyLogged Uevent.emitWarnings
    cases (Uevent.body hostLE buf len vs).emitted <;> simp
  · intro e he
    exact ⟨Uevent.bodyLogged_failed hostLE buf len vs enomem message e he, he,
      (Uevent.body_emitted_next hostLE buf len vs e he).2⟩
  · exact emit_event_known _ _ _ (lit "net-service-up") _ _ _ _ _ _ (by simp)
  · exact emit_event_known _ _ _ (lit "net-service-down") _ _ _ _ _ _ (by simp [hne])
  · exact itemFilter_accepted _ _ _ _ _
  · exact itemFilter_accepted _ _ _ _ _

/-! ## Order of the two lists -/

/-- Type-discovered notifications append their types to the queue, in the
order of arrival, and change nothing else. -/
theorem notifyAll_discovered (svc : Service) :
    ∀ (ts : List (List Nat)) (m : Manager),
      notifyAll svc (ts.map Notification.typeDiscovered) m
        = { m with type_entries := m.type_entries ++ ts } := by
  intro ts
  induction ts with
  | nil => intro m; simp [notifyAll]
  | cons t rest ih =>
    intro m
    rw [List.map_cons, notifyAll, notify_typeDiscovered, ih]
    simp

/-- The object paths of the watches created for a queue of types are the
replies to the requests number `n`, `n + 1`, ... that were not refused, in this
order. -/
theorem successes_paths (svc : Service) :
    ∀ (q : List (List Nat)) (n : Nat),
      ((successes svc n q).map Watch.path).Sublist
        ((List.range q.length).filterMap
          (fun i => svc.browserNew (n + i) (requestFor (q.getD i [])))) := by
  intro q
  induction q with
  | nil => intro n; simp [successes]
  | cons t rest ih =>
    intro n
    rw [successes, List.map_append, List.length_cons, List.range_succ_eq_map, List.filterMap_cons]
    have hrest : ((List.map Nat.succ (List.range rest.length)).filterMap
          (fun i => svc.browserNew (n + i) (requestFor ((t :: rest).getD i []))))
        = (List.range rest.length).filterMap
          (fun i => svc.browserNew (n + 1 + i) (requestFor (rest.getD i []))) := by
      rw [List.filterMap_map]
      apply List.filterMap_congr
      intro i _
      simp only [Function.comp, Nat.succ_eq_add_one, List.getD_cons_succ]
      congr 1
      omega
    have ih1 := ih (n + 1)
    cases hc : createdWatch svc n ⟨-1, -1, t, [], 0⟩ with
    | none =>
      simp only [Option.toList, List.map_nil, List.nil_append]
      cases hb : svc.browserNew (n + 0) (requestFor ((t :: rest).getD 0 [])) with
      | none => simp only [hrest]; exact ih1
      | some p => simp only [hrest]; exact List.Sublist.cons _ ih1
    | some w =>
      have hp : svc.browserNew n (requestFor t) = some w.path := by
        unfold createdWatch at hc
        unfold requestFor
        cases hb : svc.browserNew n ⟨-1, -1, t, [], 0⟩ with
        | none => simp [hb] at hc
        | some p =>
          simp only [hb] at hc
          split_ifs at hc
          simp only [Option.some.injEq] at hc
          rw [← hc]
      have h0 : svc.browserNew (n + 0) (requestFor ((t :: rest).getD 0 [])) = some w.path := by
        simpa using hp
      simp only [Option.toList, List.map_cons, List.map_nil, List.singleton_append, h0, hrest]
      exact List.Sublist.cons₂ _ ih1

/-- C24: the queue `type_entries` keeps the discovered types in the order of
arrival; the flush of a batch-complete notification sends the requests for
browsers in the order of the queue; the watches created are appended to
`browser_entries` in the order of their creation, so that their types follow
the order of the queue; and the end of `main` calls `service_browser_free` on
the watches in the order of `browser_entries`.  Together: types discovered and
flushed from the empty lists are destroyed at shutdown in the order in which
they were discovered, the refused ones left out. -/
theorem watches_fifo (svc : Service) (m : Manager) (types : List (List Nat))
    (typeBrowser : List Nat) :
    (notifyAll svc (types.map Notification.typeDiscovered) m).type_entries
      = m.type_entries ++ types ∧
    (notify svc m Notification.batchComplete).requests
      = m.requests ++ m.type_entries.map requestFor ∧
    (notify svc m Notification.batchComplete).browser_entries
      = m.browser_entries ++ successes svc m.requests.length m.type_entries ∧
    ((successes svc m.requests.length m.type_entries).map Watch.type).Sublist m.type_entries ∧
    (shutdown svc m (some typeBrowser) true).1
      = m.browser_entries.map (fun w => ShutdownCall.browserFree w.path (svc.browserFree w.path))
        ++ [ShutdownCall.typeBrowserFree typeBrowser, ShutdownCall.releaseAvahi] ∧
    (shutdown svc
        (notifyAll svc (types.map Notification.typeDiscovered ++ [Notification.batchComplete])
          Manager.init) (some typeBrowser) true).1
      = (successes svc 0 types).map
          (fun w => ShutdownCall.browserFree w.path (svc.browserFree w.path))
        ++ [ShutdownCall.typeBrowserFree typeBrowser, ShutdownCall.releaseAvahi] ∧
    ((successes svc 0 types).map Watch.type).Sublist types ∧
    (shutdown goodService
        (notifyAll goodService
          [Notification.typeDiscovered (lit "http"), Notification.typeDiscovered (lit "ssh"),
            Notification.typeDiscovered (lit "ipp"), Notification.batchComplete]
          Manager.init) (some typeBrowser) true).1
      = [ShutdownCall.browserFree (lit "/Client0/ServiceBrowser0") true,
          ShutdownCall.browserFree (lit "/Client0/ServiceBrowser1") true,
          ShutdownCall.browserFree (lit "/Client0/ServiceBrowser2") true,
          ShutdownCall.typeBrowserFree typeBrowser, ShutdownCall.releaseAvahi] := by
  have hshut : ∀ m0 : Manager, (shutdown svc m0 (some typeBrowser) true).1
      = m0.browser_entries.map
          (fun w => ShutdownCall.browserFree w.path (svc.browserFree w.path))
        ++ [ShutdownCall.typeBrowserFree typeBrowser, ShutdownCall.releaseAvahi] := by
    intro m0
    unfold shutdown
    simp only [freeBrowsers_calls, if_true, List.append_assoc, List.singleton_append]
  refine ⟨?_, ?_, ?_, successes_types_sublist svc _ _, hshut m, ?_,
    successes_types_sublist svc _ _, ?_⟩
  · rw [notifyAll_discovered]
  · rw [notify_batchComplete]
  · rw [notify_batchComplete]
  · rw [hshut, notifyAll_append, notifyAll_discovered, notifyAll, notifyAll, notify_batchComplete]
    simp [Manager.init]
  · have hex : (notifyAll goodService
          [Notification.typeDiscovered (lit "http"), Notification.typeDiscovered (lit "ssh"),
            Notification.typeDiscovered (lit "ipp"), Notification.batchComplete]
          Manager.init).browser_entries
        = [⟨lit "http", lit "/Client0/ServiceBrowser0"⟩, ⟨lit "ssh", lit "/Client0/ServiceBrowser1"⟩,
            ⟨lit "ipp", lit "/Client0/ServiceBrowser2"⟩] := by decide
    unfold shutdown
    simp only [freeBrowsers_calls, if_true, List.append_assoc, List.singleton_append, hex]
    rfl

end Avahi

namespace Uevent

/-! ## The bound of the scan -/

/-- The scan loop does nothing when the NUL that ends the string at `s` is not
below `len`. -/
theorem scan_nul_beyond (fuel : Nat) (buf : List Nat) (len s n : Nat) (vs : Vars)
    (initialized : Nat) (hn : strchr_nul buf s = NulSearch.found n) (hlen : len ≤ n) :
    scan fuel buf len s vs initialized = some (vs, initialized) := by
  cases fuel with
  | zero =>
    unfold scan
    simp only [hn]
  | succ fuel =>
    unfold scan
    simp only [hn, Nat.not_lt.mpr hlen, if_false]

/-- The scan loop does nothing when it starts at `len` or behind, inside the
array or at its end. -/
theorem scan_start_beyond (fuel : Nat) (buf : List Nat) (len s : Nat) (vs : Vars)
    (initialized : Nat) (hlen : len ≤ s) (hin : s ≤ buf.length) :
    scan fuel buf len s vs initialized = some (vs, initialized) := by
  cases hn : strchr_nul buf s with
  | outside =>
    have := (strchr_nul_outside_iff buf s).mp hn
    omega
  | behind =>
    cases fuel with
    | zero => unfold scan; simp only [hn]
    | succ fuel => unfold scan; simp only [hn]
  | found n =>
    exact scan_nul_beyond fuel buf len s n vs initialized hn
      (Nat.le_trans hlen (strchr_nul_ge buf s n hn))

/-- Without a captured field the rest of the loop body returns at the test of
`action`. -/
theorem finish_init (buf : List Nat) (initialized : Nat) :
    finish buf Vars.init initialized = ⟨Vars.init, none, Flow.returned⟩ := by
  unfold finish
  simp [Vars.init]

/-- The string at the start of the buffer is at least as long as a datagram
without NUL that was received into it. -/
theorem cstr_recvInto_ge (stack d : List Nat) (h0 : 0 ∉ d) (hsize : d.length ≤ BUFSIZE) :
    d.length ≤ (cstr (recvInto stack d) 0).length := by
  rw [recvInto_fits stack d hsize]
  unfold cstr
  rw [List.drop_zero, List.takeWhile_append_of_pos]
  · rw [List.length_append]; omega
  · intro a ha
    have : a ≠ 0 := fun h => h0 (h ▸ ha)
    simpa using this

/-- The loop body when the scan starts beyond the end of the array. -/
theorem body_fault (hostLE : Bool) (buf : List Nat) (len s : Nat) (vs : Vars)
    (hs : scanStart hostLE buf = some s) (hout : buf.length < s) :
    body hostLE buf len vs = ⟨vs, none, Flow.fault⟩ := by
  unfold body
  simp only [hs, (scan_eq_none_iff buf len len s vs 0).mpr hout]

/-- The loop body when the scan starts at `len` or behind, inside the array or
at its end, and no field is set: nothing is captured and the body returns. -/
theorem body_start_beyond (hostLE : Bool) (buf : List Nat) (len s : Nat)
    (hs : scanStart hostLE buf = some s) (hlen : len ≤ s) (hin : s ≤ buf.length) :
    body hostLE buf len Vars.init = ⟨Vars.init, none, Flow.returned⟩ := by
  unfold body
  simp only [hs, scan_start_beyond len buf len s Vars.init 0 hlen hin]
  exact finish_init buf 0

/-- Where the bound of the scan loop holds.  The loop parses a token only when
the NUL that ends it lies below `len`: it stops, with the variables as they
are, at a string whose NUL is at `len` or behind, and when it starts at `len`
or behind without leaving the array; in a buffer that holds NUL-terminated
tokens `toks` followed by bytes `rest` without NUL up to `len`, exactly the
tokens `toks` are decoded, whatever follows `rest` in the buffer.  For the
first datagram of a wakeup an enveloped frame with matching magic value whose
properties offset is at least `len` and at most the size of the buffer, and a
plain frame whose first string reaches to `len` or further and ends inside the
buffer, leave every field unset and end the loop body without an emission. -/
theorem scan_bound_inside (hostLE : Bool) (buf : List Nat) (len fuel s : Nat) (vs : Vars)
    (initialized : Nat) :
    (∀ n, strchr_nul buf s = NulSearch.found n → len ≤ n →
      scan fuel buf len s vs initialized = some (vs, initialized)) ∧
    (len ≤ s → s ≤ buf.length → scan fuel buf len s vs initialized = some (vs, initialized)) ∧
    (∀ (pre rest tail : List Nat) (toks : List (List Nat)),
      (∀ t ∈ toks, 0 ∉ t) → 0 ∉ rest →
      ∃ r, scan (pre.length + (properties toks).length + rest.length)
          (pre ++ properties toks ++ rest ++ tail)
          (pre.length + (properties toks).length + rest.length) pre.length vs initialized
          = some r ∧
        view (pre ++ properties toks ++ rest ++ tail) r.1
          = (decodeToks toks (view (pre ++ properties toks ++ rest ++ tail) vs) initialized).1 ∧
        r.2 = (decodeToks toks (view (pre ++ properties toks ++ rest ++ tail) vs)
          initialized).2) ∧
    (buf.take 8 = LIBUDEV → htonl hostLE (load32 hostLE buf 8) = UDEV_MAGIC →
      len ≤ load32 hostLE buf 16 → load32 hostLE buf 16 ≤ buf.length →
      body hostLE buf len Vars.init = ⟨Vars.init, none, Flow.returned⟩) ∧
    (buf.take 8 ≠ LIBUDEV → len ≤ (cstr buf 0).length → (cstr buf 0).length < buf.length →
      body hostLE buf len Vars.init = ⟨Vars.init, none, Flow.returned⟩) ∧
    (∀ stack d : List Nat, 0 ∉ d → d.length ≤ BUFSIZE → 0 ∈ stack.drop d.length →
      (recvInto stack d).take 8 ≠ LIBUDEV →
      body hostLE (recvInto stack d) d.length Vars.init = ⟨Vars.init, none, Flow.returned⟩) := by
  have hplainStart : ∀ b : List Nat, b.take 8 ≠ LIBUDEV →
      scanStart hostLE b = some ((cstr b 0).length + 1) := by
    intro b hp
    have h8 : (b.take 8 == LIBUDEV) = false := by
      rw [Bool.eq_false_iff]; simpa using hp
    unfold scanStart
    simp only [h8, Bool.false_eq_true, if_false]
  have hplain : ∀ (b : List Nat) (l : Nat), b.take 8 ≠ LIBUDEV → l ≤ (cstr b 0).length →
      (cstr b 0).length < b.length →
      body hostLE b l Vars.init = ⟨Vars.init, none, Flow.returned⟩ := by
    intro b l hp hl hin
    exact body_start_beyond hostLE b l _ (hplainStart b hp) (by omega) (by omega)
  refine ⟨fun n hn hl => scan_nul_beyond fuel buf len s n vs initialized hn hl,
    scan_start_beyond fuel buf len s vs initialized, ?_, ?_, hplain buf len, ?_⟩
  · intro pre rest tail toks htoks hrest
    exact scan_tokens (pre ++ properties toks ++ rest ++ tail) rest tail toks _ pre vs
      initialized htoks hrest (by have := length_le_properties toks; omega) rfl
  · intro h8 hmagic hoff hin
    have h8b : (buf.take 8 == LIBUDEV) = true := by simpa using h8
    have hm : (htonl hostLE (load32 hostLE buf 8) != UDEV_MAGIC) = false := by simp [hmagic]
    have hst : scanStart hostLE buf = some (load32 hostLE buf 16) := by
      unfold scanStart
      simp only [h8b, hm, if_true, Bool.false_eq_true, if_false]
    exact body_start_beyond hostLE buf len _ hst hoff hin
  · intro stack d h0 hsize hnul hp
    refine hplain _ _ hp (cstr_recvInto_ge stack d h0 hsize) ?_
    rw [recvInto_fits stack d hsize]
    unfold cstr
    rw [List.drop_zero]
    have hlt : ∀ l : List Nat, 0 ∈ l → (l.takeWhile (fun b => b != 0)).length < l.length := by
      intro l
      induction l with
      | nil => intro h; simp at h
      | cons a l ih =>
        intro h
        by_cases ha : a = 0
        · simp [List.takeWhile_cons, ha]
        · have hl : 0 ∈ l := by
            rcases List.mem_cons.mp h with h1 | h1
            · exact absurd h1.symm ha
            · exact h1
          have := ih hl
          simp [List.takeWhile_cons, ha]
          omega
    exact hlt _ (List.mem_append_right _ hnul)

/-- The loop body on an enveloped frame with matching magic value whose
properties offset lies beyond the end of the buffer. -/
theorem body_offset_outside (hostLE : Bool) (buf : List Nat) (len : Nat) (vs : Vars)
    (h8 : buf.take 8 = LIBUDEV) (hmagic : htonl hostLE (load32 hostLE buf 8) = UDEV_MAGIC)
    (hout : buf.length < load32 hostLE buf 16) :
    body hostLE buf len vs = ⟨vs, none, Flow.fault⟩ := by
  have h8b : (buf.take 8 == LIBUDEV) = true := by simpa using h8
  have hm : (htonl hostLE (load32 hostLE buf 8) != UDEV_MAGIC) = false := by simp [hmagic]
  have hst : scanStart hostLE buf = some (load32 hostLE buf 16) := by
    unfold scanStart
    simp only [h8b, hm, if_true, Bool.false_eq_true, if_false]
  exact body_fault hostLE buf len _ vs hst hout

/-- C23 (the code at the failing input): nothing compares the start of the
scan with the size of `buf`.  For the enveloped frame with matching magic value
and properties offset 65536, received into the buffer of 4096 bytes as first
datagram of a wakeup, the scan starts at offset 65536: the loop body calls
`strchr` on a pointer beyond the end of the array and ends in undefined
behaviour instead of returning, and the valid record queued behind the frame,
which is emitted when it arrives alone, is never read.  The same holds for the
frame whose offset bytes `0 0 0 40` are read as 671088640. -/
theorem offset_beyond_buffer_undefined :
    (recvInto zeroStack farOffsetFrame).length = 4096 ∧
    farOffsetFrame.length = 92 ∧
    scanStart true (recvInto zeroStack farOffsetFrame) = some 65536 ∧
    strchr_nul (recvInto zeroStack farOffsetFrame) 65536 = NulSearch.outside ∧
    scan farOffsetFrame.length (recvInto zeroStack farOffsetFrame) farOffsetFrame.length 65536
        Vars.init 0 = none ∧
    body true (recvInto zeroStack farOffsetFrame) farOffsetFrame.length Vars.init
      = ⟨Vars.init, none, Flow.fault⟩ ∧
    netlink_monitor_watcher true zeroStack [farOffsetFrame, validRecord]
      = ([], [validRecord]) ∧
    (netlink_monitor_watcher true zeroStack [validRecord]).1.map (fun e => e.name)
      = [lit "x-device-added"] ∧
    body true (recvInto zeroStack bigEndianOffsetFrame) bigEndianOffsetFrame.length Vars.init
      = ⟨Vars.init, none, Flow.fault⟩ := by
  refine ⟨?_, ?_, ?_, ?_, ?_, ?_, ?_, ?_, ?_⟩ <;> decide!

/-- The bound at work.  A record whose last token, `USEC_INITIALIZED=1`, has
its NUL at offset `len` is not emitted; a frame whose properties offset is its
length, and a datagram without NUL, are not emitted although the bytes behind
them in the buffer hold a valid property block, which the same loop body
decodes and emits when `len` covers it. -/
theorem scan_bound_examples :
    (netlink_monitor_watcher true zeroStack [unterminatedRecord]).1 = [] ∧
    (netlink_monitor_watcher true zeroStack [unterminatedRecord ++ [0]]).1.map (fun e => e.name)
      = [lit "x-device-added"] ∧
    headerOnlyFrame.length = 40 ∧
    scanStart true (recvInto staleStack headerOnlyFrame) = some 40 ∧
    (netlink_monitor_watcher true staleStack [headerOnlyFrame]).1 = [] ∧
    (body true (recvInto staleStack headerOnlyFrame) staleStack.length
        Vars.init).emitted.map (fun e => e.name)
      = some (lit "x-device-added") ∧
    recvInto validRecord headerOnlyRecord = validRecord ∧
    (netlink_monitor_watcher true validRecord [headerOnlyRecord]).1 = [] ∧
    (body true (recvInto validRecord headerOnlyRecord) validRecord.length
        Vars.init).emitted.map (fun e => e.name)
      = some (lit "x-device-added") := by
  refine ⟨?_, ?_, ?_, ?_, ?_, ?_, ?_, ?_, ?_⟩ <;> decide!

/-! ## The last token with a key -/

theorem decodeToks_append :
    ∀ (ts1 ts2 : List (List Nat)) (w : View) (i : Nat), (∀ t ∈ ts1, 61 ∈ t) →
      decodeToks (ts1 ++ ts2) w i = decodeToks ts2 (decodeToks ts1 w i).1 (decodeToks ts1 w i).2 := by
  intro ts1
  induction ts1 with
  | nil => intro ts2 w i _; rfl
  | cons t rest ih =>
    intro ts2 w i h
    obtain ⟨e, he⟩ := findByte_of_mem 61 t (h t (List.mem_cons_self _ _))
    rw [List.cons_append, decodeToks, decodeToks]
    simp only [he]
    exact ih ts2 _ _ (fun u hu => h u (List.mem_cons_of_mem _ hu))

theorem lastWith_snoc (key t : List Nat) (ts : List (List Nat)) :
    lastWith key (ts ++ [t]) = if hasKey key t then some t else lastWith key ts := by
  unfold lastWith
  rw [List.filter_append]
  by_cases h : hasKey key t = true
  · simp [List.filter_cons, h]
  · simp [List.filter_cons, h]

theorem lastWith_hasKey (key t : List Nat) (toks : List (List Nat))
    (h : lastWith key toks = some t) : hasKey key t = true ∧ t ∈ toks := by
  unfold lastWith at h
  have hm := List.mem_of_getLast?_eq_some h
  rw [List.mem_filter] at hm
  exact ⟨hm.2, hm.1⟩

/-- The last token with a key, in the words of its definition: a token with
the key behind which no token has the key. -/
theorem lastWith_last (key t : List Nat) (pre post : List (List Nat))
    (ht : hasKey key t = true) (hpost : ∀ u ∈ post, hasKey key u = false) :
    lastWith key (pre ++ t :: post) = some t := by
  unfold lastWith
  have hp : post.filter (hasKey key) = [] := by
    rw [List.filter_eq_nil_iff]
    intro u hu
    simp [hpost u hu]
  rw [List.filter_append, List.filter_cons, if_pos ht, hp, List.getLast?_append]
  simp

theorem lastWith_none (key : List Nat) (toks : List (List Nat))
    (h : ∀ u ∈ toks, hasKey key u = false) : lastWith key toks = none := by
  unfold lastWith
  have hp : toks.filter (hasKey key) = [] := by
    rw [List.filter_eq_nil_iff]
    intro u hu
    simp [h u hu]
  rw [hp]
  rfl

theorem hasKey_excl (k1 k2 t : List Nat) (h12 : ¬ k1 <+: k2) (h21 : ¬ k2 <+: k1)
    (h1 : hasKey k1 t = true) : hasKey k2 t = false := by
  rw [Bool.eq_false_iff]
  intro h2
  unfold hasKey at h1 h2
  rw [take_beq_iff] at h1 h2
  rcases List.prefix_or_prefix_of_prefix h1 h2 with h | h
  · exact h12 h
  · exact h21 h

/-- No two of the six keys of the scan loop can begin the same token. -/
theorem keys_exclusive (t : List Nat) :
    (hasKey (lit "ACTION") t = true →
      hasKey (lit "KERNEL") t = false ∧ hasKey (lit "DEVPATH") t = false ∧
      hasKey (lit "DEVNAME") t = false ∧ hasKey (lit "SUBSYSTEM") t = false ∧
      hasKey (lit "USEC_INITIALIZED") t = false) ∧
    (hasKey (lit "KERNEL") t = true →
      hasKey (lit "ACTION") t = false ∧ hasKey (lit "DEVPATH") t = false ∧
      hasKey (lit "DEVNAME") t = false ∧ hasKey (lit "SUBSYSTEM") t = false ∧
      hasKey (lit "USEC_INITIALIZED") t = false) ∧
    (hasKey (lit "DEVPATH") t = true →
      hasKey (lit "ACTION") t = false ∧ hasKey (lit "KERNEL") t = false ∧
      hasKey (lit "DEVNAME") t = false ∧ hasKey (lit "SUBSYSTEM") t = false ∧
      hasKey (lit "USEC_INITIALIZED") t = false) ∧
    (hasKey (lit "DEVNAME") t = true →
      hasKey (lit "ACTION") t = false ∧ hasKey (lit "KERNEL") t = false ∧
      hasKey (lit "DEVPATH") t = false ∧ hasKey (lit "SUBSYSTEM") t = false ∧
      hasKey (lit "USEC_INITIALIZED") t = false) ∧
    (hasKey (lit "SUBSYSTEM") t = true →
      hasKey (lit "ACTION") t = false ∧ hasKey (lit "KERNEL") t = false ∧
      hasKey (lit "DEVPATH") t = false ∧ hasKey (lit "DEVNAME") t = false ∧
      hasKey (lit "USEC_INITIALIZED") t = false) := by
  refine ⟨fun h => ⟨?_, ?_, ?_, ?_, ?_⟩, fun h => ⟨?_, ?_, ?_, ?_, ?_⟩,
    fun h => ⟨?_, ?_, ?_, ?_, ?_⟩, fun h => ⟨?_, ?_, ?_, ?_, ?_⟩,
    fun h => ⟨?_, ?_, ?_, ?_, ?_⟩⟩ <;>
  exact hasKey_excl _ _ t (by decide) (by decide) h

/-- One step of the scan on a token with `=`, in terms of the last token with
each key. -/
theorem assignView_last (t : List Nat) (e : Nat) (ts : List (List Nat)) (w : View) (i : Nat)
    (he : findByte 61 t = some e) :
    assignView t e (lastView ts w) (lastInitialized ts i)
      = (lastView (ts ++ [t]) w, lastInitialized (ts ++ [t]) i) := by
  obtain ⟨hA, hK, hP, hN, hS⟩ := keys_exclusive t
  have hv : valueOf t = t.drop (e + 1) := by unfold valueOf; simp only [he]
  have hk : ∀ key : List Nat, (t.take key.length == key) = hasKey key t := fun _ => rfl
  unfold assignView
  simp only [hk]
  unfold lastView lastInitialized lastValue lastToken
  simp only [lastWith_snoc]
  by_cases h1 : hasKey (lit "ACTION") t = true
  · obtain ⟨a, b, c, d, f⟩ := hA h1
    simp [h1, a, b, c, d, f, hv]
  · rw [Bool.not_eq_true] at h1
    by_cases h2 : hasKey (lit "KERNEL") t = true
    · obtain ⟨a, b, c, d, f⟩ := hK h2
      simp [h2, a, b, c, d, f, hv]
    · rw [Bool.not_eq_true] at h2
      by_cases h3 : hasKey (lit "DEVPATH") t = true
      · obtain ⟨a, b, c, d, f⟩ := hP h3
        simp [h3, a, b, c, d, f, hv]
      · rw [Bool.not_eq_true] at h3
        by_cases h4 : hasKey (lit "DEVNAME") t = true
        · obtain ⟨a, b, c, d, f⟩ := hN h4
          simp [h4, a, b, c, d, f, hv]
        · rw [Bool.not_eq_true] at h4
          by_cases h5 : hasKey (lit "SUBSYSTEM") t = true
          · obtain ⟨a, b, c, d, f⟩ := hS h5
            simp [h5, a, b, c, d, f, hv]
          · rw [Bool.not_eq_true] at h5
            by_cases h6 : hasKey (lit "USEC_INITIALIZED") t = true
            · simp [h1, h2, h3, h4, h5, h6, hv]
            · rw [Bool.not_eq_true] at h6
              simp [h1, h2, h3, h4, h5, h6]

/-- The scan of tokens that all contain `=` leaves every field with what the
last token with its key gives, and the old value where no token has the key. -/
theorem decodeToks_last (toks : List (List Nat)) (w : View) (i : Nat)
    (h : ∀ t ∈ toks, 61 ∈ t) :
    decodeToks toks w i = (lastView toks w, lastInitialized toks i) := by
  induction toks using List.reverseRecOn with
  | nil => rfl
  | append_singleton ts t ih =>
    have hts : ∀ u ∈ ts, 61 ∈ u := fun u hu => h u (List.mem_append_left _ hu)
    obtain ⟨e, he⟩ := findByte_of_mem 61 t (h t (by simp))
    rw [decodeToks_append ts [t] w i hts, ih hts]
    rw [decodeToks]
    simp only [he]
    rw [decodeToks, assignView_last t e ts w i he]

theorem assign_env_len (buf : List Nat) (k v : Nat) (vs : Vars) (i : Nat) :
    (assign buf k v vs i).1.env_len = vs.env_len := by
  unfold assign
  split_ifs <;> rfl

theorem scan_env_len (buf : List Nat) (len : Nat) :
    ∀ (fuel s : Nat) (vs : Vars) (i : Nat) (r : Vars × Nat),
      scan fuel buf len s vs i = some r → r.1.env_len = vs.env_len := by
  intro fuel
  induction fuel with
  | zero =>
    intro s vs i r hr
    unfold scan at hr
    cases hn : strchr_nul buf s with
    | outside => simp [hn] at hr
    | behind =>
      simp only [hn, Option.some.injEq] at hr
      rw [← hr]
    | found n =>
      simp only [hn, Option.some.injEq] at hr
      rw [← hr]
  | succ fuel ih =>
    intro s vs i r hr
    unfold scan at hr
    cases hn : strchr_nul buf s with
    | outside => simp [hn] at hr
    | behind =>
      simp only [hn, Option.some.injEq] at hr
      rw [← hr]
    | found n =>
      simp only [hn] at hr
      split_ifs at hr
      · cases he : strchr buf s 61 with
        | none =>
          simp only [he, Option.some.injEq] at hr
          rw [← hr]
        | some e =>
          simp only [he] at hr
          rw [ih _ _ _ r hr, assign_env_len]
      · simp only [Option.some.injEq] at hr
        rw [← hr]

/-- Tokens behind the first token without `=` do not matter to the scan. -/
theorem decodeToks_tail (good tail : List (List Nat)) (w : View) (i : Nat)
    (hgood : ∀ t ∈ good, 61 ∈ t) (hbad : ∀ t, tail.head? = some t → 61 ∉ t) :
    decodeToks (good ++ tail) w i = (lastView good w, lastInitialized good i) := by
  rw [← decodeToks_last good w i hgood]
  cases tail with
  | nil => rw [List.append_nil]
  | cons bad after => exact decodeToks_stop good after bad w i (hbad bad rfl)

/-- The loop body on a well-formed plain datagram: the tokens `good`, which
all contain `=`, are followed by nothing or by a token without `=` and further
tokens.  The rest of the body runs on variables that denote, field by field,
what the last token with the key gives. -/
theorem body_plain_last (hostLE : Bool) (buf hdr : List Nat) (good tail : List (List Nat))
    (vs : Vars)
    (hhdr : 0 ∉ hdr) (hgood : ∀ t ∈ good, 0 ∉ t ∧ 61 ∈ t) (htail : ∀ t ∈ tail, 0 ∉ t)
    (hbad : ∀ t, tail.head? = some t → 61 ∉ t)
    (hsize : (datagram hdr (good ++ tail)).length ≤ BUFSIZE)
    (hplain : (recvInto buf (datagram hdr (good ++ tail))).take 8 ≠ LIBUDEV) :
    ∃ vs1,
      body hostLE (recvInto buf (datagram hdr (good ++ tail)))
          (datagram hdr (good ++ tail)).length vs
        = finish (recvInto buf (datagram hdr (good ++ tail))) vs1 (lastInitialized good 0) ∧
      view (recvInto buf (datagram hdr (good ++ tail))) vs1
        = lastView good (view (recvInto buf (datagram hdr (good ++ tail))) vs) ∧
      vs1.env_len = vs.env_len := by
  have htoks : ∀ t ∈ good ++ tail, 0 ∉ t := by
    intro t ht
    rcases List.mem_append.mp ht with h | h
    · exact (hgood t h).1
    · exact htail t h
  have heq : ∀ t ∈ good, 61 ∈ t := fun t ht => (hgood t ht).2
  generalize hd : good ++ tail = toks at hsize hplain htoks
  have hb : recvInto buf (datagram hdr toks)
      = (hdr ++ [0]) ++ properties toks ++ [] ++ buf.drop (datagram hdr toks).length := by
    rw [recvInto_fits buf _ hsize]; simp [datagram]
  have hb0 : recvInto buf (datagram hdr toks)
      = [] ++ hdr ++ 0 :: (properties toks ++ buf.drop (datagram hdr toks).length) := by
    rw [hb]; simp
  have hc : cstr (recvInto buf (datagram hdr toks)) 0 = hdr := by
    rw [hb0]; exact cstr_token [] hdr _ hhdr
  have hstart : scanStart hostLE (recvInto buf (datagram hdr toks)) = some (hdr.length + 1) := by
    unfold scanStart
    have : ((recvInto buf (datagram hdr toks)).take 8 == LIBUDEV) = false := by
      rw [Bool.eq_false_iff]; simpa using hplain
    simp only [this, Bool.false_eq_true, if_false, hc]
  have hlen : (datagram hdr toks).length
      = (hdr ++ [0]).length + (properties toks).length + ([] : List Nat).length := by
    simp [datagram]; omega
  have hfuel : toks.length ≤ (datagram hdr toks).length := by
    have := length_le_properties toks
    simp [datagram]; omega
  have hpre : hdr.length + 1 = (hdr ++ [0]).length := by simp
  obtain ⟨r, hr, h1, h2⟩ := scan_tokens (recvInto buf (datagram hdr toks)) []
    (buf.drop (datagram hdr toks).length) toks (datagram hdr toks).length (hdr ++ [0]) vs 0
    htoks (by simp) hfuel hb
  rw [← hlen] at hr
  have hdec := decodeToks_tail good tail (view (recvInto buf (datagram hdr toks)) vs) 0 heq hbad
  rw [hd] at hdec
  rw [hdec] at h1 h2
  refine ⟨r.1, ?_, h1, scan_env_len _ _ _ _ _ _ r hr⟩
  unfold body
  simp only [hstart, hpre, hr]
  rw [h2]

/-! ## The rest of the loop body, by cases -/

theorem finish_zero (buf : List Nat) (vs : Vars) :
    finish buf vs 0 = ⟨vs, none, Flow.returned⟩ := by
  unfold finish
  split_ifs <;> first | rfl | omega

theorem finish_isSome_iff (buf : List Nat) (vs : Vars) (i : Nat) (hi : i ≠ 0) :
    (finish buf vs i).emitted.isSome = true ↔
      (vs.action.isSome = true ∧ vs.devpath.isSome = true ∧ vs.subsystem.isSome = true) := by
  unfold finish
  cases vs.action <;> cases vs.devpath <;> cases vs.subsystem <;> simp [hi]

theorem finish_emission (buf : List Nat) (vs : Vars) (i : Nat) (e : Emission)
    (h : (finish buf vs i).emitted = some e) :
    ∃ pa ps, vs.action = some pa ∧ vs.subsystem = some ps ∧ vs.devpath.isSome = true ∧ i ≠ 0 ∧
      e = ⟨deviceEventName (cstr buf ps) (cstr buf pa), envStrings (envAction buf vs).1, false⟩ := by
  by_cases hi : i = 0
  · rw [hi, finish_zero] at h
    simp at h
  · have hs := (finish_isSome_iff buf vs i hi).mp (by rw [h]; rfl)
    obtain ⟨pa, hpa⟩ := Option.isSome_iff_exists.mp hs.1
    obtain ⟨ps, hps⟩ := Option.isSome_iff_exists.mp hs.2.2
    rw [finish_emits buf vs i ps pa hpa hps hs.2.1 hi] at h
    simp only [Option.some.injEq] at h
    exact ⟨pa, ps, hpa, hps, hs.2.1, hi, h.symm⟩

/-- A field pointer and the pointer to its token, when they denote what the
last token with the key gives and were unset before: the entry the field
contributes to the environment is that token, and the string of the field is
its value. -/
theorem field_of_view (buf key : List Nat) (toks : List (List Nat)) (p pv : Option Nat)
    (hv : p.map (cstr buf) = lastValue key toks none)
    (hvar : pv.map (cstr buf) = lastToken key toks none) :
    (if p.isSome then [strdup buf pv] else []) = (lastWith key toks).toList ∧
    (∀ q, p = some q → ∃ t, lastWith key toks = some t ∧ cstr buf q = valueOf t) := by
  unfold lastValue at hv
  unfold lastToken at hvar
  cases hl : lastWith key toks with
  | none =>
    rw [hl] at hv
    cases p with
    | none => simp
    | some q => simp at hv
  | some t =>
    rw [hl] at hv hvar
    cases p with
    | none => simp at hv
    | some q =>
      cases pv with
      | none => simp at hvar
      | some qv =>
        simp only [Option.map_some', Option.some.injEq] at hv hvar
        simp [strdup, hvar, hv]

/-- The part that other keys contribute to the entries with a key: none. -/
theorem filter_other_key (k key : List Nat) (toks : List (List Nat))
    (hex : ∀ t, hasKey k t = true → hasKey key t = false) :
    (lastWith k toks).toList.filter (hasKey key) = [] := by
  cases hl : lastWith k toks with
  | none => rfl
  | some t =>
    have := hex t (lastWith_hasKey k t toks hl).1
    simp [Option.toList, this]

theorem filter_own_key (k key : List Nat) (toks : List (List Nat)) :
    ((lastWith k toks).toList.filter (hasKey key)).length ≤ 1 := by
  cases hl : lastWith k toks with
  | none => simp [Option.toList]
  | some t =>
    refine Nat.le_trans (List.length_filter_le _ _) ?_
    simp [Option.toList]

/-! ## Duplicate keys -/

/-- C21: in a well-formed plain datagram (a header without NUL, tokens `good`
that each contain `=`, then nothing or a token without `=` and further tokens,
at most 4096 bytes) a key that begins more than one token of `good` is decoded
from the last of them: whatever the variables held before, the field pointer
denotes the value of the last token with the key and the token pointer that
token itself.  For the first datagram of a wakeup the environment of the
emission consists of the last token with each of the keys `KERNEL`, `DEVPATH`,
`DEVNAME`, `SUBSYSTEM`, `ACTION`, in this order, so it has at most one entry
that begins with any of these keys, and the name is built from the values of
the last `SUBSYSTEM` and the last `ACTION` token. -/
theorem duplicate_key_last_wins (hostLE : Bool) (stack buf hdr : List Nat)
    (good tail : List (List Nat)) (vs : Vars)
    (hhdr : 0 ∉ hdr) (hgood : ∀ t ∈ good, 0 ∉ t ∧ 61 ∈ t) (htail : ∀ t ∈ tail, 0 ∉ t)
    (hbad : ∀ t, tail.head? = some t → 61 ∉ t)
    (hsize : (datagram hdr (good ++ tail)).length ≤ BUFSIZE)
    (hbuf : buf = recvInto stack (datagram hdr (good ++ tail)))
    (hplain : buf.take 8 ≠ LIBUDEV) :
    (∀ (key t : List Nat) (pre post : List (List Nat)) (old : Option (List Nat)),
      good = pre ++ t :: post → hasKey key t = true → (∀ u ∈ post, hasKey key u = false) →
      lastValue key good old = some (valueOf t) ∧ lastToken key good old = some t) ∧
    (∃ vs1, body hostLE buf (datagram hdr (good ++ tail)).length vs
        = finish buf vs1 (lastInitialized good 0) ∧
      view buf vs1 = lastView good (view buf vs)) ∧
    (∀ e, (body hostLE buf (datagram hdr (good ++ tail)).length Vars.init).emitted = some e →
      e.env = (lastWith (lit "KERNEL") good).toList ++ (lastWith (lit "DEVPATH") good).toList
        ++ (lastWith (lit "DEVNAME") good).toList ++ (lastWith (lit "SUBSYSTEM") good).toList
        ++ (lastWith (lit "ACTION") good).toList ∧
      (∀ key ∈ fieldKeys, (e.env.filter (hasKey key)).length ≤ 1) ∧
      ∃ tS tA, lastWith (lit "SUBSYSTEM") good = some tS ∧
        lastWith (lit "ACTION") good = some tA ∧
        e.name = deviceEventName (valueOf tS) (valueOf tA)) := by
  subst hbuf
  refine ⟨?_, ?_, ?_⟩
  · intro key t pre post old hg ht hpost
    unfold lastValue lastToken
    rw [hg, lastWith_last key t pre post ht hpost]
    exact ⟨rfl, rfl⟩
  · obtain ⟨vs1, h1, h2, _⟩ := body_plain_last hostLE stack hdr good tail vs hhdr hgood htail hbad
      hsize hplain
    exact ⟨vs1, h1, h2⟩
  · intro e he
    obtain ⟨vs1, hb, hview, hlen⟩ := body_plain_last hostLE stack hdr good tail Vars.init hhdr
      hgood htail hbad hsize hplain
    rw [hb] at he
    obtain ⟨pa, ps, hpa, hps, hd, _, he⟩ := finish_emission _ _ _ _ he
    have hA := field_of_view _ (lit "ACTION") good vs1.action vs1.action_var
      (congrArg View.action hview) (congrArg View.action_var hview)
    have hS := field_of_view _ (lit "SUBSYSTEM") good vs1.subsystem vs1.subsystem_var
      (congrArg View.subsystem hview) (congrArg View.subsystem_var hview)
    have hP := field_of_view _ (lit "DEVPATH") good vs1.devpath vs1.devpath_var
      (congrArg View.devpath hview) (congrArg View.devpath_var hview)
    have hK := field_of_view _ (lit "KERNEL") good vs1.kernel vs1.kernel_var
      (congrArg View.kernel hview) (congrArg View.kernel_var hview)
    have hN := field_of_view _ (lit "DEVNAME") good vs1.devname vs1.devname_var
      (congrArg View.devname hview) (congrArg View.devname_var hview)
    have henv : e.env = (lastWith (lit "KERNEL") good).toList
        ++ (lastWith (lit "DEVPATH") good).toList
        ++ (lastWith (lit "DEVNAME") good).toList ++ (lastWith (lit "SUBSYSTEM") good).toList
        ++ (lastWith (lit "ACTION") good).toList := by
      rw [he]
      show envStrings (envAction _ vs1).1 = _
      rw [envAction_first _ vs1 hlen, ← hK.1, ← hN.1, ← hP.1, ← hS.1, ← hA.1]
      simp [hd, hpa, hps]
    refine ⟨henv, ?_, ?_⟩
    · have xA := fun t => (keys_exclusive t).1
      have xK := fun t => (keys_exclusive t).2.1
      have xP := fun t => (keys_exclusive t).2.2.1
      have xN := fun t => (keys_exclusive t).2.2.2.1
      have xS := fun t => (keys_exclusive t).2.2.2.2
      intro key hkey
      rw [henv]
      simp only [List.filter_append, List.length_append]
      have hA1 := filter_own_key (lit "ACTION") key good
      have hK1 := filter_own_key (lit "KERNEL") key good
      have hP1 := filter_own_key (lit "DEVPATH") key good
      have hN1 := filter_own_key (lit "DEVNAME") key good
      have hS1 := filter_own_key (lit "SUBSYSTEM") key good
      simp only [fieldKeys, List.mem_cons, List.mem_singleton, List.not_mem_nil, or_false]
        at hkey
      rcases hkey with rfl | rfl | rfl | rfl | rfl
      · rw [filter_other_key (lit "DEVPATH") _ good (fun t h => (xP t h).2.1),
          filter_other_key (lit "DEVNAME") _ good (fun t h => (xN t h).2.1),
          filter_other_key (lit "SUBSYSTEM") _ good (fun t h => (xS t h).2.1),
          filter_other_key (lit "ACTION") _ good (fun t h => (xA t h).1)]
        simpa using hK1
      · rw [filter_other_key (lit "KERNEL") _ good (fun t h => (xK t h).2.1),
          filter_other_key (lit "DEVNAME") _ good (fun t h => (xN t h).2.2.1),
          filter_other_key (lit "SUBSYSTEM") _ good (fun t h => (xS t h).2.2.1),
          filter_other_key (lit "ACTION") _ good (fun t h => (xA t h).2.1)]
        simpa using hP1
      · rw [filter_other_key (lit "KERNEL") _ good (fun t h => (xK t h).2.2.1),
          filter_other_key (lit "DEVPATH") _ good (fun t h => (xP t h).2.2.1),
          filter_other_key (lit "SUBSYSTEM") _ good (fun t h => (xS t h).2.2.2.1),
          filter_other_key (lit "ACTION") _ good (fun t h => (xA t h).2.2.1)]
        simpa using hN1
      · rw [filter_other_key (lit "KERNEL") _ good (fun t h => (xK t h).2.2.2.1),
          filter_other_key (lit "DEVPATH") _ good (fun t h => (xP t h).2.2.2.1),
          filter_other_key (lit "DEVNAME") _ good (fun t h => (xN t h).2.2.2.1),
          filter_other_key (lit "ACTION") _ good (fun t h => (xA t h).2.2.2.1)]
        simpa using hS1
      · rw [filter_other_key (lit "KERNEL") _ good (fun t h => (xK t h).1),
          filter_other_key (lit "DEVPATH") _ good (fun t h => (xP t h).1),
          filter_other_key (lit "DEVNAME") _ good (fun t h => (xN t h).1),
          filter_other_key (lit "SUBSYSTEM") _ good (fun t h => (xS t h).1)]
        simpa using hA1
    · obtain ⟨tS, hS1, hS2⟩ := hS.2 ps hps
      obtain ⟨tA, hA1, hA2⟩ := hA.2 pa hpa
      refine ⟨tS, tA, hS1, hA1, ?_⟩
      rw [he, hS2, hA2]

theorem duplicate_key_last_wins_witness :
    (∀ (key t : List Nat) (pre post : List (List Nat)) (old : Option (List Nat)),
      duplicateTokens = pre ++ t :: post → hasKey key t = true →
      (∀ u ∈ post, hasKey key u = false) →
      lastValue key duplicateTokens old = some (valueOf t) ∧
      lastToken key duplicateTokens old = some t) ∧
    (∃ vs1, body true (recvInto zeroStack (datagram (lit "add@/y") (duplicateTokens ++ [])))
          (datagram (lit "add@/y") (duplicateTokens ++ [])).length Vars.init
        = finish (recvInto zeroStack (datagram (lit "add@/y") (duplicateTokens ++ []))) vs1
            (lastInitialized duplicateTokens 0) ∧
      view (recvInto zeroStack (datagram (lit "add@/y") (duplicateTokens ++ []))) vs1
        = lastView duplicateTokens
            (view (recvInto zeroStack (datagram (lit "add@/y") (duplicateTokens ++ [])))
              Vars.init)) ∧
    (∀ e, (body true (recvInto zeroStack (datagram (lit "add@/y") (duplicateTokens ++ [])))
          (datagram (lit "add@/y") (duplicateTokens ++ [])).length Vars.init).emitted = some e →
      e.env = (lastWith (lit "KERNEL") duplicateTokens).toList
        ++ (lastWith (lit "DEVPATH") duplicateTokens).toList
        ++ (lastWith (lit "DEVNAME") duplicateTokens).toList
        ++ (lastWith (lit "SUBSYSTEM") duplicateTokens).toList
        ++ (lastWith (lit "ACTION") duplicateTokens).toList ∧
      (∀ key ∈ fieldKeys, (e.env.filter (hasKey key)).length ≤ 1) ∧
      ∃ tS tA, lastWith (lit "SUBSYSTEM") duplicateTokens = some tS ∧
        lastWith (lit "ACTION") duplicateTokens = some tA ∧
        e.name = deviceEventName (valueOf tS) (valueOf tA)) :=
  duplicate_key_last_wins true zeroStack _ (lit "add@/y") duplicateTokens [] Vars.init
    (by decide) (by decide) (by decide) (by decide) (by decide!) rfl (by decide!)

/-- The record with every key twice, as the only datagram of a wakeup: one
emission, named after the second `SUBSYSTEM` and the second `ACTION` token,
with the second token of each key in its environment; the second
`USEC_INITIALIZED` token decides that it is emitted. -/
theorem duplicate_keys_example :
    (netlink_monitor_watcher true zeroStack [duplicatesRecord]).1
      = [⟨lit "w-device-removed",
          [lit "KERNEL=k1", lit "DEVPATH=/z", lit "DEVNAME=n1", lit "SUBSYSTEM=w",
            lit "ACTION=remove"], false⟩] ∧
    lastWith (lit "ACTION") duplicateTokens = some (lit "ACTION=remove") ∧
    valueOf (lit "ACTION=remove") = lit "remove" ∧
    lastInitialized duplicateTokens 0 = 1 := by
  refine ⟨?_, ?_, ?_, ?_⟩ <;> decide!

/-! ## Reading `USEC_INITIALIZED` -/

/-- Leading white space does not change what `strtol` reads. -/
theorem strtol_skip_space (ws s : List Nat) (h : ∀ c ∈ ws, isspace c = true) :
    strtol (ws ++ s) = strtol s := by
  have hd : (ws ++ s).dropWhile isspace = s.dropWhile isspace := by
    induction ws with
    | nil => rfl
    | cons c rest ih =>
      rw [List.cons_append, List.dropWhile_cons, if_pos (h c (List.mem_cons_self _ _))]
      exact ih (fun d hd => h d (List.mem_cons_of_mem _ hd))
  unfold strtol
  rw [hd]

/-- The conversion of digits stops at the first byte that is not a digit of
the base. -/
theorem parseDigits_stop (base c : Nat) (r : List Nat) (hc : isDigitOf base c = false) :
    ∀ (ds : List Nat) (acc : Nat), (∀ d ∈ ds, isDigitOf base d = true) →
      parseDigits base (ds ++ c :: r) acc = parseDigits base ds acc := by
  intro ds
  induction ds with
  | nil =>
    intro acc _
    unfold isDigitOf at hc
    rw [List.nil_append, parseDigits, parseDigits]
    cases hv : digitVal c with
    | none => rfl
    | some d =>
      rw [hv] at hc
      have : ¬ d < base := by simpa using hc
      simp only [this, if_false]
  | cons d rest ih =>
    intro acc h
    have hd := h d (List.mem_cons_self _ _)
    unfold isDigitOf at hd
    rw [List.cons_append, parseDigits, parseDigits]
    cases hv : digitVal d with
    | none => rfl
    | some x =>
      rw [hv] at hd
      have hx : x < base := by simpa using hd
      simp only [hx, if_true]
      exact ih _ (fun y hy => h y (List.mem_cons_of_mem _ hy))

theorem toUnsignedLong_eq_zero_iff (v : List Nat) :
    toUnsignedLong (strtol v) = 0 ↔ strtol v = 0 := by
  constructor
  · intro h
    by_contra hne
    exact toUnsignedLong_ne_zero v hne h
  · intro h
    rw [h]
    rfl

/-- C22: in a well-formed plain datagram (a header without NUL, tokens `good`
that each contain `=`, then nothing or a token without `=` and further tokens,
at most 4096 bytes) the value of `initialized` at the end of the scan is the
`strtol` reading, with base 0, of the value of the last token that begins with
`USEC_INITIALIZED`, and 0 when there is no such token, whatever was decoded
before; it is 0 exactly when `strtol` reads 0; when it is 0 the loop body
returns without an emission, and when it is not 0 the body makes an emission
exactly when `action`, `devpath` and `subsystem` are set.  The reading skips
white space, takes a sign, reads `0x` as hexadecimal and a leading `0` as
octal, and stops at the first byte that is not a digit of the base, so that
`08`, `0` and text that does not start with a number are read as 0. -/
theorem usec_initialized_parse (hostLE : Bool) (stack buf hdr : List Nat)
    (good tail : List (List Nat)) (vs : Vars)
    (hhdr : 0 ∉ hdr) (hgood : ∀ t ∈ good, 0 ∉ t ∧ 61 ∈ t) (htail : ∀ t ∈ tail, 0 ∉ t)
    (hbad : ∀ t, tail.head? = some t → 61 ∉ t)
    (hsize : (datagram hdr (good ++ tail)).length ≤ BUFSIZE)
    (hbuf : buf = recvInto stack (datagram hdr (good ++ tail)))
    (hplain : buf.take 8 ≠ LIBUDEV) :
    (∃ vs1, body hostLE buf (datagram hdr (good ++ tail)).length vs
        = finish buf vs1 (lastInitialized good 0) ∧
      view buf vs1 = lastView good (view buf vs)) ∧
    (∀ t, lastWith (lit "USEC_INITIALIZED") good = some t →
      lastInitialized good 0 = toUnsignedLong (strtol (valueOf t)) ∧
      (lastInitialized good 0 = 0 ↔ strtol (valueOf t) = 0)) ∧
    (lastWith (lit "USEC_INITIALIZED") good = none → lastInitialized good 0 = 0) ∧
    (lastInitialized good 0 = 0 →
      (body hostLE buf (datagram hdr (good ++ tail)).length vs).emitted = none ∧
      (body hostLE buf (datagram hdr (good ++ tail)).length vs).flow = Flow.returned) ∧
    (lastInitialized good 0 ≠ 0 →
      ((body hostLE buf (datagram hdr (good ++ tail)).length vs).emitted.isSome = true ↔
        ((lastView good (view buf vs)).action.isSome = true ∧
          (lastView good (view buf vs)).devpath.isSome = true ∧
          (lastView good (view buf vs)).subsystem.isSome = true))) ∧
    (∀ ws s : List Nat, (∀ c ∈ ws, isspace c = true) → strtol (ws ++ s) = strtol s) ∧
    (∀ (base c : Nat) (ds r : List Nat) (acc : Nat), isDigitOf base c = false →
      (∀ d ∈ ds, isDigitOf base d = true) →
      parseDigits base (ds ++ c :: r) acc = parseDigits base ds acc) ∧
    (strtol (lit "1") = 1 ∧ strtol (lit "  +12abc") = 12 ∧ strtol (lit "-5") = -5 ∧
      strtol (lit "0x10") = 16 ∧ strtol (lit "0X1f") = 31 ∧ strtol (lit "010") = 8 ∧
      strtol (lit "08") = 0 ∧ strtol (lit "0") = 0 ∧ strtol (lit "0x") = 0 ∧
      strtol (lit "abc") = 0 ∧ strtol (lit "") = 0 ∧ strtol (lit "=1") = 0) := by
  subst hbuf
  obtain ⟨vs1, hb, hview, _⟩ := body_plain_last hostLE stack hdr good tail vs hhdr hgood htail
    hbad hsize hplain
  refine ⟨⟨vs1, hb, hview⟩, ?_, ?_, ?_, ?_, strtol_skip_space, ?_, ?_⟩
  · intro t ht
    have hl : lastInitialized good 0 = toUnsignedLong (strtol (valueOf t)) := by
      unfold lastInitialized
      rw [ht]
    exact ⟨hl, by rw [hl]; exact toUnsignedLong_eq_zero_iff _⟩
  · intro hn
    unfold lastInitialized
    rw [hn]
  · intro h0
    rw [hb, h0, finish_zero]
    exact ⟨rfl, rfl⟩
  · intro hne
    rw [hb, finish_isSome_iff _ vs1 _ hne, ← hview]
    simp [view]
  · intro base c ds r acc hc hds
    exact parseDigits_stop base c r hc ds acc hds
  · refine ⟨?_, ?_, ?_, ?_, ?_, ?_, ?_, ?_, ?_, ?_, ?_, ?_⟩ <;> decide!

theorem usec_initialized_parse_witness :
    (∃ vs1, body true
          (recvInto zeroStack
            (datagram (lit "add@/y") ([lit "ACTION=add", lit "USEC_INITIALIZED=08"] ++ [])))
          (datagram (lit "add@/y")
            ([lit "ACTION=add", lit "USEC_INITIALIZED=08"] ++ [])).length Vars.init
        = finish
            (recvInto zeroStack
              (datagram (lit "add@/y") ([lit "ACTION=add", lit "USEC_INITIALIZED=08"] ++ [])))
            vs1 (lastInitialized [lit "ACTION=add", lit "USEC_INITIALIZED=08"] 0) ∧
      view
          (recvInto zeroStack
            (datagram (lit "add@/y") ([lit "ACTION=add", lit "USEC_INITIALIZED=08"] ++ [])))
          vs1
        = lastView [lit "ACTION=add", lit "USEC_INITIALIZED=08"]
            (view
              (recvInto zeroStack
                (datagram (lit "add@/y") ([lit "ACTION=add", lit "USEC_INITIALIZED=08"] ++ [])))
              Vars.init)) ∧
    (∀ t, lastWith (lit "USEC_INITIALIZED") [lit "ACTION=add", lit "USEC_INITIALIZED=08"]
        = some t →
      lastInitialized [lit "ACTION=add", lit "USEC_INITIALIZED=08"] 0
        = toUnsignedLong (strtol (valueOf t)) ∧
      (lastInitialized [lit "ACTION=add", lit "USEC_INITIALIZED=08"] 0 = 0 ↔
        strtol (valueOf t) = 0)) ∧
    (lastWith (lit "USEC_INITIALIZED") [lit "ACTION=add", lit "USEC_INITIALIZED=08"] = none →
      lastInitialized [lit "ACTION=add", lit "USEC_INITIALIZED=08"] 0 = 0) ∧
    (lastInitialized [lit "ACTION=add", lit "USEC_INITIALIZED=08"] 0 = 0 →
      (body true
          (recvInto zeroStack
            (datagram (lit "add@/y") ([lit "ACTION=add", lit "USEC_INITIALIZED=08"] ++ [])))
          (datagram (lit "add@/y")
            ([lit "ACTION=add", lit "USEC_INITIALIZED=08"] ++ [])).length Vars.init).emitted
        = none ∧
      (body true
          (recvInto zeroStack
            (datagram (lit "add@/y") ([lit "ACTION=add", lit "USEC_INITIALIZED=08"] ++ [])))
          (datagram (lit "add@/y")
            ([lit "ACTION=add", lit "USEC_INITIALIZED=08"] ++ [])).length Vars.init).flow
        = Flow.returned) ∧
    (lastInitialized [lit "ACTION=add", lit "USEC_INITIALIZED=08"] 0 ≠ 0 →
      ((body true
          (recvInto zeroStack
            (datagram (lit "add@/y") ([lit "ACTION=add", lit "USEC_INITIALIZED=08"] ++ [])))
          (datagram (lit "add@/y")
            ([lit "ACTION=add", lit "USEC_INITIALIZED=08"] ++ [])).length
          Vars.init).emitted.isSome = true ↔
        ((lastView [lit "ACTION=add", lit "USEC_INITIALIZED=08"]
            (view
              (recvInto zeroStack
                (datagram (lit "add@/y") ([lit "ACTION=add", lit "USEC_INITIALIZED=08"] ++ [])))
              Vars.init)).action.isSome = true ∧
          (lastView [lit "ACTION=add", lit "USEC_INITIALIZED=08"]
            (view
              (recvInto zeroStack
                (datagram (lit "add@/y") ([lit "ACTION=add", lit "USEC_INITIALIZED=08"] ++ [])))
              Vars.init)).devpath.isSome = true ∧
          (lastView [lit "ACTION=add", lit "USEC_INITIALIZED=08"]
            (view
              (recvInto zeroStack
                (datagram (lit "add@/y") ([lit "ACTION=add", lit "USEC_INITIALIZED=08"] ++ [])))
              Vars.init)).subsystem.isSome = true))) ∧
    (∀ ws s : List Nat, (∀ c ∈ ws, isspace c = true) → strtol (ws ++ s) = strtol s) ∧
    (∀ (base c : Nat) (ds r : List Nat) (acc : Nat), isDigitOf base c = false →
      (∀ d ∈ ds, isDigitOf base d = true) →
      parseDigits base (ds ++ c :: r) acc = parseDigits base ds acc) ∧
    (strtol (lit "1") = 1 ∧ strtol (lit "  +12abc") = 12 ∧ strtol (lit "-5") = -5 ∧
      strtol (lit "0x10") = 16 ∧ strtol (lit "0X1f") = 31 ∧ strtol (lit "010") = 8 ∧
      strtol (lit "08") = 0 ∧ strtol (lit "0") = 0 ∧ strtol (lit "0x") = 0 ∧
      strtol (lit "abc") = 0 ∧ strtol (lit "") = 0 ∧ strtol (lit "=1") = 0) :=
  usec_initialized_parse true zeroStack _ (lit "add@/y")
    [lit "ACTION=add", lit "USEC_INITIALIZED=08"] [] Vars.init
    (by decide) (by decide) (by decide) (by decide) (by decide!) rfl (by decide!)

/-- Records that differ in the value of `USEC_INITIALIZED` only, each as the
only datagram of a wakeup: those whose value `strtol` reads as 0 are not
emitted, the others are; and a record without the token is not emitted behind
one that had `USEC_INITIALIZED=1`. -/
theorem usec_examples :
    (netlink_monitor_watcher true zeroStack [usecRecord (lit "08")]).1 = [] ∧
    (netlink_monitor_watcher true zeroStack [usecRecord (lit "0")]).1 = [] ∧
    (netlink_monitor_watcher true zeroStack [usecRecord (lit "abc")]).1 = [] ∧
    (netlink_monitor_watcher true zeroStack [usecRecord (lit "")]).1 = [] ∧
    (netlink_monitor_watcher true zeroStack [usecRecord (lit "0x10")]).1.map (fun e => e.name)
      = [lit "x-device-added"] ∧
    (netlink_monitor_watcher true zeroStack [usecRecord (lit "010")]).1.map (fun e => e.name)
      = [lit "x-device-added"] ∧
    (netlink_monitor_watcher true zeroStack [usecRecord (lit " 7")]).1.map (fun e => e.name)
      = [lit "x-device-added"] ∧
    (netlink_monitor_watcher true zeroStack [usecRecord (lit "-1")]).1.map (fun e => e.name)
      = [lit "x-device-added"] ∧
    (netlink_monitor_watcher true zeroStack [usecRecord (lit "1"), noUsecRecord]).1.map
        (fun e => e.name)
      = [lit "x-device-added"] := by
  refine ⟨?_, ?_, ?_, ?_, ?_, ?_, ?_, ?_, ?_⟩ <;> decide!

end Uevent
